import Mathlib

/-!
# discord-chatbot: conversation session manager

A shallow embedding of `internal/services` (types.go, prompt_manager.go,
openai.go, chat_manager.go, proxy_client.go) and theorems about it.

Modelling decisions.

* One run is sequential: every method runs to completion before the next one
  starts. The methods of the first sections act on the store and leave the
  calls of the mutexes out. The provider-calling methods (`GenerateResponse`,
  `RegenerateLastResponse`, `ContinueChat`, with `AddMessage` and
  `GenerateCompletion`) are embedded a second time over a `Run`, under their
  qualified names such as `ChatManager.GenerateResponse`, with the calls of
  `cm.mu` and a log of every lock, unlock and provider call.
* Go maps are association lists with one entry per key (`GoMap`).
* `[]Message` values stored in a `ChatSession` are Go slices: a reference to a
  backing array in `State.heap` plus a length. `append` writes in place when
  the backing array has room and allocates a fresh array otherwise, so two
  slices over one array (as `SaveChat` creates them) see each other's writes.
* `time.Now()` is an oracle: the `i`-th reading of the clock is `env.now i`,
  and `State.ticks` counts the readings taken so far.
* `ProxyClient.SendRequest` (one HTTP round trip) is an oracle: the `k`-th call
  answers `env.send k userID messages`. `State.requests` logs every call.
* A run-time panic (an index out of range) is the result `none`.
* The loops over `cm.sessions` visit the sessions in the order of the
  association list; Go leaves the order open.
* Go strings are Lean strings, that is texts of valid UTF-8, as JSON decoding
  delivers every text the bot receives.
* The methods over `State` take `OpenAIService` with its `cache` map allocated
  and its proxy client set, the state in which a provider call can be issued
  at all. `NewOpenAIService`, the only constructor, sets neither field; the
  methods over a `Run` carry the two fields and panic where the program does
  when one is nil. The cached lists are plain values: nothing else holds a
  slice over their backing arrays.
* Of `ProxyClient` the per-user configuration, the parameters of the request
  payload and `extractResponse` over a decoded body are embedded; a `float64`
  parameter is its bit pattern, since the code only stores and copies it.
* A run of the chat manager is a list of calls (`Call`, `runCalls`), executed
  one after the other from a given store.
-/

namespace ChatBot

/-! ## Go maps -/

/-- A Go `map[string]T`: an association list holding each key at most once. -/
abbrev GoMap (α : Type) := List (String × α)

/-- Lookup, `v, ok := m[k]`. -/
def mapGet {α : Type} : GoMap α → String → Option α
  | [], _ => none
  | (k', v) :: rest, k => if k' = k then some v else mapGet rest k

/-- Assignment, `m[k] = v`. -/
def mapSet {α : Type} : GoMap α → String → α → GoMap α
  | [], k, v => [(k, v)]
  | (k', v') :: rest, k, v =>
    if k' = k then (k, v) :: rest else (k', v') :: mapSet rest k v

/-! ## types.go -/

/-- The struct `Message`. `Timestamp` is a clock reading, `0` the zero time. -/
structure Message where
  ID : String
  Role : String
  Content : String
  Timestamp : Nat
deriving DecidableEq, Repr

/-- The zero value of `Message`. -/
def zeroMessage : Message := ⟨"", "", "", 0⟩

/-! ## Slices and their backing arrays -/

/-- The backing arrays allocated so far; an array's length is its capacity. -/
abbrev Heap := List (List Message)

/-- A `[]Message` value: backing array (`none` for a nil or zero-capacity
slice) and length. Every slice of this program starts at offset 0. -/
structure Slice where
  arr : Option Nat
  len : Nat
deriving DecidableEq, Repr

/-- The nil slice, `var messages []Message`. -/
def nilSlice : Slice := ⟨none, 0⟩

/-- The backing array of a slice. -/
def backing (h : Heap) (sl : Slice) : List Message :=
  match sl.arr with
  | none => []
  | some a => h.getD a []

/-- The elements of a slice, in order. -/
def readSlice (h : Heap) (sl : Slice) : List Message :=
  (backing h sl).take sl.len

/-- Go's `len(sl)`. (In Go `len ≤ cap` always; reading the length off the
elements keeps the definition total.) -/
def sliceLen (h : Heap) (sl : Slice) : Nat := (readSlice h sl).length

/-- The environment of a run: the clock, the provider, the spare capacity
the runtime adds when `append` has to grow a slice to `n` elements, and the
RFC 3339 text of a clock reading (it depends on the time zone). -/
structure Env where
  now : Nat → Nat
  send : Nat → String → List Message → Except String String
  spare : Nat → Nat
  timeText : Nat → String

/-- Go's `append(sl, m)`: in place when the backing array has room, into a
freshly allocated array otherwise. -/
def goAppend (env : Env) (h : Heap) (sl : Slice) (m : Message) : Slice × Heap :=
  let n := sliceLen h sl
  let fresh : Slice × Heap := (⟨some h.length, n + 1⟩,
    h ++ [readSlice h sl ++ [m] ++ List.replicate (env.spare (n + 1)) zeroMessage])
  match sl.arr with
  | some a =>
    if n < (h.getD a []).length then
      (⟨some a, n + 1⟩, h.set a ((h.getD a []).set n m))
    else fresh
  | none => fresh

/-- Go's `sl[:k]`. -/
def reslice (sl : Slice) (k : Nat) : Slice := ⟨sl.arr, k⟩

/-! ## prompt_manager.go -/

/-- The struct `UserPrompts`. -/
structure UserPrompts where
  Description : String
  Personality : String
  Scenario : String
  FirstMessage : String
  AuthorsNote : String
  UserPersona : String
  UserToken : String
  SystemPrompts : List String
deriving DecidableEq, Repr

/-- The struct `ChatSession`. -/
structure ChatSession where
  Messages : Slice
  LastActivity : Nat
  IsStreaming : Bool
deriving DecidableEq, Repr

/-- The state of the services: `ChatManager.sessions`, `PromptManager.prompts`,
`OpenAIService.cache`, the heap of backing arrays, the number of clock
readings taken, and the log of provider calls issued. -/
structure State where
  heap : Heap
  sessions : GoMap ChatSession
  prompts : GoMap UserPrompts
  cache : GoMap (List Message)
  ticks : Nat
  requests : List (String × List Message)

/-- The state built by `NewChatManager`, `NewPromptManager`: all maps empty. -/
def State.init : State := ⟨[], [], [], [], 0, []⟩

/-- A call of `time.Now()`. -/
def timeNow (env : Env) (s : State) : Nat × State :=
  (env.now s.ticks, { s with ticks := s.ticks + 1 })

/-- The function `createDefaultPrompts`. -/
def createDefaultPrompts : UserPrompts := ⟨"", "", "", "", "", "", "", []⟩

/-- The method `PromptManager.GetUserPrompts`. -/
def GetUserPrompts (s : State) (userID : String) : UserPrompts :=
  match mapGet s.prompts userID with
  | some prompts => prompts
  | none => createDefaultPrompts

/-- The method `PromptManager.getOrCreatePrompts`. -/
def getOrCreatePrompts (s : State) (userID : String) : UserPrompts × State :=
  match mapGet s.prompts userID with
  | some prompts => (prompts, s)
  | none => (createDefaultPrompts,
      { s with prompts := mapSet s.prompts userID createDefaultPrompts })

/-- The method `PromptManager.BuildPromptList`. -/
def BuildPromptList (env : Env) (s : State) (userID : String) : Slice × State :=
  let prompts := (getOrCreatePrompts s userID).1
  let s0 := (getOrCreatePrompts s userID).2
  let r0 : Slice × Heap := (nilSlice, s0.heap)
  let r1 := if prompts.Description ≠ "" then
      goAppend env r0.2 r0.1 ⟨"", "system", "Character Description: " ++ prompts.Description, 0⟩
    else r0
  let r2 := if prompts.Personality ≠ "" then
      goAppend env r1.2 r1.1 ⟨"", "system", "Personality: " ++ prompts.Personality, 0⟩
    else r1
  let r3 := if prompts.Scenario ≠ "" then
      goAppend env r2.2 r2.1 ⟨"", "system", "Scenario: " ++ prompts.Scenario, 0⟩
    else r2
  let r4 := if prompts.UserPersona ≠ "" then
      goAppend env r3.2 r3.1 ⟨"", "system", "User Persona: " ++ prompts.UserPersona, 0⟩
    else r3
  let r5 := if prompts.FirstMessage ≠ "" then
      goAppend env r4.2 r4.1 ⟨"", "assistant", prompts.FirstMessage, 0⟩
    else r4
  (r5.1, { s0 with heap := r5.2 })

/-- The method `PromptManager.UpdateDefinitions`. -/
def UpdateDefinitions (s : State) (userID : String) (definitions : GoMap String) : State :=
  let prompts := (getOrCreatePrompts s userID).1
  let s0 := (getOrCreatePrompts s userID).2
  let p1 := match mapGet definitions "description" with
    | some desc => { prompts with Description := desc }
    | none => prompts
  let p2 := match mapGet definitions "personality" with
    | some pers => { p1 with Personality := pers }
    | none => p1
  let p3 := match mapGet definitions "scenario" with
    | some scen => { p2 with Scenario := scen }
    | none => p2
  { s0 with prompts := mapSet s0.prompts userID p3 }

/-- The method `PromptManager.SetUserPersona`. -/
def SetUserPersona (s : State) (userID persona : String) : State :=
  let prompts := (getOrCreatePrompts s userID).1
  let s0 := (getOrCreatePrompts s userID).2
  { s0 with prompts := mapSet s0.prompts userID { prompts with UserPersona := persona } }

/-- The method `PromptManager.SetFirstMessage`. -/
def SetFirstMessage (s : State) (userID message : String) : State :=
  let prompts := (getOrCreatePrompts s userID).1
  let s0 := (getOrCreatePrompts s userID).2
  { s0 with prompts := mapSet s0.prompts userID { prompts with FirstMessage := message } }

/-- The method `PromptManager.SetAuthorsNote`. -/
def SetAuthorsNote (s : State) (userID note : String) : State :=
  let prompts := (getOrCreatePrompts s userID).1
  let s0 := (getOrCreatePrompts s userID).2
  { s0 with prompts := mapSet s0.prompts userID { prompts with AuthorsNote := note } }

/-! ## openai.go -/

/-- The struct `CompletionRequest`; `MaxTokens` and `Temperature` are never
set nor read and are left out. -/
structure CompletionRequest where
  UserID : String
  Messages : Slice

/-- The method `ProxyClient.SendRequest`, the provider round trip: the answer
comes from the environment and the call is logged. -/
def SendRequest (env : Env) (s : State) (userID : String) (messages : List Message) :
    Except String String × State :=
  (env.send s.requests.length userID messages,
    { s with requests := s.requests ++ [(userID, messages)] })

/-- The method `OpenAIService.getMessages`. -/
def getMessages (s : State) (userID : String) : List Message :=
  match mapGet s.cache userID with
  | some messages => messages
  | none => []

/-- The body of the method `OpenAIService.GenerateCompletion` for a service
whose `cache` and `proxyClient` are set; the result is Go's pair
`(string, error)`. With a field nil the method panics: see
`OpenAIService.GenerateCompletion` over a `Run`. -/
def GenerateCompletion (env : Env) (s : State) (req : CompletionRequest) :
    (String × Option String) × State :=
  let messages := getMessages s req.UserID ++ readSlice s.heap req.Messages
  let s1 := { s with cache := mapSet s.cache req.UserID messages }
  let sent := SendRequest env s1 req.UserID messages
  match sent.1 with
  | .error err => (("", some ("completion generation failed: " ++ err)), sent.2)
  | .ok response =>
    let reply : Message := ⟨"", "assistant", response, 0⟩
    let cached := mapSet sent.2.cache req.UserID (getMessages sent.2 req.UserID ++ [reply])
    ((response, none), { sent.2 with cache := cached })

/-! ## chat_manager.go -/

/-- The function `GenerateID`. -/
def GenerateID (env : Env) (s : State) : String × State :=
  (toString (timeNow env s).1, (timeNow env s).2)

/-- The method `ChatManager.CreateNewChat`. -/
def CreateNewChat (env : Env) (s : State) (userID : String) : State :=
  let prompts := (BuildPromptList env s userID).1
  let s1 := (BuildPromptList env s userID).2
  let t := timeNow env s1
  { t.2 with sessions := mapSet t.2.sessions userID ⟨prompts, t.1, false⟩ }

/-- The method `ChatManager.ClearChat`. -/
def ClearChat (env : Env) (s : State) (userID : String) : State :=
  let prompts := (BuildPromptList env s userID).1
  let s1 := (BuildPromptList env s userID).2
  let t := timeNow env s1
  { t.2 with sessions := mapSet t.2.sessions userID ⟨prompts, t.1, false⟩ }

/-- The method `ChatManager.getOrCreateSession`. -/
def getOrCreateSession (env : Env) (s : State) (userID : String) : ChatSession × State :=
  match mapGet s.sessions userID with
  | some session => (session, s)
  | none =>
    let prompts := (BuildPromptList env s userID).1
    let s1 := (BuildPromptList env s userID).2
    let t := timeNow env s1
    (⟨prompts, t.1, false⟩,
      { t.2 with sessions := mapSet t.2.sessions userID ⟨prompts, t.1, false⟩ })

/-- The method `ChatManager.AddMessage`. -/
def AddMessage (env : Env) (s : State) (userID role content : String) : State :=
  let session := (getOrCreateSession env s userID).1
  let s1 := (getOrCreateSession env s userID).2
  let id := GenerateID env s1
  let ts := timeNow env id.2
  let app := goAppend env ts.2.heap session.Messages ⟨id.1, role, content, ts.1⟩
  let act := timeNow env { ts.2 with heap := app.2 }
  let session1 : ChatSession := { session with Messages := app.1, LastActivity := act.1 }
  { act.2 with sessions := mapSet act.2.sessions userID session1 }

/-- The method `ChatManager.GenerateResponse`; the result is Go's pair
`(string, error)`. -/
def GenerateResponse (env : Env) (s : State) (userID : String) :
    (String × Option String) × State :=
  let session := (getOrCreateSession env s userID).1
  let s1 := (getOrCreateSession env s userID).2
  let messages := session.Messages
  let r := GenerateCompletion env s1 ⟨userID, messages⟩
  match r.1.2 with
  | none => (r.1, AddMessage env r.2 userID "assistant" r.1.1)
  | some _ => (r.1, r.2)

/-- The method `ChatManager.GetChatHistory`: the elements of the returned
slice, and the state after the call. -/
def GetChatHistory (env : Env) (s : State) (userID : String) : List Message × State :=
  let session := (getOrCreateSession env s userID).1
  let s1 := (getOrCreateSession env s userID).2
  (readSlice s1.heap session.Messages, s1)

/-- The method `ChatManager.RegenerateLastResponse`. -/
def RegenerateLastResponse (env : Env) (s : State) (userID : String) : String × State :=
  let session := (getOrCreateSession env s userID).1
  let s1 := (getOrCreateSession env s userID).2
  if sliceLen s1.heap session.Messages < 2 then
    ("No message to regenerate!", s1)
  else
    let cut := reslice session.Messages (sliceLen s1.heap session.Messages - 1)
    let session1 : ChatSession := { session with Messages := cut }
    let s2 := { s1 with sessions := mapSet s1.sessions userID session1 }
    let r := GenerateResponse env s2 userID
    (r.1.1, r.2)

/-- Go's `sl[i]` for a signed index `i`; `none` is the run-time panic
`index out of range`. -/
def goIndex (h : Heap) (sl : Slice) (i : Int) : Option Message :=
  if i < 0 then none else (readSlice h sl)[i.toNat]?

/-- Go's `append(sl, elems...)`: in place when the backing array has room for
all the elements, into a freshly allocated array otherwise. -/
def goAppendAll (env : Env) (h : Heap) (sl : Slice) (elems : List Message) : Slice × Heap :=
  let n := sliceLen h sl
  let fresh : Slice × Heap := (⟨some h.length, n + elems.length⟩,
    h ++ [readSlice h sl ++ elems ++
      List.replicate (env.spare (n + elems.length)) zeroMessage])
  match sl.arr with
  | some a =>
    if n + elems.length ≤ (h.getD a []).length then
      (⟨some a, n + elems.length⟩,
        h.set a ((h.getD a []).take n ++ elems ++ (h.getD a []).drop (n + elems.length)))
    else fresh
  | none => if elems = [] then (sl, h) else fresh

/-- The assignment `sl[i].Content = content`, a write into the backing
array. -/
def setContent (h : Heap) (sl : Slice) (i : Nat) (content : String) : Heap :=
  match sl.arr with
  | none => h
  | some a =>
    match (h.getD a [])[i]? with
    | none => h
    | some msg => h.set a ((h.getD a []).set i { msg with Content := content })

/-- Go's `delete(m, k)`. -/
def mapDelete {α : Type} (m : GoMap α) (k : String) : GoMap α :=
  m.filter (fun e => e.1 ≠ k)

/-- Go's `t.Sub(u)` for two clock readings in nanoseconds: the difference,
saturated to the range of `time.Duration` (an `int64`). -/
def durationSub (t u : Nat) : Int :=
  max (-(2 : Int) ^ 63) (min ((t : Int) - (u : Int)) ((2 : Int) ^ 63 - 1))

/-- The method `ChatManager.RemoveLastMessage`. -/
def RemoveLastMessage (env : Env) (s : State) (userID : String) : Bool × State :=
  let session := (getOrCreateSession env s userID).1
  let s1 := (getOrCreateSession env s userID).2
  if sliceLen s1.heap session.Messages > 0 then
    let cut := reslice session.Messages (sliceLen s1.heap session.Messages - 1)
    let t := timeNow env s1
    let session1 : ChatSession := { session with Messages := cut, LastActivity := t.1 }
    (true, { t.2 with sessions := mapSet t.2.sessions userID session1 })
  else
    (false, s1)

/-- The inner loop of `MessageExists`, `UpdateMessage` and `DeleteMessage`,
`for i, msg := range session.Messages`: the first index whose message has the
id. -/
def indexOfID (messageID : String) : List Message → Option Nat
  | [] => none
  | msg :: rest =>
    if msg.ID = messageID then some 0 else (indexOfID messageID rest).map (fun i => i + 1)

/-- The method `ChatManager.MessageExists`; the sessions are visited in the
order of the association list. -/
def MessageExists (s : State) (messageID : String) : Bool :=
  s.sessions.any (fun e => (indexOfID messageID (readSlice s.heap e.2.Messages)).isSome)

/-- The loops of `UpdateMessage` over the sessions still to visit: the heap
after the write, or `none` when no message has the id. -/
def updateScan (h : Heap) (messageID content : String) :
    List (String × ChatSession) → Option Heap
  | [] => none
  | e :: rest =>
    match indexOfID messageID (readSlice h e.2.Messages) with
    | some i => some (setContent h e.2.Messages i content)
    | none => updateScan h messageID content rest

/-- The method `ChatManager.UpdateMessage`. -/
def UpdateMessage (s : State) (messageID content : String) : Bool × State :=
  match updateScan s.heap messageID content s.sessions with
  | some h => (true, { s with heap := h })
  | none => (false, s)

/-- The loops of `DeleteMessage` over the sessions still to visit: the
sessions and the heap after
`session.Messages = append(session.Messages[:i], session.Messages[i+1:]...)`,
or `none` when no message has the id. -/
def deleteScan (env : Env) (h : Heap) (messageID : String) :
    List (String × ChatSession) → Option (List (String × ChatSession) × Heap)
  | [] => none
  | e :: rest =>
    match indexOfID messageID (readSlice h e.2.Messages) with
    | some i =>
      let app := goAppendAll env h (reslice e.2.Messages i)
        ((readSlice h e.2.Messages).drop (i + 1))
      some ((e.1, { e.2 with Messages := app.1 }) :: rest, app.2)
    | none =>
      match deleteScan env h messageID rest with
      | some r => some (e :: r.1, r.2)
      | none => none

/-- The method `ChatManager.DeleteMessage`. -/
def DeleteMessage (env : Env) (s : State) (messageID : String) : Bool × State :=
  match deleteScan env s.heap messageID s.sessions with
  | some r => (true, { s with sessions := r.1, heap := r.2 })
  | none => (false, s)

/-- The method `ChatManager.CleanupInactiveSessions`; `timeout` is a
`time.Duration` in nanoseconds. -/
def CleanupInactiveSessions (env : Env) (s : State) (timeout : Int) : State :=
  let now := timeNow env s
  let sessions := now.2.sessions.foldl
    (fun m e => if durationSub now.1 e.2.LastActivity > timeout then mapDelete m e.1 else m)
    now.2.sessions
  { now.2 with sessions := sessions }

/-- The method `ChatManager.ContinueChat`; `none` is the panic of the index
expression `session.Messages[len(session.Messages)-1]`. -/
def ContinueChat (env : Env) (s : State) (userID : String) : Option (String × State) :=
  let session := (getOrCreateSession env s userID).1
  let s1 := (getOrCreateSession env s userID).2
  match goIndex s1.heap session.Messages ((sliceLen s1.heap session.Messages : Int) - 1) with
  | none => none
  | some last =>
    let r := GenerateResponse env s1 userID
    some ("Continuing from: " ++ last.Content ++ "\n\n" ++ r.1.1, r.2)

/-- The method `ChatManager.SaveChat`: the new session holds the same slice
value as the session of the user, over the same backing array. -/
def SaveChat (env : Env) (s : State) (userID : String) : String × State :=
  let chatID := GenerateID env s
  let session := (getOrCreateSession env chatID.2 userID).1
  let s1 := (getOrCreateSession env chatID.2 userID).2
  let t := timeNow env s1
  (chatID.1, { t.2 with sessions := mapSet t.2.sessions chatID.1 ⟨session.Messages, t.1, false⟩ })

/-! ## encoding/json and fmt, as far as `ExportChat` uses them -/

/-- The double quote. -/
def chQuote : Char := Char.ofNat 34

/-- The backslash. -/
def chBackslash : Char := Char.ofNat 92

/-- The lower-case hexadecimal digit of `n < 16`. -/
def hexDigit (n : Nat) : Char :=
  if n < 10 then Char.ofNat (48 + n) else Char.ofNat (87 + n)

/-- The escape `\uXXXX` of the code point `n < 65536`. -/
def unicodeEscape (n : Nat) : List Char :=
  [chBackslash, 'u', hexDigit (n / 4096 % 16), hexDigit (n / 256 % 16),
    hexDigit (n / 16 % 16), hexDigit (n % 16)]

/-- What `json.Marshal` writes for one character of a string (HTML escaping
on, as `Marshal` sets it): quote and backslash get a backslash, backspace, form
feed, newline, carriage return and tab their short escapes (Go 1.22; older
releases write backspace and form feed as `\u0008` and `\u000c`), the other
control characters, `<`, `>`, `&`, U+2028 and U+2029 the escape `\uXXXX`, and
every other character itself. -/
def escapeChar (c : Char) : List Char :=
  if c = chQuote ∨ c = chBackslash then [chBackslash, c]
  else if c = Char.ofNat 8 then [chBackslash, 'b']
  else if c = Char.ofNat 12 then [chBackslash, 'f']
  else if c = Char.ofNat 10 then [chBackslash, 'n']
  else if c = Char.ofNat 13 then [chBackslash, 'r']
  else if c = Char.ofNat 9 then [chBackslash, 't']
  else if c.toNat < 32 ∨ c = Char.ofNat 60 ∨ c = Char.ofNat 62 ∨ c = Char.ofNat 38
      ∨ c = Char.ofNat 8232 ∨ c = Char.ofNat 8233 then unicodeEscape c.toNat
  else [c]

/-- What `json.Marshal` writes for a string: the escaped characters between
double quotes. -/
def jsonString (text : String) : List Char :=
  [chQuote] ++ (text.toList.map escapeChar).flatten ++ [chQuote]

/-- What `json.Marshal` writes for a `Message`: the object of its four tagged
fields in declaration order. The timestamp is the quoted RFC 3339 text of the
time, `env.timeText`; on such texts the escaping changes nothing. -/
def jsonMessage (env : Env) (msg : Message) : List Char :=
  [Char.ofNat 123] ++ jsonString "id" ++ [':'] ++ jsonString msg.ID ++ [','] ++
    jsonString "role" ++ [':'] ++ jsonString msg.Role ++ [','] ++
    jsonString "content" ++ [':'] ++ jsonString msg.Content ++ [','] ++
    jsonString "timestamp" ++ [':'] ++ jsonString (env.timeText msg.Timestamp) ++
    [Char.ofNat 125]

/-- What `json.Marshal` writes for the elements of an array, separated by
commas. -/
def jsonElements (env : Env) : List Message → List Char
  | [] => []
  | [msg] => jsonMessage env msg
  | msg :: rest => jsonMessage env msg ++ [','] ++ jsonElements env rest

/-- The call `json.Marshal(session.Messages)`: `null` for the nil slice, an
array otherwise. -/
def jsonMarshal (env : Env) (h : Heap) (sl : Slice) : String :=
  match sl.arr with
  | none => "null"
  | some _ => String.mk (['['] ++ jsonElements env (readSlice h sl) ++ [']'])

/-- The method `ChatManager.ExportChat`. -/
def ExportChat (env : Env) (s : State) (userID format : String) : String × State :=
  let session := (getOrCreateSession env s userID).1
  let s1 := (getOrCreateSession env s userID).2
  if format = "json" then
    (jsonMarshal env s1.heap session.Messages, s1)
  else
    ((readSlice s1.heap session.Messages).foldl
      (fun exported msg => exported ++ (msg.Role ++ ": " ++ msg.Content ++ "\n")) "", s1)

/-! ## Reading the JSON export back -/

/-- The value of a hexadecimal digit. -/
def hexValue (c : Char) : Option Nat :=
  if 48 ≤ c.toNat ∧ c.toNat ≤ 57 then some (c.toNat - 48)
  else if 97 ≤ c.toNat ∧ c.toNat ≤ 102 then some (c.toNat - 87)
  else if 65 ≤ c.toNat ∧ c.toNat ≤ 70 then some (c.toNat - 55)
  else none

/-- The character a short JSON escape stands for. -/
def unescapeChar (e : Char) : Option Char :=
  if e = chQuote then some chQuote
  else if e = chBackslash then some chBackslash
  else if e = '/' then some '/'
  else if e = 'b' then some (Char.ofNat 8)
  else if e = 'f' then some (Char.ofNat 12)
  else if e = 'n' then some (Char.ofNat 10)
  else if e = 'r' then some (Char.ofNat 13)
  else if e = 't' then some (Char.ofNat 9)
  else none

/-- Reads a JSON string after its opening quote: the decoded characters up to
the closing quote, and the input after it. An escape `\uXXXX` is read as the
code point it names (the halves of a surrogate pair, which `json.Marshal`
never writes, are not joined). -/
def readChars : List Char → Option (List Char × List Char)
  | [] => none
  | c :: rest =>
    if c = chQuote then some ([], rest)
    else if c = chBackslash then
      match rest with
      | [] => none
      | e :: rest1 =>
        if e = 'u' then
          match rest1 with
          | d1 :: d2 :: d3 :: d4 :: rest2 =>
            match hexValue d1, hexValue d2, hexValue d3, hexValue d4, readChars rest2 with
            | some v1, some v2, some v3, some v4, some r =>
              some (Char.ofNat (v1 * 4096 + v2 * 256 + v3 * 16 + v4) :: r.1, r.2)
            | _, _, _, _, _ => none
          | _ => none
        else
          match unescapeChar e, readChars rest1 with
          | some ch, some r => some (ch :: r.1, r.2)
          | _, _ => none
    else
      match readChars rest with
      | some r => some (c :: r.1, r.2)
      | none => none

/-- Reads a JSON string: the decoded text and the input after it. -/
def readString : List Char → Option (String × List Char)
  | [] => none
  | c :: rest =>
    if c = chQuote then
      match readChars rest with
      | some r => some (String.mk r.1, r.2)
      | none => none
    else none

/-- Reads the members of a JSON object after its opening brace, all with
string values: the pairs of key and value up to the closing brace, and the
input after it. The fuel bounds the number of members. -/
def readMembers : Nat → List Char → Option (List (String × String) × List Char)
  | 0, _ => none
  | fuel + 1, input =>
    match readString input with
    | none => none
    | some key =>
      match key.2 with
      | [] => none
      | c :: rest =>
        if c = ':' then
          match readString rest with
          | none => none
          | some value =>
            match value.2 with
            | [] => none
            | d :: rest1 =>
              if d = ',' then
                match readMembers fuel rest1 with
                | some r => some ((key.1, value.1) :: r.1, r.2)
                | none => none
              else if d = Char.ofNat 125 then some ([(key.1, value.1)], rest1)
              else none
        else none

/-- Reads the objects of a non-empty JSON array after its opening bracket:
the member lists up to the closing bracket, and the input after it. The fuel
bounds the number of objects. -/
def readObjects : Nat → List Char → Option (List (List (String × String)) × List Char)
  | 0, _ => none
  | fuel + 1, input =>
    match input with
    | [] => none
    | c :: rest =>
      if c = Char.ofNat 123 then
        match readMembers rest.length rest with
        | none => none
        | some members =>
          match members.2 with
          | [] => none
          | d :: rest1 =>
            if d = ',' then
              match readObjects fuel rest1 with
              | some r => some (members.1 :: r.1, r.2)
              | none => none
            else if d = ']' then some ([members.1], rest1)
            else none
      else none

/-- The role and the content a decoded object gives a `Message`: the values of
the keys `role` and `content`, the empty string for a missing key. -/
def roleAndContent (members : List (String × String)) : String × String :=
  ((members.lookup "role").getD "", (members.lookup "content").getD "")

/-- A structural deserialisation of the JSON export as a list of messages, of
which the role and the content are kept: `null` and `[]` give the empty list,
an array of objects gives one pair per object, any other text is rejected. -/
def decodeMessages (text : String) : Option (List (String × String)) :=
  if text = "null" then some []
  else
    match text.toList with
    | [] => none
    | c :: rest =>
      if c = '[' then
        if rest = [']'] then some []
        else
          match readObjects rest.length rest with
          | some r => if r.2 = [] then some (r.1.map roleAndContent) else none
          | none => none
      else none

/-! ## proxy_client.go -/

/-- A `float64`, by its IEEE 754 bits; the values are stored and copied,
never computed with. -/
abbrev Float64 := Nat

/-- The struct `UserConfig`. -/
structure UserConfig where
  Model : String
  Temperature : Float64
  Stream : Bool
  MaxTokens : Int
  PresencePenalty : Float64
  FrequencyPenalty : Float64
  TopP : Float64
deriving DecidableEq, Repr

/-- The struct `ProxyClient`; the HTTP client is left out. -/
structure ProxyClient where
  proxyURL : String
  password : String
  userConfigs : GoMap UserConfig

/-- The configuration `getUserConfig` creates for a user who has none: model
`gpt-4-turbo`, temperature 0.83, 1096 tokens, streaming on, presence penalty
0, frequency penalty 0.6, top-p 0.99. -/
def defaultUserConfig : UserConfig :=
  ⟨"gpt-4-turbo", 0x3fea8f5c28f5c28f, true, 1096, 0, 0x3fe3333333333333, 0x3fefae147ae147ae⟩

/-- The method `ProxyClient.getUserConfig`. -/
def getUserConfig (pc : ProxyClient) (userID : String) : UserConfig × ProxyClient :=
  match mapGet pc.userConfigs userID with
  | some config => (config, pc)
  | none => (defaultUserConfig,
      { pc with userConfigs := mapSet pc.userConfigs userID defaultUserConfig })

/-- The method `ProxyClient.SwitchModel`. -/
def SwitchModel (pc : ProxyClient) (userID model : String) : ProxyClient :=
  let config := (getUserConfig pc userID).1
  let pc1 := (getUserConfig pc userID).2
  { pc1 with userConfigs := mapSet pc1.userConfigs userID { config with Model := model } }

/-- The method `ProxyClient.SetTemperature`. -/
def SetTemperature (pc : ProxyClient) (userID : String) (temp : Float64) : ProxyClient :=
  let config := (getUserConfig pc userID).1
  let pc1 := (getUserConfig pc userID).2
  { pc1 with userConfigs := mapSet pc1.userConfigs userID { config with Temperature := temp } }

/-- The method `ProxyClient.ToggleStream`. -/
def ToggleStream (pc : ProxyClient) (userID : String) : Bool × ProxyClient :=
  let config := (getUserConfig pc userID).1
  let pc1 := (getUserConfig pc userID).2
  (!config.Stream,
    { pc1 with userConfigs := mapSet pc1.userConfigs userID { config with Stream := !config.Stream } })

/-- The map `payload` of `SendRequest`, by its eight keys. -/
structure RequestPayload where
  messages : List Message
  model : String
  temperature : Float64
  max_tokens : Int
  stream : Bool
  presence_penalty : Float64
  frequency_penalty : Float64
  top_p : Float64
deriving DecidableEq, Repr

/-- The method `ProxyClient.SendRequest` up to the payload it marshals (lines
42 to 55): the configuration of the user is read, created if absent, and put
beside the messages. -/
def buildPayload (pc : ProxyClient) (userID : String) (messages : List Message) :
    RequestPayload × ProxyClient :=
  let config := (getUserConfig pc userID).1
  let pc1 := (getUserConfig pc userID).2
  (⟨messages, config.Model, config.Temperature, config.MaxTokens, config.Stream,
    config.PresencePenalty, config.FrequencyPenalty, config.TopP⟩, pc1)

/-- A value `encoding/json` decodes into an `interface{}`: nil, a bool, a
`float64`, a string, a `[]interface{}` or a `map[string]interface{}`. -/
inductive JsonValue where
  | null : JsonValue
  | bool : Bool → JsonValue
  | number : Float64 → JsonValue
  | string : String → JsonValue
  | array : List JsonValue → JsonValue
  | object : List (String × JsonValue) → JsonValue

/-- The function `extractResponse`; the result is Go's pair `(string, error)`.
A type assertion fails on a missing key, whose value is nil, and on a value of
another type. -/
def extractResponse (result : GoMap JsonValue) : String × Option String :=
  match mapGet result "choices" with
  | some (.array choices) =>
    match choices with
    | [] => ("", some "invalid response format")
    | choice :: _ =>
      match choice with
      | .object fields =>
        match mapGet fields "message" with
        | some (.object message) =>
          match mapGet message "content" with
          | some (.string content) => (content, none)
          | _ => ("", some "invalid content format")
        | _ => ("", some "invalid message format")
      | _ => ("", some "invalid choice format")
  | _ => ("", some "invalid response format")

/-! ## Runs of the chat manager -/

/-- A call of a method of `ChatManager` that can change the state. -/
inductive Call where
  | createNewChat (userID : String)
  | addMessage (userID role content : String)
  | generateResponse (userID : String)
  | getChatHistory (userID : String)
  | clearChat (userID : String)
  | removeLastMessage (userID : String)
  | updateMessage (messageID content : String)
  | deleteMessage (messageID : String)
  | cleanupInactiveSessions (timeout : Int)
  | regenerateLastResponse (userID : String)
  | continueChat (userID : String)
  | saveChat (userID : String)
  | exportChat (userID format : String)
deriving DecidableEq, Repr

/-- The state after a call; `none` when the call panics. -/
def Call.run (env : Env) (s : State) : Call → Option State
  | .createNewChat userID => some (CreateNewChat env s userID)
  | .addMessage userID role content => some (AddMessage env s userID role content)
  | .generateResponse userID => some (GenerateResponse env s userID).2
  | .getChatHistory userID => some (GetChatHistory env s userID).2
  | .clearChat userID => some (ClearChat env s userID)
  | .removeLastMessage userID => some (RemoveLastMessage env s userID).2
  | .updateMessage messageID content => some (UpdateMessage s messageID content).2
  | .deleteMessage messageID => some (DeleteMessage env s messageID).2
  | .cleanupInactiveSessions timeout => some (CleanupInactiveSessions env s timeout)
  | .regenerateLastResponse userID => some (RegenerateLastResponse env s userID).2
  | .continueChat userID => (ContinueChat env s userID).map (fun r => r.2)
  | .saveChat userID => some (SaveChat env s userID).2
  | .exportChat userID format => some (ExportChat env s userID format).2

/-- The state after a sequence of calls, one after the other. -/
def runCalls (env : Env) : State → List Call → Option State
  | s, [] => some s
  | s, call :: rest =>
    match call.run env s with
    | some s1 => runCalls env s1 rest
    | none => none

/-! ## The provider-calling methods as the program runs them

The methods above act on the store: they embed the statements between the
calls of the mutex, for an `OpenAIService` whose `cache` and `proxyClient` are
set. Here the same methods are embedded with what they leave out: the fields
`NewOpenAIService` leaves nil, and the calls `cm.mu.Lock()`, `cm.mu.Unlock()`
of the running call around the provider call. -/

/-- The two fields of the struct `OpenAIService` that `GenerateCompletion`
dereferences: whether `cache` is an allocated map, and whether `proxyClient`
points to a client. -/
structure OpenAIService where
  cacheAllocated : Bool
  proxyClientSet : Bool
deriving DecidableEq, Repr

/-- The function `NewOpenAIService`, the only constructor: it sets `apiKey`
and `client` and leaves `cache` and `proxyClient` nil. -/
def NewOpenAIService : OpenAIService := ⟨false, false⟩

/-- What the running call does with the mutex `cm.mu` of the session store and
with the provider, in order; a provider call is logged together with the lock
flag of that moment. The mutexes of `PromptManager`, `OpenAIService` and
`ProxyClient` are other locks and are not logged. -/
inductive Event where
  | lock
  | unlock
  | provider (held : Bool)
deriving DecidableEq, Repr

/-- The running program: the service, the store, whether the running call
holds `cm.mu`, and the log of its events so far. -/
structure Run where
  openAI : OpenAIService
  state : State
  held : Bool
  events : List Event

/-- The call `cm.mu.Lock()`; `none` when the running call holds the mutex
already: the mutex is not reentrant and the call would block for ever. -/
def Run.lock (r : Run) : Option Run :=
  if r.held then none
  else some ⟨r.openAI, r.state, true, r.events ++ [.lock]⟩

/-- The call `cm.mu.Unlock()`; `none` is the fatal error of unlocking a mutex
that is not locked. -/
def Run.unlock (r : Run) : Option Run :=
  if r.held then some ⟨r.openAI, r.state, false, r.events ++ [.unlock]⟩
  else none

/-- The method `ProxyClient.SendRequest` called through the field
`proxyClient` of the service. The result is the returned pair, `none` when the
call panics, and the run at the end. On a nil pointer the first statement,
`pc.mu.RLock()`, panics, before any request is sent; otherwise the provider
round trip is made, and logged with the lock flag of that moment. -/
def ProxyClient.SendRequest (env : Env) (r : Run) (userID : String)
    (messages : List Message) : Option (Except String String) × Run :=
  if r.openAI.proxyClientSet then
    let sent := ChatBot.SendRequest env r.state userID messages
    (some sent.1, ⟨r.openAI, sent.2, r.held, r.events ++ [.provider r.held]⟩)
  else (none, r)

/-- The method `OpenAIService.GenerateCompletion` with the fields as they are;
the result is the returned pair, `none` when the call panics, and the run at
the end. With `cache` nil the reads of `getMessages` are harmless and the
assignment `s.cache[req.UserID] = messages` panics. -/
def OpenAIService.GenerateCompletion (env : Env) (r : Run) (req : CompletionRequest) :
    Option (String × Option String) × Run :=
  let messages := getMessages r.state req.UserID ++ readSlice r.state.heap req.Messages
  if r.openAI.cacheAllocated then
    let s1 := { r.state with cache := mapSet r.state.cache req.UserID messages }
    let sent := ProxyClient.SendRequest env ⟨r.openAI, s1, r.held, r.events⟩ req.UserID messages
    match sent.1 with
    | none => (none, sent.2)
    | some (.error err) => (some ("", some ("completion generation failed: " ++ err)), sent.2)
    | some (.ok response) =>
      let reply : Message := ⟨"", "assistant", response, 0⟩
      let cached := mapSet sent.2.state.cache req.UserID
        (getMessages sent.2.state req.UserID ++ [reply])
      let s2 := { sent.2.state with cache := cached }
      (some (response, none), ⟨sent.2.openAI, s2, sent.2.held, sent.2.events⟩)
  else (none, r)

/-- The method `ChatManager.AddMessage` with its calls of the mutex. -/
def ChatManager.AddMessage (env : Env) (r : Run) (userID role content : String) :
    Option Unit × Run :=
  match r.lock with
  | none => (none, r)
  | some r1 =>
    let s1 := ChatBot.AddMessage env r1.state userID role content
    let r2 : Run := ⟨r1.openAI, s1, r1.held, r1.events⟩
    match r2.unlock with
    | none => (none, r2)
    | some r3 => (some (), r3)

/-- The method `ChatManager.GenerateResponse` with its calls of the mutex and
the fields of the service as they are; `none` when the call does not
return. -/
def ChatManager.GenerateResponse (env : Env) (r : Run) (userID : String) :
    Option (String × Option String) × Run :=
  match r.lock with
  | none => (none, r)
  | some r1 =>
    let session := (getOrCreateSession env r1.state userID).1
    let r2 : Run := ⟨r1.openAI, (getOrCreateSession env r1.state userID).2, r1.held, r1.events⟩
    let messages := session.Messages
    match r2.unlock with
    | none => (none, r2)
    | some r3 =>
      let c := OpenAIService.GenerateCompletion env r3 ⟨userID, messages⟩
      match c.1 with
      | none => (none, c.2)
      | some res =>
        match res.2 with
        | none =>
          let a := ChatManager.AddMessage env c.2 userID "assistant" res.1
          match a.1 with
          | none => (none, a.2)
          | some _ => (some res, a.2)
        | some _ => (some res, c.2)

/-- The method `ChatManager.RegenerateLastResponse` with its calls of the
mutex and the fields of the service as they are. -/
def ChatManager.RegenerateLastResponse (env : Env) (r : Run) (userID : String) :
    Option String × Run :=
  match r.lock with
  | none => (none, r)
  | some r1 =>
    let session := (getOrCreateSession env r1.state userID).1
    let s1 := (getOrCreateSession env r1.state userID).2
    if sliceLen s1.heap session.Messages < 2 then
      let r2 : Run := ⟨r1.openAI, s1, r1.held, r1.events⟩
      match r2.unlock with
      | none => (none, r2)
      | some r3 => (some "No message to regenerate!", r3)
    else
      let cut := reslice session.Messages (sliceLen s1.heap session.Messages - 1)
      let session1 : ChatSession := { session with Messages := cut }
      let s2 := { s1 with sessions := mapSet s1.sessions userID session1 }
      let r2 : Run := ⟨r1.openAI, s2, r1.held, r1.events⟩
      match r2.unlock with
      | none => (none, r2)
      | some r3 =>
        let g := ChatManager.GenerateResponse env r3 userID
        match g.1 with
        | none => (none, g.2)
        | some res => (some res.1, g.2)

/-- The method `ChatManager.ContinueChat` with its calls of the mutex and the
fields of the service as they are. The panic of the index expression leaves
the mutex locked: the method has no deferred unlock. -/
def ChatManager.ContinueChat (env : Env) (r : Run) (userID : String) : Option String × Run :=
  match r.lock with
  | none => (none, r)
  | some r1 =>
    let session := (getOrCreateSession env r1.state userID).1
    let s1 := (getOrCreateSession env r1.state userID).2
    let r2 : Run := ⟨r1.openAI, s1, r1.held, r1.events⟩
    match goIndex s1.heap session.Messages ((sliceLen s1.heap session.Messages : Int) - 1) with
    | none => (none, r2)
    | some last =>
      match r2.unlock with
      | none => (none, r2)
      | some r3 =>
        let g := ChatManager.GenerateResponse env r3 userID
        match g.1 with
        | none => (none, g.2)
        | some res => (some ("Continuing from: " ++ last.Content ++ "\n\n" ++ res.1), g.2)

/-! ## Observations used by the statements -/

/-- The history of a user as a caller reads it: what `GetChatHistory` returns
(the seed, when the user has no session yet). -/
def history (env : Env) (s : State) (userID : String) : List Message :=
  (GetChatHistory env s userID).1

/-- The elements of the slice `BuildPromptList` returns. -/
def promptList (env : Env) (s : State) (userID : String) : List Message :=
  readSlice (BuildPromptList env s userID).2.heap (BuildPromptList env s userID).1

/-- The message list the last provider call was handed, if there was one. -/
def lastRequest (s : State) : Option (String × List Message) := s.requests.getLast?

/-- The role of the last message of a history; `none` is the state Empty,
`some "user"` AwaitingReply and `some "assistant"` Idle. -/
def lastRole (msgs : List Message) : Option String := msgs.getLast?.map (fun m => m.Role)

/-- The text export as the specification words it: one line per message, the
role, a colon and a space, the content and a newline, concatenated in
order. -/
def textLines : List Message → String
  | [] => ""
  | msg :: rest => (msg.Role ++ ": " ++ msg.Content ++ "\n") ++ textLines rest

/-- The five persona fields the seed is built from, in the order of the
specification: role, content of the message, and the field itself. -/
def seedFields (p : UserPrompts) : List (String × String × String) :=
  [("system", "Character Description: " ++ p.Description, p.Description),
   ("system", "Personality: " ++ p.Personality, p.Personality),
   ("system", "Scenario: " ++ p.Scenario, p.Scenario),
   ("system", "User Persona: " ++ p.UserPersona, p.UserPersona),
   ("assistant", p.FirstMessage, p.FirstMessage)]

/-- The seed as the specification words it: the fields in fixed order, the
empty ones dropped, each remaining one turned into a message. -/
def seedSpec (p : UserPrompts) : List Message :=
  ((seedFields p).filter (fun f => f.2.2 ≠ "")).map
    (fun f => ⟨"", f.1, f.2.1, 0⟩)

/-- The roles the specification permits. -/
def validRole (role : String) : Prop :=
  role = "system" ∨ role = "user" ∨ role = "assistant"

instance (role : String) : Decidable (validRole role) := by
  unfold validRole
  infer_instance

/-- A call that gives `AddMessage` a role gives it a permitted one. -/
def Call.roleValid : Call → Prop
  | .addMessage _ role _ => validRole role
  | _ => True

instance (call : Call) : Decidable call.roleValid := by
  cases call <;> unfold Call.roleValid <;> infer_instance

/-- The slice lies in the heap and reads only messages with a permitted
role. -/
def sliceOK (h : Heap) (sl : Slice) : Prop :=
  (∀ a : Nat, sl.arr = some a → a < h.length) ∧ ∀ m ∈ readSlice h sl, validRole m.Role

/-- Every session reads only messages with a permitted role, from a slice
that lies in the heap. -/
def rolesOK (s : State) : Prop := ∀ e ∈ s.sessions, sliceOK s.heap e.2.Messages

/-- The heap `h'` comes after the heap `h`: the arrays of `h` are still there,
and a prefix of one of them reads only roles that are permitted or that the
prefix of the same length read before. -/
def heapStep (h h' : Heap) : Prop :=
  h.length ≤ h'.length ∧
  ∀ (a k : Nat) (m : Message), a < h.length → m ∈ (h'.getD a []).take k →
    validRole m.Role ∨ ∃ m0 ∈ (h.getD a []).take k, m0.Role = m.Role

/-- The decoded body has a first choice with a message whose content is the
string `text`, as the specification words it. -/
def hasReply (result : GoMap JsonValue) (text : String) : Prop :=
  ∃ (fields rest message : _),
    mapGet result "choices" = some (.array (.object fields :: rest)) ∧
    mapGet fields "message" = some (.object message) ∧
    mapGet message "content" = some (.string text)

/-- The log the specification describes for one provider call made for the
session store: the lock is taken and released for the lookup, the provider is
called with the lock free, and the lock is taken and released once more when
the reply is applied, and only then. -/
def releasedCall (applied : Bool) : List Event :=
  [.lock, .unlock, .provider false] ++ if applied then [.lock, .unlock] else []

/-- The log `after` continues the log `before`, and no provider call it adds
was made with the lock held. -/
def lockFreeAtProvider (before after : List Event) : Prop :=
  ∃ added : List Event, after = before ++ added ∧ ∀ e ∈ added, e ≠ .provider true

/-! ## Sample runs -/

/-- An environment whose provider answers every request with the text `r`. -/
def replyEnv : Env :=
  ⟨fun i => 1000 + i, fun _ _ _ => .ok "r", fun n => n, fun _ => "2026-01-01T00:00:00Z"⟩

/-- An environment whose provider fails on every request. -/
def downEnv : Env :=
  ⟨fun i => 1000 + i, fun _ _ _ => .error "timeout", fun n => n,
    fun _ => "2026-01-01T00:00:00Z"⟩

/-- A fresh store after the user `u` has sent `hi`. -/
def oneTurn : State := AddMessage replyEnv State.init "u" "user" "hi"

/-- The store `oneTurn` after the reply was generated and the user sent
`again`. -/
def twoTurns : State :=
  AddMessage replyEnv (GenerateResponse replyEnv oneTurn "u").2 "u" "user" "again"

/-- A store in which `u` has a description and a first message configured and
no session yet. -/
def configured : State :=
  SetFirstMessage (UpdateDefinitions State.init "u" [("description", "d")]) "u" "hello"

/-- The store `configured` after `u` started a new chat: the history is the
description followed by the first message. -/
def greeted : State := CreateNewChat downEnv configured "u"

/-- A store in which `u` has a description configured and no first message. -/
def described : State := UpdateDefinitions State.init "u" [("description", "d")]

/-- The store `twoTurns` after `u` saved the chat: the saved session, under
the id `1010`, holds the same three messages. -/
def savedChat : State := (SaveChat replyEnv twoTurns "u").2

/-- The store `savedChat` with its two sessions visited in the other order. -/
def savedChatReversed : State := { savedChat with sessions := savedChat.sessions.reverse }

/-- An environment whose provider answers every request with the empty
text. -/
def emptyReplyEnv : Env :=
  ⟨fun i => 1000 + i, fun _ _ _ => .ok "", fun n => n, fun _ => "2026-01-01T00:00:00Z"⟩

/-- The store `savedChat` after `u` removed the last message: the saved
session still reads three messages of the shared backing array, the session
of `u` two. -/
def undoneChat : State := (RemoveLastMessage replyEnv savedChat "u").2

/-- A store with two sessions, last active at 9 s and at 11 s. -/
def twoSessions : State :=
  ⟨[], [("early", ⟨nilSlice, 9000000000, false⟩), ("late", ⟨nilSlice, 11000000000, false⟩)],
    [], [], 0, []⟩

/-- An environment whose clock reads 40 s. -/
def lateEnv : Env :=
  ⟨fun _ => 40000000000, fun _ _ _ => .ok "r", fun n => n, fun _ => "2026-01-01T00:00:40Z"⟩

/-- The program as `main` builds it, `NewOpenAIService` included, over the
store `s`, with no call running. -/
def wired (s : State) : Run := ⟨NewOpenAIService, s, false, []⟩

/-- A program whose service has `cache` and `proxyClient` set, over the
store `s`, with no call running. -/
def ready (s : State) : Run := ⟨⟨true, true⟩, s, false, []⟩

/-! ## Lemmas: slices -/

theorem take_succ_set (l : List Message) (n : Nat) (m : Message) (h : n < l.length) :
    (l.set n m).take (n + 1) = l.take n ++ [m] := by
  rw [List.set_eq_take_append_cons_drop, if_pos h]
  have hl : (List.take n l).length = n := by simp; omega
  rw [List.take_append_eq_append_take, hl]
  simp [List.take_of_length_le, hl]

theorem take_length_succ_append (l r : List Message) (m : Message) :
    (l ++ ([m] ++ r)).take (l.length + 1) = l ++ [m] := by
  induction l with
  | nil => simp
  | cons x xs ih => simpa using ih

theorem getD_append_length (h : Heap) (x : List Message) :
    (h ++ [x]).getD h.length [] = x := by
  simp [List.getD_eq_getElem?_getD]

theorem getD_set_same (h : Heap) (a : Nat) (x : List Message) (ha : a < h.length) :
    (h.set a x).getD a [] = x := by
  simp [List.getD_eq_getElem?_getD, List.getElem?_set, ha]

theorem readSlice_goAppend (env : Env) (h : Heap) (sl : Slice) (m : Message) :
    readSlice (goAppend env h sl m).2 (goAppend env h sl m).1 = readSlice h sl ++ [m] := by
  have fresh : ∀ k : Nat, readSlice
      (h ++ [readSlice h sl ++ [m] ++ List.replicate k zeroMessage])
      ⟨some h.length, sliceLen h sl + 1⟩ = readSlice h sl ++ [m] := by
    intro k
    unfold sliceLen
    generalize readSlice h sl = cur
    simp only [readSlice, backing, getD_append_length]
    rw [List.append_assoc]
    exact take_length_succ_append cur _ m
  unfold goAppend
  cases harr : sl.arr with
  | none => simpa using fresh _
  | some a =>
    simp only
    split
    · rename_i hlt
      have ha : a < h.length := by
        by_contra hcon
        simp [List.getD_eq_getElem?_getD, List.getElem?_eq_none (Nat.le_of_not_lt hcon)] at hlt
      have hn : sliceLen h sl = sl.len := by
        simp [sliceLen, readSlice, backing, harr] at hlt ⊢
        omega
      simp only [readSlice, backing, getD_set_same h a _ ha]
      rw [hn] at hlt ⊢
      rw [take_succ_set _ _ _ hlt]
      simp [harr]
    · simpa using fresh _

/-! ## Lemmas: the seed -/

theorem readSlice_nilSlice (h : Heap) : readSlice h nilSlice = [] := by
  simp [readSlice, backing, nilSlice]

theorem readSlice_condAppend (env : Env) (c : Prop) [Decidable c] (r : Slice × Heap)
    (m : Message) :
    readSlice (if c then goAppend env r.2 r.1 m else r).2
        (if c then goAppend env r.2 r.1 m else r).1
      = readSlice r.2 r.1 ++ (if c then [m] else []) := by
  by_cases hc : c
  · simp only [if_pos hc, readSlice_goAppend]
  · simp only [if_neg hc, List.append_nil]

theorem getOrCreatePrompts_fst (s : State) (u : String) :
    (getOrCreatePrompts s u).1 = GetUserPrompts s u := by
  unfold getOrCreatePrompts GetUserPrompts
  cases mapGet s.prompts u <;> rfl

theorem promptList_eq_seedSpec (env : Env) (s : State) (u : String) :
    promptList env s u = seedSpec (GetUserPrompts s u) := by
  simp only [promptList, BuildPromptList, readSlice_condAppend, readSlice_nilSlice,
    getOrCreatePrompts_fst]
  generalize GetUserPrompts s u = p
  simp only [seedSpec, seedFields]
  by_cases h1 : p.Description = "" <;> by_cases h2 : p.Personality = "" <;>
    by_cases h3 : p.Scenario = "" <;> by_cases h4 : p.UserPersona = "" <;>
    by_cases h5 : p.FirstMessage = "" <;>
    simp [h1, h2, h3, h4, h5, readSlice_goAppend, readSlice_nilSlice]

/-! ## Lemmas: maps -/

@[simp] theorem mapGet_mapSet_same {α : Type} (m : GoMap α) (k : String) (v : α) :
    mapGet (mapSet m k v) k = some v := by
  induction m with
  | nil => simp [mapSet, mapGet]
  | cons e rest ih =>
    obtain ⟨k', v'⟩ := e
    by_cases hk : k' = k
    · simp [mapSet, mapGet, hk]
    · simp [mapSet, mapGet, hk, ih]

theorem mapGet_mapSet_ne {α : Type} (m : GoMap α) (k k' : String) (v : α) (hne : k ≠ k') :
    mapGet (mapSet m k v) k' = mapGet m k' := by
  induction m with
  | nil => simp [mapSet, mapGet, hne]
  | cons e rest ih =>
    obtain ⟨k0, v0⟩ := e
    by_cases hk : k0 = k
    · subst hk
      simp [mapSet, mapGet, hne]
    · by_cases hk' : k0 = k'
      · subst hk'
        simp [mapSet, mapGet, hk]
      · simp [mapSet, mapGet, hk, hk', ih]

/-! ## Lemmas: the prompt manager -/

theorem getOrCreatePrompts_heap (s : State) (u : String) :
    (getOrCreatePrompts s u).2.heap = s.heap ∧
    (getOrCreatePrompts s u).2.sessions = s.sessions ∧
    (getOrCreatePrompts s u).2.cache = s.cache ∧
    (getOrCreatePrompts s u).2.ticks = s.ticks ∧
    (getOrCreatePrompts s u).2.requests = s.requests := by
  unfold getOrCreatePrompts
  cases mapGet s.prompts u <;> simp

theorem GetUserPrompts_getOrCreatePrompts (s : State) (u v : String) :
    GetUserPrompts (getOrCreatePrompts s u).2 v = GetUserPrompts s v := by
  unfold getOrCreatePrompts GetUserPrompts
  cases hu : mapGet s.prompts u with
  | some p => simp
  | none =>
    by_cases huv : u = v
    · subst huv
      simp [hu]
    · simp [mapGet_mapSet_ne _ _ _ _ huv]

@[simp] theorem BuildPromptList_sessions (env : Env) (s : State) (u : String) :
    (BuildPromptList env s u).2.sessions = s.sessions := by
  simp [BuildPromptList, (getOrCreatePrompts_heap s u).2.1]

@[simp] theorem BuildPromptList_cache (env : Env) (s : State) (u : String) :
    (BuildPromptList env s u).2.cache = s.cache := by
  simp [BuildPromptList, (getOrCreatePrompts_heap s u).2.2.1]

@[simp] theorem BuildPromptList_ticks (env : Env) (s : State) (u : String) :
    (BuildPromptList env s u).2.ticks = s.ticks := by
  simp [BuildPromptList, (getOrCreatePrompts_heap s u).2.2.2.1]

@[simp] theorem BuildPromptList_requests (env : Env) (s : State) (u : String) :
    (BuildPromptList env s u).2.requests = s.requests := by
  simp [BuildPromptList, (getOrCreatePrompts_heap s u).2.2.2.2]

@[simp] theorem GetUserPrompts_BuildPromptList (env : Env) (s : State) (u v : String) :
    GetUserPrompts (BuildPromptList env s u).2 v = GetUserPrompts s v := by
  rw [← GetUserPrompts_getOrCreatePrompts s u v]
  simp [BuildPromptList, GetUserPrompts]

/-! ## Lemmas: sessions -/

theorem getOrCreateSession_lookup (env : Env) (s : State) (u : String) :
    mapGet (getOrCreateSession env s u).2.sessions u = some (getOrCreateSession env s u).1 := by
  unfold getOrCreateSession
  cases hs : mapGet s.sessions u with
  | some sess => simpa using hs
  | none => simp [timeNow]

theorem getOrCreateSession_of_lookup (env : Env) (s : State) (u : String) (sess : ChatSession)
    (hs : mapGet s.sessions u = some sess) : getOrCreateSession env s u = (sess, s) := by
  simp [getOrCreateSession, hs]

theorem getOrCreateSession_frame (env : Env) (s : State) (u : String) :
    (getOrCreateSession env s u).2.cache = s.cache ∧
    (getOrCreateSession env s u).2.requests = s.requests := by
  unfold getOrCreateSession
  cases mapGet s.sessions u <;> simp [timeNow]

theorem getOrCreateSession_prompts (env : Env) (s : State) (u v : String) :
    GetUserPrompts (getOrCreateSession env s u).2 v = GetUserPrompts s v := by
  unfold getOrCreateSession
  cases mapGet s.sessions u with
  | some sess => rfl
  | none =>
    rw [← GetUserPrompts_BuildPromptList env s u v]
    simp [timeNow, GetUserPrompts]

theorem history_of_lookup (env : Env) (s : State) (u : String) (sess : ChatSession)
    (hs : mapGet s.sessions u = some sess) :
    history env s u = readSlice s.heap sess.Messages := by
  simp [history, GetChatHistory, getOrCreateSession_of_lookup env s u sess hs]

theorem history_eq (env : Env) (s : State) (u : String) :
    history env s u
      = readSlice (getOrCreateSession env s u).2.heap (getOrCreateSession env s u).1.Messages :=
  rfl

theorem history_of_absent (env : Env) (s : State) (u : String)
    (hs : mapGet s.sessions u = none) :
    history env s u = promptList env s u := by
  simp [history, GetChatHistory, getOrCreateSession, hs, timeNow, promptList]

theorem history_getOrCreateSession (env : Env) (s : State) (u : String) :
    history env (getOrCreateSession env s u).2 u = history env s u := by
  rw [history_of_lookup env _ u _ (getOrCreateSession_lookup env s u)]
  rfl

theorem AddMessage_history (env : Env) (s : State) (u role content : String) :
    history env (AddMessage env s u role content) u
      = history env s u ++
        [⟨toString (env.now (getOrCreateSession env s u).2.ticks), role, content,
          env.now ((getOrCreateSession env s u).2.ticks + 1)⟩] := by
  rw [history_eq env s u, ← readSlice_goAppend env]
  have hl : mapGet (AddMessage env s u role content).sessions u
      = some { (getOrCreateSession env s u).1 with
          Messages := (goAppend env (getOrCreateSession env s u).2.heap
            (getOrCreateSession env s u).1.Messages
            ⟨toString (env.now (getOrCreateSession env s u).2.ticks), role, content,
              env.now ((getOrCreateSession env s u).2.ticks + 1)⟩).1
          LastActivity := env.now ((getOrCreateSession env s u).2.ticks + 1 + 1) } := by
    simp [AddMessage, timeNow, GenerateID]
  rw [history_of_lookup env _ u _ hl]
  simp [AddMessage, timeNow, GenerateID]

theorem AddMessage_frame (env : Env) (s : State) (u role content : String) :
    (AddMessage env s u role content).cache = s.cache ∧
    (AddMessage env s u role content).requests = s.requests := by
  simp [AddMessage, timeNow, GenerateID, getOrCreateSession_frame]

/-! ## Lemmas: completion and response -/

theorem GenerateCompletion_frame (env : Env) (s : State) (req : CompletionRequest) :
    (GenerateCompletion env s req).2.heap = s.heap ∧
    (GenerateCompletion env s req).2.sessions = s.sessions ∧
    (GenerateCompletion env s req).2.prompts = s.prompts ∧
    (GenerateCompletion env s req).2.ticks = s.ticks := by
  unfold GenerateCompletion SendRequest
  simp only
  split <;> simp

theorem GenerateCompletion_requests (env : Env) (s : State) (req : CompletionRequest) :
    (GenerateCompletion env s req).2.requests
      = s.requests ++ [(req.UserID, getMessages s req.UserID ++ readSlice s.heap req.Messages)] := by
  unfold GenerateCompletion SendRequest
  simp only
  split <;> simp

theorem GenerateCompletion_ok (env : Env) (s : State) (req : CompletionRequest) (r : String)
    (h : env.send s.requests.length req.UserID
      (getMessages s req.UserID ++ readSlice s.heap req.Messages) = .ok r) :
    (GenerateCompletion env s req).1 = (r, none) := by
  simp [GenerateCompletion, SendRequest, h]

theorem GenerateCompletion_error (env : Env) (s : State) (req : CompletionRequest) (e : String)
    (h : env.send s.requests.length req.UserID
      (getMessages s req.UserID ++ readSlice s.heap req.Messages) = .error e) :
    (GenerateCompletion env s req).1 = ("", some ("completion generation failed: " ++ e)) := by
  simp [GenerateCompletion, SendRequest, h]

/-- What `GenerateResponse` hands to the provider from state `s`: the cached
list of the user followed by the history. -/
theorem GenerateResponse_requests (env : Env) (s : State) (u : String) :
    (GenerateResponse env s u).2.requests
      = s.requests ++ [(u, getMessages s u ++ history env s u)] := by
  have hc := (getOrCreateSession_frame env s u)
  have hreq := GenerateCompletion_requests env (getOrCreateSession env s u).2
    ⟨u, (getOrCreateSession env s u).1.Messages⟩
  simp only [getMessages, hc.1, hc.2] at hreq
  unfold GenerateResponse
  simp only
  split
  · rw [(AddMessage_frame env _ u _ _).2, hreq]
    rfl
  · rw [hreq]
    rfl


theorem history_GenerateCompletion (env : Env) (s : State) (u : String)
    (req : CompletionRequest) :
    history env (GenerateCompletion env (getOrCreateSession env s u).2 req).2 u
      = history env s u := by
  have hf := GenerateCompletion_frame env (getOrCreateSession env s u).2 req
  have hl : mapGet (GenerateCompletion env (getOrCreateSession env s u).2 req).2.sessions u
      = some (getOrCreateSession env s u).1 := by
    rw [hf.2.1]
    exact getOrCreateSession_lookup env s u
  rw [history_of_lookup env _ u _ hl, hf.1]
  rfl

theorem GenerateResponse_ok (env : Env) (s : State) (u r : String)
    (h : env.send s.requests.length u (getMessages s u ++ history env s u) = .ok r) :
    (GenerateResponse env s u).1 = (r, none) ∧
    (GenerateResponse env s u).2
      = AddMessage env (GenerateCompletion env (getOrCreateSession env s u).2
          ⟨u, (getOrCreateSession env s u).1.Messages⟩).2 u "assistant" r := by
  have hc := getOrCreateSession_frame env s u
  have hok := GenerateCompletion_ok env (getOrCreateSession env s u).2
    ⟨u, (getOrCreateSession env s u).1.Messages⟩ r (by
      simpa only [getMessages, hc.1, hc.2] using h)
  unfold GenerateResponse
  simp only [hok]
  exact ⟨trivial, trivial⟩

theorem GenerateResponse_error (env : Env) (s : State) (u e : String)
    (h : env.send s.requests.length u (getMessages s u ++ history env s u) = .error e) :
    (GenerateResponse env s u).1 = ("", some ("completion generation failed: " ++ e)) ∧
    (GenerateResponse env s u).2
      = (GenerateCompletion env (getOrCreateSession env s u).2
          ⟨u, (getOrCreateSession env s u).1.Messages⟩).2 := by
  have hc := getOrCreateSession_frame env s u
  have herr := GenerateCompletion_error env (getOrCreateSession env s u).2
    ⟨u, (getOrCreateSession env s u).1.Messages⟩ e (by
      simpa only [getMessages, hc.1, hc.2] using h)
  unfold GenerateResponse
  simp only [herr]
  exact ⟨trivial, trivial⟩

theorem GenerateResponse_ok_history (env : Env) (s : State) (u r : String)
    (h : env.send s.requests.length u (getMessages s u ++ history env s u) = .ok r) :
    ∃ m : Message, m.Role = "assistant" ∧ m.Content = r ∧
      history env (GenerateResponse env s u).2 u = history env s u ++ [m] := by
  rw [(GenerateResponse_ok env s u r h).2, AddMessage_history, history_GenerateCompletion]
  exact ⟨_, rfl, rfl, rfl⟩

theorem GenerateResponse_error_history (env : Env) (s : State) (u e : String)
    (h : env.send s.requests.length u (getMessages s u ++ history env s u) = .error e) :
    history env (GenerateResponse env s u).2 u = history env s u := by
  rw [(GenerateResponse_error env s u e h).2, history_GenerateCompletion]


/-! ## Lemmas: regeneration -/

theorem readSlice_reslice (h : Heap) (sl : Slice) (k : Nat) (hk : k ≤ sliceLen h sl) :
    readSlice h (reslice sl k) = (readSlice h sl).take k := by
  simp only [sliceLen, readSlice, List.length_take] at hk
  simp only [readSlice, reslice, backing, List.take_take]
  congr 1
  omega

theorem RegenerateLastResponse_lt (env : Env) (s : State) (u : String)
    (hn : (history env s u).length < 2) :
    RegenerateLastResponse env s u
      = ("No message to regenerate!", (getOrCreateSession env s u).2) := by
  have hn' : sliceLen (getOrCreateSession env s u).2.heap
      (getOrCreateSession env s u).1.Messages < 2 := hn
  simp [RegenerateLastResponse, hn']

theorem RegenerateLastResponse_ge (env : Env) (s : State) (u : String)
    (hn : 2 ≤ (history env s u).length) :
    ∃ s2 : State,
      RegenerateLastResponse env s u
        = ((GenerateResponse env s2 u).1.1, (GenerateResponse env s2 u).2) ∧
      s2.requests = s.requests ∧ s2.cache = s.cache ∧
      history env s2 u = (history env s u).take ((history env s u).length - 1) := by
  have hn' : ¬ sliceLen (getOrCreateSession env s u).2.heap
      (getOrCreateSession env s u).1.Messages < 2 := Nat.not_lt.mpr hn
  have hc := getOrCreateSession_frame env s u
  refine ⟨{ (getOrCreateSession env s u).2 with
    sessions := mapSet (getOrCreateSession env s u).2.sessions u
      { (getOrCreateSession env s u).1 with
        Messages := reslice (getOrCreateSession env s u).1.Messages
          (sliceLen (getOrCreateSession env s u).2.heap
            (getOrCreateSession env s u).1.Messages - 1) } }, ?_, ?_, ?_, ?_⟩
  · unfold RegenerateLastResponse
    simp only [if_neg hn']
  · exact hc.2
  · exact hc.1
  · rw [history_of_lookup env _ u _ (mapGet_mapSet_same _ _ _)]
    exact readSlice_reslice _ _ _ (Nat.sub_le _ _)

/-! ## Lemmas: seeding and persona changes -/

theorem CreateNewChat_history (env : Env) (s : State) (u : String) :
    history env (CreateNewChat env s u) u = promptList env s u := by
  have hl : mapGet (CreateNewChat env s u).sessions u
      = some ⟨(BuildPromptList env s u).1, env.now (BuildPromptList env s u).2.ticks, false⟩ := by
    simp [CreateNewChat, timeNow]
  rw [history_of_lookup env _ u _ hl]
  simp [CreateNewChat, timeNow, promptList]

theorem ClearChat_history (env : Env) (s : State) (u : String) :
    history env (ClearChat env s u) u = promptList env s u := by
  have hl : mapGet (ClearChat env s u).sessions u
      = some ⟨(BuildPromptList env s u).1, env.now (BuildPromptList env s u).2.ticks, false⟩ := by
    simp [ClearChat, timeNow]
  rw [history_of_lookup env _ u _ hl]
  simp [ClearChat, timeNow, promptList]

theorem CreateNewChat_prompts (env : Env) (s : State) (u v : String) :
    GetUserPrompts (CreateNewChat env s u) v = GetUserPrompts s v := by
  rw [← GetUserPrompts_BuildPromptList env s u v]
  simp [CreateNewChat, timeNow, GetUserPrompts]

theorem ClearChat_prompts (env : Env) (s : State) (u v : String) :
    GetUserPrompts (ClearChat env s u) v = GetUserPrompts s v := by
  rw [← GetUserPrompts_BuildPromptList env s u v]
  simp [ClearChat, timeNow, GetUserPrompts]

theorem UpdateDefinitions_frame (s : State) (v : String) (d : GoMap String) :
    (UpdateDefinitions s v d).sessions = s.sessions ∧ (UpdateDefinitions s v d).heap = s.heap := by
  simp [UpdateDefinitions, getOrCreatePrompts_heap]

theorem SetUserPersona_frame (s : State) (v x : String) :
    (SetUserPersona s v x).sessions = s.sessions ∧ (SetUserPersona s v x).heap = s.heap := by
  simp [SetUserPersona, getOrCreatePrompts_heap]

theorem SetFirstMessage_frame (s : State) (v x : String) :
    (SetFirstMessage s v x).sessions = s.sessions ∧ (SetFirstMessage s v x).heap = s.heap := by
  simp [SetFirstMessage, getOrCreatePrompts_heap]

theorem SetAuthorsNote_frame (s : State) (v x : String) :
    (SetAuthorsNote s v x).sessions = s.sessions ∧ (SetAuthorsNote s v x).heap = s.heap := by
  simp [SetAuthorsNote, getOrCreatePrompts_heap]

theorem UpdateDefinitions_prompts (s : State) (u : String) (d : GoMap String) :
    GetUserPrompts (UpdateDefinitions s u d) u
      = { GetUserPrompts s u with
          Description := (mapGet d "description").getD (GetUserPrompts s u).Description
          Personality := (mapGet d "personality").getD (GetUserPrompts s u).Personality
          Scenario := (mapGet d "scenario").getD (GetUserPrompts s u).Scenario } := by
  simp only [UpdateDefinitions, GetUserPrompts, mapGet_mapSet_same]
  rw [show (getOrCreatePrompts s u).1 = GetUserPrompts s u from getOrCreatePrompts_fst s u]
  simp only [GetUserPrompts]
  cases mapGet d "description" <;> cases mapGet d "personality" <;>
    cases mapGet d "scenario" <;> rfl

theorem SetUserPersona_prompts (s : State) (u x : String) :
    GetUserPrompts (SetUserPersona s u x) u = { GetUserPrompts s u with UserPersona := x } := by
  simp only [SetUserPersona, GetUserPrompts, mapGet_mapSet_same]
  rw [show (getOrCreatePrompts s u).1 = GetUserPrompts s u from getOrCreatePrompts_fst s u]
  rfl

theorem SetFirstMessage_prompts (s : State) (u x : String) :
    GetUserPrompts (SetFirstMessage s u x) u = { GetUserPrompts s u with FirstMessage := x } := by
  simp only [SetFirstMessage, GetUserPrompts, mapGet_mapSet_same]
  rw [show (getOrCreatePrompts s u).1 = GetUserPrompts s u from getOrCreatePrompts_fst s u]
  rfl

theorem SetAuthorsNote_prompts (s : State) (u x : String) :
    GetUserPrompts (SetAuthorsNote s u x) u = { GetUserPrompts s u with AuthorsNote := x } := by
  simp only [SetAuthorsNote, GetUserPrompts, mapGet_mapSet_same]
  rw [show (getOrCreatePrompts s u).1 = GetUserPrompts s u from getOrCreatePrompts_fst s u]
  rfl

theorem history_of_frame (env : Env) (s s' : State) (u : String) (sess : ChatSession)
    (hs : mapGet s.sessions u = some sess) (h1 : s'.sessions = s.sessions)
    (h2 : s'.heap = s.heap) : history env s' u = history env s u := by
  rw [history_of_lookup env s u sess hs, history_of_lookup env s' u sess (h1 ▸ hs), h2]

/-! ## The claims -/

/-- C1: for every persona configuration, `BuildPromptList` returns the list
obtained from Description, Personality, Scenario, UserPersona (system role,
labelled) and FirstMessage (assistant role), in this order, with the empty
fields left out; its length is the number of non-empty fields among the five,
and it is empty exactly when all five are empty. -/
theorem C1_BuildPromptList_seed (env : Env) (s : State) (u : String) :
    promptList env s u = seedSpec (GetUserPrompts s u) ∧
    (promptList env s u).length
      = ([(GetUserPrompts s u).Description, (GetUserPrompts s u).Personality,
          (GetUserPrompts s u).Scenario, (GetUserPrompts s u).UserPersona,
          (GetUserPrompts s u).FirstMessage].filter (fun f => f ≠ "")).length ∧
    (promptList env s u = [] ↔
      ((GetUserPrompts s u).Description = "" ∧ (GetUserPrompts s u).Personality = "" ∧
        (GetUserPrompts s u).Scenario = "" ∧ (GetUserPrompts s u).UserPersona = "" ∧
        (GetUserPrompts s u).FirstMessage = "")) := by
  rw [promptList_eq_seedSpec]
  generalize GetUserPrompts s u = p
  refine ⟨rfl, ?_, ?_⟩ <;>
  · simp only [seedSpec, seedFields]
    by_cases h1 : p.Description = "" <;> by_cases h2 : p.Personality = "" <;>
      by_cases h3 : p.Scenario = "" <;> by_cases h4 : p.UserPersona = "" <;>
      by_cases h5 : p.FirstMessage = "" <;> simp [h1, h2, h3, h4, h5]

/-- C2, the code at the failing input: on the second `GenerateResponse` of a
user the provider is handed the cached first request and reply followed by the
history, five messages, while the history holds three. -/
theorem C2_second_request_repeats_history :
    history replyEnv twoTurns "u"
      = [⟨"1001", "user", "hi", 1002⟩, ⟨"1004", "assistant", "r", 1005⟩,
         ⟨"1007", "user", "again", 1008⟩] ∧
    lastRequest (GenerateResponse replyEnv twoTurns "u").2
      = some ("u", [⟨"1001", "user", "hi", 1002⟩, ⟨"", "assistant", "r", 0⟩,
          ⟨"1001", "user", "hi", 1002⟩, ⟨"1004", "assistant", "r", 1005⟩,
          ⟨"1007", "user", "again", 1008⟩]) ∧
    lastRequest (GenerateResponse replyEnv twoTurns "u").2
      ≠ some ("u", history replyEnv twoTurns "u") := by
  decide

/-- C3: when the provider answers the request of `GenerateResponse` with the
text `r`, the call returns `r` and no error, and the history of the user
becomes the previous history followed by one assistant message with content
`r`. -/
theorem C3_GenerateResponse_success (env : Env) (s : State) (u r : String)
    (h : env.send s.requests.length u (getMessages s u ++ history env s u) = .ok r) :
    (GenerateResponse env s u).1 = (r, none) ∧
    ∃ m : Message, m.Role = "assistant" ∧ m.Content = r ∧
      history env (GenerateResponse env s u).2 u = history env s u ++ [m] ∧
      (history env (GenerateResponse env s u).2 u).length = (history env s u).length + 1 := by
  obtain ⟨m, hr, hcont, hh⟩ := GenerateResponse_ok_history env s u r h
  exact ⟨(GenerateResponse_ok env s u r h).1, m, hr, hcont, hh, by simp [hh]⟩

/-- C3 at a sample input: one user message, the provider answers `r`. -/
theorem C3_GenerateResponse_success_witness :
    replyEnv.send oneTurn.requests.length "u"
        (getMessages oneTurn "u" ++ history replyEnv oneTurn "u") = .ok "r" ∧
    ((GenerateResponse replyEnv oneTurn "u").1 = ("r", none) ∧
      ∃ m : Message, m.Role = "assistant" ∧ m.Content = "r" ∧
        history replyEnv (GenerateResponse replyEnv oneTurn "u").2 "u"
          = history replyEnv oneTurn "u" ++ [m] ∧
        (history replyEnv (GenerateResponse replyEnv oneTurn "u").2 "u").length
          = (history replyEnv oneTurn "u").length + 1) :=
  ⟨rfl, C3_GenerateResponse_success replyEnv oneTurn "u" "r" rfl⟩

/-- C4: when the provider call of `GenerateResponse` fails, the call returns
an error and the history of the user is what it was before the call. -/
theorem C4_GenerateResponse_failure (env : Env) (s : State) (u e : String)
    (h : env.send s.requests.length u (getMessages s u ++ history env s u) = .error e) :
    (GenerateResponse env s u).1 = ("", some ("completion generation failed: " ++ e)) ∧
    (GenerateResponse env s u).1.2 ≠ none ∧
    history env (GenerateResponse env s u).2 u = history env s u := by
  have hres := (GenerateResponse_error env s u e h).1
  exact ⟨hres, by simp [hres], GenerateResponse_error_history env s u e h⟩

/-- C4 at a sample input: one user message, the provider times out. -/
theorem C4_GenerateResponse_failure_witness :
    downEnv.send oneTurn.requests.length "u"
        (getMessages oneTurn "u" ++ history downEnv oneTurn "u") = .error "timeout" ∧
    ((GenerateResponse downEnv oneTurn "u").1
        = ("", some ("completion generation failed: " ++ "timeout")) ∧
      (GenerateResponse downEnv oneTurn "u").1.2 ≠ none ∧
      history downEnv (GenerateResponse downEnv oneTurn "u").2 "u"
        = history downEnv oneTurn "u") :=
  ⟨rfl, C4_GenerateResponse_failure downEnv oneTurn "u" "timeout" rfl⟩

/-- C5: after `AddMessage(u, role, content)` the history of the user is the
previous history (the stored one, or the seed when the user had no session)
followed by one new message with that role and that content; the length grows
by one. -/
theorem C5_AddMessage_appends (env : Env) (s : State) (u role content : String) :
    (history env s u = match mapGet s.sessions u with
      | some session => readSlice s.heap session.Messages
      | none => promptList env s u) ∧
    ∃ m : Message, m.Role = role ∧ m.Content = content ∧
      history env (AddMessage env s u role content) u = history env s u ++ [m] ∧
      (history env (AddMessage env s u role content) u).length
        = (history env s u).length + 1 := by
  refine ⟨?_, _, rfl, rfl, AddMessage_history env s u role content, ?_⟩
  · cases hs : mapGet s.sessions u with
    | some session => exact history_of_lookup env s u session hs
    | none => exact history_of_absent env s u hs
  · simp [AddMessage_history]

/-- C6: every way of seeding gives the same history: after `CreateNewChat`,
after `ClearChat`, and after the first access of a user without a session the
history is what `BuildPromptList` returns for the persona configuration of
that moment, whatever the history was before; the persona configuration of
every user is unchanged. -/
theorem C6_seeding (env : Env) (s : State) (u : String) :
    history env (CreateNewChat env s u) u = promptList env s u ∧
    history env (ClearChat env s u) u = promptList env s u ∧
    (mapGet s.sessions u = none →
      (GetChatHistory env s u).1 = promptList env s u ∧
      history env (GetChatHistory env s u).2 u = promptList env s u) ∧
    promptList env s u = seedSpec (GetUserPrompts s u) ∧
    (∀ v : String, GetUserPrompts (CreateNewChat env s u) v = GetUserPrompts s v) ∧
    (∀ v : String, GetUserPrompts (ClearChat env s u) v = GetUserPrompts s v) ∧
    (∀ v : String, GetUserPrompts (GetChatHistory env s u).2 v = GetUserPrompts s v) := by
  refine ⟨CreateNewChat_history env s u, ClearChat_history env s u, ?_,
    promptList_eq_seedSpec env s u, CreateNewChat_prompts env s u, ClearChat_prompts env s u,
    getOrCreateSession_prompts env s u⟩
  intro hs
  exact ⟨history_of_absent env s u hs,
    (history_getOrCreateSession env s u).trans (history_of_absent env s u hs)⟩

/-- C6 at a sample input: the first access of a user with a description and a
first message configured. -/
theorem C6_seeding_witness :
    mapGet configured.sessions "u" = none ∧
    (GetChatHistory replyEnv configured "u").1 = promptList replyEnv configured "u" ∧
    history replyEnv (GetChatHistory replyEnv configured "u").2 "u"
      = promptList replyEnv configured "u" :=
  ⟨by decide, (C6_seeding replyEnv configured "u").2.2.1 (by decide)⟩

/-- C7: a session is not reseeded: for a user with a session `GetChatHistory`
returns the stored history and leaves the state as it is, the four persona
setters change neither the sessions nor their backing arrays, and the changed
configuration is what the next `CreateNewChat` or `ClearChat` seeds from. -/
theorem C7_no_reseeding (env : Env) (s : State) (u : String) (session : ChatSession)
    (hs : mapGet s.sessions u = some session) :
    GetChatHistory env s u = (readSlice s.heap session.Messages, s) ∧
    (∀ (v : String) (d : GoMap String),
      (UpdateDefinitions s v d).sessions = s.sessions ∧
      (UpdateDefinitions s v d).heap = s.heap ∧
      history env (UpdateDefinitions s v d) u = history env s u) ∧
    (∀ v x : String,
      (SetUserPersona s v x).sessions = s.sessions ∧
      (SetUserPersona s v x).heap = s.heap ∧
      history env (SetUserPersona s v x) u = history env s u) ∧
    (∀ v x : String,
      (SetFirstMessage s v x).sessions = s.sessions ∧
      (SetFirstMessage s v x).heap = s.heap ∧
      history env (SetFirstMessage s v x) u = history env s u) ∧
    (∀ v x : String,
      (SetAuthorsNote s v x).sessions = s.sessions ∧
      (SetAuthorsNote s v x).heap = s.heap ∧
      history env (SetAuthorsNote s v x) u = history env s u) ∧
    (∀ d : GoMap String,
      history env (CreateNewChat env (UpdateDefinitions s u d) u) u
        = seedSpec { GetUserPrompts s u with
            Description := (mapGet d "description").getD (GetUserPrompts s u).Description
            Personality := (mapGet d "personality").getD (GetUserPrompts s u).Personality
            Scenario := (mapGet d "scenario").getD (GetUserPrompts s u).Scenario } ∧
      history env (ClearChat env (UpdateDefinitions s u d) u) u
        = history env (CreateNewChat env (UpdateDefinitions s u d) u) u) ∧
    (∀ x : String,
      history env (CreateNewChat env (SetUserPersona s u x) u) u
        = seedSpec { GetUserPrompts s u with UserPersona := x } ∧
      history env (ClearChat env (SetUserPersona s u x) u) u
        = history env (CreateNewChat env (SetUserPersona s u x) u) u) ∧
    (∀ x : String,
      history env (CreateNewChat env (SetFirstMessage s u x) u) u
        = seedSpec { GetUserPrompts s u with FirstMessage := x } ∧
      history env (ClearChat env (SetFirstMessage s u x) u) u
        = history env (CreateNewChat env (SetFirstMessage s u x) u) u) ∧
    (∀ x : String,
      history env (CreateNewChat env (SetAuthorsNote s u x) u) u
        = seedSpec { GetUserPrompts s u with AuthorsNote := x } ∧
      history env (ClearChat env (SetAuthorsNote s u x) u) u
        = history env (CreateNewChat env (SetAuthorsNote s u x) u) u) := by
  refine ⟨?_, ?_, ?_, ?_, ?_, ?_, ?_, ?_, ?_⟩
  · simp [GetChatHistory, getOrCreateSession_of_lookup env s u session hs]
  · intro v d
    have hf := UpdateDefinitions_frame s v d
    exact ⟨hf.1, hf.2, history_of_frame env s _ u session hs hf.1 hf.2⟩
  · intro v x
    have hf := SetUserPersona_frame s v x
    exact ⟨hf.1, hf.2, history_of_frame env s _ u session hs hf.1 hf.2⟩
  · intro v x
    have hf := SetFirstMessage_frame s v x
    exact ⟨hf.1, hf.2, history_of_frame env s _ u session hs hf.1 hf.2⟩
  · intro v x
    have hf := SetAuthorsNote_frame s v x
    exact ⟨hf.1, hf.2, history_of_frame env s _ u session hs hf.1 hf.2⟩
  · intro d
    rw [ClearChat_history, CreateNewChat_history, promptList_eq_seedSpec,
      UpdateDefinitions_prompts]
    exact ⟨rfl, rfl⟩
  · intro x
    rw [ClearChat_history, CreateNewChat_history, promptList_eq_seedSpec,
      SetUserPersona_prompts]
    exact ⟨rfl, rfl⟩
  · intro x
    rw [ClearChat_history, CreateNewChat_history, promptList_eq_seedSpec,
      SetFirstMessage_prompts]
    exact ⟨rfl, rfl⟩
  · intro x
    rw [ClearChat_history, CreateNewChat_history, promptList_eq_seedSpec,
      SetAuthorsNote_prompts]
    exact ⟨rfl, rfl⟩

/-- C7 at a sample input: the greeted user changes the first message; the
history keeps the old greeting until the next new chat. -/
theorem C7_no_reseeding_witness :
    mapGet greeted.sessions "u" = some ⟨⟨some 0, 2⟩, 1000, false⟩ ∧
    history replyEnv (SetFirstMessage greeted "u" "bye") "u" = history replyEnv greeted "u" ∧
    history replyEnv (CreateNewChat replyEnv (SetFirstMessage greeted "u" "bye") "u") "u"
      = seedSpec { GetUserPrompts greeted "u" with FirstMessage := "bye" } :=
  ⟨by decide,
    ((C7_no_reseeding replyEnv greeted "u" ⟨⟨some 0, 2⟩, 1000, false⟩ (by decide)).2.2.2.1
      "u" "bye").2.2,
    ((C7_no_reseeding replyEnv greeted "u" ⟨⟨some 0, 2⟩, 1000, false⟩ (by decide)).2.2.2.2.2.2.2.1
      "bye").1⟩

/-- C8: for a history of `n ≥ 2` messages, when the provider answers the
request of the regeneration with the text `r`, `RegenerateLastResponse`
returns `r` and the history becomes the first `n - 1` old messages followed by
one assistant message with content `r`; its length is again `n`. -/
theorem C8_RegenerateLastResponse_success (env : Env) (s : State) (u r : String)
    (hn : 2 ≤ (history env s u).length)
    (h : env.send s.requests.length u
      (getMessages s u ++ (history env s u).take ((history env s u).length - 1)) = .ok r) :
    (RegenerateLastResponse env s u).1 = r ∧
    ∃ m : Message, m.Role = "assistant" ∧ m.Content = r ∧
      history env (RegenerateLastResponse env s u).2 u
        = (history env s u).take ((history env s u).length - 1) ++ [m] ∧
      (history env (RegenerateLastResponse env s u).2 u).length = (history env s u).length := by
  obtain ⟨s2, hrun, hreq, hcache, hcut⟩ := RegenerateLastResponse_ge env s u hn
  have h2 : env.send s2.requests.length u (getMessages s2 u ++ history env s2 u) = .ok r := by
    simpa only [getMessages, hreq, hcache, hcut] using h
  obtain ⟨m, hr, hcont, hh⟩ := GenerateResponse_ok_history env s2 u r h2
  rw [hrun]
  refine ⟨by rw [(GenerateResponse_ok env s2 u r h2).1], m, hr, hcont, ?_, ?_⟩
  · simpa only [hcut] using hh
  · simp only [hh, hcut, List.length_append, List.length_take, List.length_singleton]
    omega

/-- C8 at a sample input: the greeted user regenerates the greeting. -/
theorem C8_RegenerateLastResponse_success_witness :
    2 ≤ (history replyEnv greeted "u").length ∧
    replyEnv.send greeted.requests.length "u"
      (getMessages greeted "u" ++
        (history replyEnv greeted "u").take ((history replyEnv greeted "u").length - 1))
      = .ok "r" ∧
    (RegenerateLastResponse replyEnv greeted "u").1 = "r" ∧
    ∃ m : Message, m.Role = "assistant" ∧ m.Content = "r" ∧
      history replyEnv (RegenerateLastResponse replyEnv greeted "u").2 "u"
        = (history replyEnv greeted "u").take ((history replyEnv greeted "u").length - 1)
          ++ [m] ∧
      (history replyEnv (RegenerateLastResponse replyEnv greeted "u").2 "u").length
        = (history replyEnv greeted "u").length :=
  ⟨by decide, rfl,
    C8_RegenerateLastResponse_success replyEnv greeted "u" "r" (by decide) rfl⟩

/-- C9: for a history of fewer than two messages `RegenerateLastResponse`
returns `No message to regenerate!`, issues no provider call, and leaves the
history as it is. -/
theorem C9_RegenerateLastResponse_nothing (env : Env) (s : State) (u : String)
    (hn : (history env s u).length < 2) :
    (RegenerateLastResponse env s u).1 = "No message to regenerate!" ∧
    (RegenerateLastResponse env s u).2.requests = s.requests ∧
    history env (RegenerateLastResponse env s u).2 u = history env s u ∧
    (history env (RegenerateLastResponse env s u).2 u).length = (history env s u).length := by
  rw [RegenerateLastResponse_lt env s u hn]
  exact ⟨rfl, (getOrCreateSession_frame env s u).2, history_getOrCreateSession env s u,
    by rw [history_getOrCreateSession]⟩

/-- C9 at a sample input: a history of exactly one message. -/
theorem C9_RegenerateLastResponse_nothing_witness :
    (history replyEnv oneTurn "u").length = 1 ∧
    (RegenerateLastResponse replyEnv oneTurn "u").1 = "No message to regenerate!" ∧
    (RegenerateLastResponse replyEnv oneTurn "u").2.requests = oneTurn.requests ∧
    history replyEnv (RegenerateLastResponse replyEnv oneTurn "u").2 "u"
      = history replyEnv oneTurn "u" ∧
    (history replyEnv (RegenerateLastResponse replyEnv oneTurn "u").2 "u").length
      = (history replyEnv oneTurn "u").length :=
  ⟨by decide, C9_RegenerateLastResponse_nothing replyEnv oneTurn "u" (by decide)⟩

/-- C10 as stated fails: the greeted user is Idle with a history of two
messages (description, first message); when the provider call of the
regeneration fails the remaining last message has role system, not user. -/
theorem C10_counterexample :
    ¬ (∀ (env : Env) (s : State) (u e : String),
        lastRole (history env s u) = some "assistant" →
        2 ≤ (history env s u).length →
        env.send s.requests.length u
          (getMessages s u ++ (history env s u).take ((history env s u).length - 1))
          = .error e →
        history env (RegenerateLastResponse env s u).2 u
          = (history env s u).take ((history env s u).length - 1) ∧
        lastRole (history env (RegenerateLastResponse env s u).2 u) = some "user") := by
  intro hall
  have hlast := (hall downEnv greeted "u" "timeout" (by decide) (by decide) rfl).2
  exact absurd hlast (by decide)

/-- C10, amended: for a user in the Idle state with a history of `n ≥ 2`
messages, when the provider call of the regeneration fails, the history
afterwards is the old history without its last message, and the last remaining
message is the old message at position `n - 2`; the conversation is in
AwaitingReply exactly when that message has role user. -/
theorem C10_RegenerateLastResponse_failure (env : Env) (s : State) (u e : String)
    (_hidle : lastRole (history env s u) = some "assistant")
    (hn : 2 ≤ (history env s u).length)
    (h : env.send s.requests.length u
      (getMessages s u ++ (history env s u).take ((history env s u).length - 1)) = .error e) :
    history env (RegenerateLastResponse env s u).2 u
      = (history env s u).take ((history env s u).length - 1) ∧
    lastRole (history env (RegenerateLastResponse env s u).2 u)
      = ((history env s u)[(history env s u).length - 2]?).map (fun m => m.Role) ∧
    (lastRole (history env (RegenerateLastResponse env s u).2 u) = some "user" ↔
      ((history env s u)[(history env s u).length - 2]?).map (fun m => m.Role)
        = some "user") := by
  obtain ⟨s2, hrun, hreq, hcache, hcut⟩ := RegenerateLastResponse_ge env s u hn
  have h2 : env.send s2.requests.length u (getMessages s2 u ++ history env s2 u)
      = .error e := by
    simpa only [getMessages, hreq, hcache, hcut] using h
  have hh : history env (RegenerateLastResponse env s u).2 u
      = (history env s u).take ((history env s u).length - 1) := by
    rw [hrun]
    exact (GenerateResponse_error_history env s2 u e h2).trans hcut
  have hrole : lastRole (history env (RegenerateLastResponse env s u).2 u)
      = ((history env s u)[(history env s u).length - 2]?).map (fun m => m.Role) := by
    rw [hh]
    generalize history env s u = l at hn
    simp only [lastRole, List.getLast?_eq_getElem?, List.length_take]
    have h1 : min (l.length - 1) l.length - 1 = l.length - 2 := by omega
    rw [h1, List.getElem?_take, if_pos (by omega)]
  exact ⟨hh, hrole, by rw [hrole]⟩

/-- C10 amended, at a sample input: after a reply the user asks to regenerate
and the provider times out; the user message is last again. -/
theorem C10_RegenerateLastResponse_failure_witness :
    lastRole (history downEnv (GenerateResponse replyEnv oneTurn "u").2 "u")
      = some "assistant" ∧
    2 ≤ (history downEnv (GenerateResponse replyEnv oneTurn "u").2 "u").length ∧
    history downEnv
        (RegenerateLastResponse downEnv (GenerateResponse replyEnv oneTurn "u").2 "u").2 "u"
      = (history downEnv (GenerateResponse replyEnv oneTurn "u").2 "u").take
          ((history downEnv (GenerateResponse replyEnv oneTurn "u").2 "u").length - 1) ∧
    lastRole (history downEnv
        (RegenerateLastResponse downEnv (GenerateResponse replyEnv oneTurn "u").2 "u").2 "u")
      = some "user" :=
  ⟨by decide, by decide,
    (C10_RegenerateLastResponse_failure downEnv (GenerateResponse replyEnv oneTurn "u").2
      "u" "timeout" (by decide) (by decide) rfl).1,
    ((C10_RegenerateLastResponse_failure downEnv (GenerateResponse replyEnv oneTurn "u").2
      "u" "timeout" (by decide) (by decide) rfl).2.2).mpr (by decide)⟩

/-! ## Lemmas: undo and continue -/

theorem getOrCreateSession_idem (env : Env) (s : State) (u : String) :
    getOrCreateSession env (getOrCreateSession env s u).2 u = getOrCreateSession env s u :=
  getOrCreateSession_of_lookup env _ u _ (getOrCreateSession_lookup env s u)

theorem GenerateResponse_getOrCreateSession (env : Env) (s : State) (u : String) :
    GenerateResponse env (getOrCreateSession env s u).2 u = GenerateResponse env s u := by
  unfold GenerateResponse
  simp only [getOrCreateSession_idem]

theorem sliceLen_getOrCreateSession (env : Env) (s : State) (u : String) :
    sliceLen (getOrCreateSession env s u).2.heap (getOrCreateSession env s u).1.Messages
      = (history env s u).length := rfl

theorem RemoveLastMessage_pos (env : Env) (s : State) (u : String)
    (hne : history env s u ≠ []) :
    (RemoveLastMessage env s u).1 = true ∧
    history env (RemoveLastMessage env s u).2 u = (history env s u).dropLast := by
  have hpos : sliceLen (getOrCreateSession env s u).2.heap
      (getOrCreateSession env s u).1.Messages > 0 := by
    rw [sliceLen_getOrCreateSession]
    exact List.length_pos.mpr hne
  unfold RemoveLastMessage
  simp only [if_pos hpos, true_and]
  rw [history_of_lookup env _ u _ (mapGet_mapSet_same _ _ _)]
  simp only [timeNow]
  rw [readSlice_reslice _ _ _ (Nat.sub_le _ _), List.dropLast_eq_take]
  rfl

theorem RemoveLastMessage_empty (env : Env) (s : State) (u : String) (session : ChatSession)
    (hs : mapGet s.sessions u = some session)
    (he : readSlice s.heap session.Messages = []) :
    RemoveLastMessage env s u = (false, s) := by
  unfold RemoveLastMessage
  simp [getOrCreateSession_of_lookup env s u session hs, sliceLen, he]

theorem goIndex_last (h : Heap) (sl : Slice) (hne : readSlice h sl ≠ []) :
    ∃ last : Message, (readSlice h sl).getLast? = some last ∧
      goIndex h sl ((sliceLen h sl : Int) - 1) = some last := by
  have hpos : 0 < (readSlice h sl).length := List.length_pos.mpr hne
  have hlt : (readSlice h sl).length - 1 < (readSlice h sl).length := by omega
  refine ⟨(readSlice h sl)[(readSlice h sl).length - 1], ?_, ?_⟩
  · rw [List.getLast?_eq_getElem?, List.getElem?_eq_getElem hlt]
  · have hi : ¬ ((sliceLen h sl : Int) - 1 < 0) := by
      simp only [sliceLen]
      omega
    have ht : ((sliceLen h sl : Int) - 1).toNat = (readSlice h sl).length - 1 := by
      simp only [sliceLen]
      omega
    simp only [goIndex, if_neg hi, ht, List.getElem?_eq_getElem hlt]

theorem goIndex_empty (h : Heap) (sl : Slice) (he : readSlice h sl = []) :
    goIndex h sl ((sliceLen h sl : Int) - 1) = none := by
  simp [goIndex, sliceLen, he]

/-! ## The claims, continued -/

/-- With the fields of the service set: for a user with a non-empty history
the index of `ContinueChat` is in bounds and the call returns; the provider is
handed the cached list followed by the history as it is, with no message
appended; when the provider answers `r` the call returns `Continuing from: `,
the content of the last message, two newlines and `r`, and the history becomes
the old history followed by one assistant message with content `r`. -/
theorem ContinueChat_of_nonempty (env : Env) (s : State) (u : String)
    (hne : history env s u ≠ []) :
    ∃ (out : String) (s' : State) (last : Message),
      ContinueChat env s u = some (out, s') ∧
      (history env s u).getLast? = some last ∧
      s'.requests = s.requests ++ [(u, getMessages s u ++ history env s u)] ∧
      ∀ r : String,
        env.send s.requests.length u (getMessages s u ++ history env s u) = .ok r →
        out = "Continuing from: " ++ last.Content ++ "\n\n" ++ r ∧
        ∃ m : Message, m.Role = "assistant" ∧ m.Content = r ∧
          history env s' u = history env s u ++ [m] := by
  obtain ⟨last, hlast, hidx⟩ := goIndex_last (getOrCreateSession env s u).2.heap
    (getOrCreateSession env s u).1.Messages hne
  refine ⟨"Continuing from: " ++ last.Content ++ "\n\n" ++ (GenerateResponse env s u).1.1,
    (GenerateResponse env s u).2, last, ?_, hlast, GenerateResponse_requests env s u, ?_⟩
  · unfold ContinueChat
    simp only [hidx, GenerateResponse_getOrCreateSession]
  · intro r hr
    exact ⟨by rw [(GenerateResponse_ok env s u r hr).1], GenerateResponse_ok_history env s u r hr⟩

/-- The same at a sample input: one user message, the provider answers `r`. -/
theorem ContinueChat_of_nonempty_sample :
    history replyEnv oneTurn "u" ≠ [] ∧
    (ContinueChat replyEnv oneTurn "u").map (fun st => st.1)
      = some "Continuing from: hi\n\nr" ∧
    ∃ (out : String) (s' : State) (last : Message),
      ContinueChat replyEnv oneTurn "u" = some (out, s') ∧
      (history replyEnv oneTurn "u").getLast? = some last ∧
      s'.requests = oneTurn.requests ++
        [("u", getMessages oneTurn "u" ++ history replyEnv oneTurn "u")] ∧
      out = "Continuing from: " ++ last.Content ++ "\n\n" ++ "r" ∧
      ∃ m : Message, m.Role = "assistant" ∧ m.Content = "r" ∧
        history replyEnv s' "u" = history replyEnv oneTurn "u" ++ [m] :=
  ⟨by decide, by decide,
    match ContinueChat_of_nonempty replyEnv oneTurn "u" (by decide) with
    | ⟨out, s', last, h1, h2, h3, h4⟩ => ⟨out, s', last, h1, h2, h3, h4 "r" rfl⟩⟩

/-- C12: for a user with a non-empty history `RemoveLastMessage` returns true
and the history becomes the old history without its last element, whatever
that element is. -/
theorem C12_RemoveLastMessage_removes (env : Env) (s : State) (u : String)
    (hne : history env s u ≠ []) :
    (RemoveLastMessage env s u).1 = true ∧
    history env (RemoveLastMessage env s u).2 u = (history env s u).dropLast ∧
    (history env (RemoveLastMessage env s u).2 u).length = (history env s u).length - 1 ∧
    ∀ last : Message, (history env s u).getLast? = some last →
      history env s u = history env (RemoveLastMessage env s u).2 u ++ [last] := by
  obtain ⟨h1, h2⟩ := RemoveLastMessage_pos env s u hne
  refine ⟨h1, h2, by rw [h2, List.length_dropLast], ?_⟩
  intro last hlast
  rw [h2]
  exact (List.dropLast_append_getLast? last hlast).symm

/-- C12 at a sample input: the greeted user removes the first message, an
assistant message, and the system message stays. -/
theorem C12_RemoveLastMessage_removes_witness :
    history replyEnv greeted "u" ≠ [] ∧
    (RemoveLastMessage replyEnv greeted "u").1 = true ∧
    history replyEnv (RemoveLastMessage replyEnv greeted "u").2 "u"
      = (history replyEnv greeted "u").dropLast ∧
    history replyEnv greeted "u"
      = history replyEnv (RemoveLastMessage replyEnv greeted "u").2 "u"
        ++ [⟨"", "assistant", "hello", 0⟩] :=
  ⟨by decide, (C12_RemoveLastMessage_removes replyEnv greeted "u" (by decide)).1,
    (C12_RemoveLastMessage_removes replyEnv greeted "u" (by decide)).2.1,
    (C12_RemoveLastMessage_removes replyEnv greeted "u" (by decide)).2.2.2
      ⟨"", "assistant", "hello", 0⟩ (by decide)⟩

/-- C13: for a user whose session exists with an empty history
`RemoveLastMessage` returns false and leaves the whole state as it is: the
history stays empty and the session, with its lastActivity, is the one stored
before. -/
theorem C13_RemoveLastMessage_empty (env : Env) (s : State) (u : String)
    (session : ChatSession) (hs : mapGet s.sessions u = some session)
    (he : readSlice s.heap session.Messages = []) :
    RemoveLastMessage env s u = (false, s) ∧
    history env (RemoveLastMessage env s u).2 u = [] ∧
    mapGet (RemoveLastMessage env s u).2.sessions u = some session := by
  rw [RemoveLastMessage_empty env s u session hs he]
  refine ⟨rfl, ?_, hs⟩
  rw [history_of_lookup env s u session hs, he]

/-- C13 at a sample input: a session whose only message was removed. -/
theorem C13_RemoveLastMessage_empty_witness :
    mapGet (RemoveLastMessage replyEnv oneTurn "u").2.sessions "u"
      = some ⟨⟨some 0, 0⟩, 1004, false⟩ ∧
    RemoveLastMessage replyEnv (RemoveLastMessage replyEnv oneTurn "u").2 "u"
      = (false, (RemoveLastMessage replyEnv oneTurn "u").2) :=
  ⟨by decide,
    (C13_RemoveLastMessage_empty replyEnv (RemoveLastMessage replyEnv oneTurn "u").2 "u"
      ⟨⟨some 0, 0⟩, 1004, false⟩ (by decide) (by decide)).1⟩

/-- C14 as stated fails: with a description and no first message configured
the history after `CreateNewChat` is one system message, not empty. -/
theorem C14_counterexample :
    ¬ (∀ (env : Env) (s : State) (u : String),
        ((GetUserPrompts s u).FirstMessage ≠ "" →
          lastRole (history env (CreateNewChat env s u) u) = some "assistant") ∧
        ((GetUserPrompts s u).FirstMessage = "" →
          history env (CreateNewChat env s u) u = [])) := by
  intro hall
  exact absurd ((hall replyEnv described "u").2 (by decide)) (by decide)

/-- C14, amended: after `CreateNewChat`, a non-empty first message makes the
history end with an assistant message (Idle); with an empty first message the
history is empty (Empty) exactly when the four other seed fields are empty
too, and otherwise it ends with a system message. -/
theorem C14_CreateNewChat_state (env : Env) (s : State) (u : String) :
    ((GetUserPrompts s u).FirstMessage ≠ "" →
      lastRole (history env (CreateNewChat env s u) u) = some "assistant") ∧
    ((GetUserPrompts s u).FirstMessage = "" →
      (history env (CreateNewChat env s u) u = [] ↔
        ((GetUserPrompts s u).Description = "" ∧ (GetUserPrompts s u).Personality = "" ∧
          (GetUserPrompts s u).Scenario = "" ∧ (GetUserPrompts s u).UserPersona = "")) ∧
      (history env (CreateNewChat env s u) u ≠ [] →
        lastRole (history env (CreateNewChat env s u) u) = some "system")) := by
  rw [CreateNewChat_history, promptList_eq_seedSpec]
  generalize GetUserPrompts s u = p
  simp only [seedSpec, seedFields, lastRole]
  by_cases h1 : p.Description = "" <;> by_cases h2 : p.Personality = "" <;>
    by_cases h3 : p.Scenario = "" <;> by_cases h4 : p.UserPersona = "" <;>
    by_cases h5 : p.FirstMessage = "" <;> simp [h1, h2, h3, h4, h5]

/-- C14 amended, at sample inputs: a configured first message gives Idle, a
description alone gives a history ending with a system message. -/
theorem C14_CreateNewChat_state_witness :
    lastRole (history replyEnv (CreateNewChat replyEnv configured "u") "u")
      = some "assistant" ∧
    lastRole (history replyEnv (CreateNewChat replyEnv described "u") "u")
      = some "system" :=
  ⟨(C14_CreateNewChat_state replyEnv configured "u").1 (by decide),
    ((C14_CreateNewChat_state replyEnv described "u").2 (by decide)).2 (by decide)⟩

/-! ## Lemmas: the inactivity sweep -/

theorem mapGet_filter_key {α : Type} (q : String → Bool) (m : GoMap α) (v : String) :
    mapGet (m.filter (fun e => q e.1)) v = if q v then mapGet m v else none := by
  induction m with
  | nil => simp [mapGet]
  | cons e rest ih =>
    obtain ⟨k, x⟩ := e
    by_cases hq : q k = true
    · by_cases hk : k = v
      · subst hk
        simp [List.filter_cons, hq, mapGet]
      · simp [List.filter_cons, hq, mapGet, hk, ih]
    · by_cases hk : k = v
      · subst hk
        simp [List.filter_cons, hq, mapGet, ih]
      · simp [List.filter_cons, hq, mapGet, hk, ih]

theorem foldl_mapDelete {α : Type} (p : String × α → Prop) [DecidablePred p]
    (l : List (String × α)) (m : GoMap α) :
    l.foldl (fun acc e => if p e then mapDelete acc e.1 else acc) m
      = m.filter (fun e => decide (∀ e' ∈ l, p e' → e'.1 ≠ e.1)) := by
  induction l generalizing m with
  | nil => simp
  | cons x rest ih =>
    rw [List.foldl_cons, ih]
    by_cases hp : p x
    · simp only [if_pos hp, mapDelete, List.filter_filter]
      congr 1
      funext e
      by_cases hx : x.1 = e.1
      · simp [hp, hx]
      · have hx' : ¬ e.1 = x.1 := fun h => hx h.symm
        simp [hp, hx, hx']
    · simp only [if_neg hp]
      congr 1
      funext e
      simp [hp]

theorem mapGet_of_mem {α : Type} (m : GoMap α) (k : String) (x : α)
    (hkeys : (m.map Prod.fst).Nodup) (hmem : (k, x) ∈ m) : mapGet m k = some x := by
  induction m with
  | nil => simp at hmem
  | cons e rest ih =>
    obtain ⟨k0, x0⟩ := e
    rw [List.map_cons, List.nodup_cons] at hkeys
    rcases List.mem_cons.mp hmem with heq | hin
    · cases heq
      simp [mapGet]
    · have hne : k0 ≠ k := by
        intro hk
        subst hk
        exact hkeys.1 (List.mem_map.mpr ⟨(k0, x), hin, rfl⟩)
      simp [mapGet, hne, ih hkeys.2 hin]

theorem mem_of_mapGet {α : Type} (m : GoMap α) (k : String) (x : α)
    (hget : mapGet m k = some x) : (k, x) ∈ m := by
  induction m with
  | nil => simp [mapGet] at hget
  | cons e rest ih =>
    obtain ⟨k0, x0⟩ := e
    by_cases hk : k0 = k
    · subst hk
      simp [mapGet] at hget
      simp [hget]
    · simp [mapGet, hk] at hget
      exact List.mem_cons_of_mem _ (ih hget)

theorem CleanupInactiveSessions_lookup (env : Env) (s : State) (timeout : Int)
    (hkeys : (s.sessions.map Prod.fst).Nodup) (v : String) :
    mapGet (CleanupInactiveSessions env s timeout).sessions v
      = match mapGet s.sessions v with
        | some session =>
          if durationSub (env.now s.ticks) session.LastActivity > timeout then none
          else some session
        | none => none := by
  simp only [CleanupInactiveSessions, timeNow]
  rw [foldl_mapDelete (fun e : String × ChatSession =>
    durationSub (env.now s.ticks) e.2.LastActivity > timeout)]
  rw [mapGet_filter_key (fun k => decide (∀ e' ∈ s.sessions,
    durationSub (env.now s.ticks) e'.2.LastActivity > timeout → e'.1 ≠ k))]
  cases hv : mapGet s.sessions v with
  | none => simp
  | some session =>
    have hmem := mem_of_mapGet _ _ _ hv
    by_cases hexp : durationSub (env.now s.ticks) session.LastActivity > timeout
    · have : ¬ (∀ e' ∈ s.sessions,
          durationSub (env.now s.ticks) e'.2.LastActivity > timeout → e'.1 ≠ v) :=
        fun hall => hall (v, session) hmem hexp rfl
      rw [if_neg (by simpa using this)]
      simp [hexp]
    · have : ∀ e' ∈ s.sessions,
          durationSub (env.now s.ticks) e'.2.LastActivity > timeout → e'.1 ≠ v := by
        intro e' he' hexp' hk
        have hget := mapGet_of_mem _ _ _ hkeys (show (e'.1, e'.2) ∈ s.sessions from he')
        rw [hk, hv] at hget
        cases hget
        exact hexp hexp'
      rw [if_pos (by simpa using this)]
      simp [hexp]

theorem durationSub_eq (t u : Nat) (ht : t < 2 ^ 63) (hu : u < 2 ^ 63) :
    durationSub t u = (t : Int) - (u : Int) := by
  unfold durationSub
  have h1 : ((t : Int) - (u : Int)) ≤ (2 : Int) ^ 63 - 1 := by
    have : (t : Int) < (2 : Int) ^ 63 := by exact_mod_cast ht
    omega
  have h2 : -(2 : Int) ^ 63 ≤ ((t : Int) - (u : Int)) := by
    have : (u : Int) < (2 : Int) ^ 63 := by exact_mod_cast hu
    omega
  rw [min_eq_left h1, max_eq_right h2]

/-- C15: `CleanupInactiveSessions(timeout)` run at the clock reading `now`
removes exactly the sessions with `now.Sub(lastActivity) > timeout` and keeps
every other session as it is, with its history and lastActivity; `Sub` is the
plain difference of the two readings unless it leaves the range of a
duration. With a timeout of 30 s a session idle for 31 s is removed and one
idle for 29 s stays. -/
theorem C15_CleanupInactiveSessions (env : Env) (s : State) (timeout : Int)
    (hkeys : (s.sessions.map Prod.fst).Nodup) :
    (∀ v : String,
      mapGet (CleanupInactiveSessions env s timeout).sessions v
        = match mapGet s.sessions v with
          | some session =>
            if durationSub (env.now s.ticks) session.LastActivity > timeout then none
            else some session
          | none => none) ∧
    (CleanupInactiveSessions env s timeout).heap = s.heap ∧
    (∀ (v : String) (session : ChatSession), mapGet s.sessions v = some session →
      ¬ durationSub (env.now s.ticks) session.LastActivity > timeout →
      mapGet (CleanupInactiveSessions env s timeout).sessions v = some session ∧
      history env (CleanupInactiveSessions env s timeout) v = history env s v) ∧
    (∀ t u : Nat, t < 2 ^ 63 → u < 2 ^ 63 → durationSub t u = (t : Int) - (u : Int)) ∧
    (timeout = 30000000000 →
      ∀ (v : String) (session : ChatSession), mapGet s.sessions v = some session →
        (((env.now s.ticks : Int) - (session.LastActivity : Int) = 31000000000 →
          mapGet (CleanupInactiveSessions env s timeout).sessions v = none) ∧
        ((env.now s.ticks : Int) - (session.LastActivity : Int) = 29000000000 →
          mapGet (CleanupInactiveSessions env s timeout).sessions v = some session))) := by
  have hlook := CleanupInactiveSessions_lookup env s timeout hkeys
  have hheap : (CleanupInactiveSessions env s timeout).heap = s.heap := by
    simp [CleanupInactiveSessions, timeNow]
  refine ⟨hlook, hheap, ?_, durationSub_eq, ?_⟩
  · intro v session hv hkeep
    have hv' : mapGet (CleanupInactiveSessions env s timeout).sessions v = some session := by
      rw [hlook v, hv]
      simp only [if_neg hkeep]
    exact ⟨hv', by rw [history_of_lookup env _ v session hv', hheap,
      history_of_lookup env s v session hv]⟩
  · intro htimeout v session hv
    subst htimeout
    rw [hlook v, hv]
    constructor
    · intro hidle
      have hexp : durationSub (env.now s.ticks) session.LastActivity > 30000000000 := by
        unfold durationSub
        rw [hidle]
        decide
      simp only [if_pos hexp]
    · intro hidle
      have hkeep : ¬ durationSub (env.now s.ticks) session.LastActivity > 30000000000 := by
        unfold durationSub
        rw [hidle]
        decide
      simp only [if_neg hkeep]

/-- C15 at a sample input: the clock reads 40 s, the timeout is 30 s; the
session last active at 9 s is removed, the one last active at 11 s stays. -/
theorem C15_CleanupInactiveSessions_witness :
    (twoSessions.sessions.map Prod.fst).Nodup ∧
    mapGet (CleanupInactiveSessions lateEnv twoSessions 30000000000).sessions "early" = none ∧
    mapGet (CleanupInactiveSessions lateEnv twoSessions 30000000000).sessions "late"
      = some ⟨nilSlice, 11000000000, false⟩ :=
  ⟨by decide,
    ((C15_CleanupInactiveSessions lateEnv twoSessions 30000000000 (by decide)).2.2.2.2 rfl
      "early" ⟨nilSlice, 9000000000, false⟩ (by decide)).1 (by decide),
    ((C15_CleanupInactiveSessions lateEnv twoSessions 30000000000 (by decide)).2.2.2.2 rfl
      "late" ⟨nilSlice, 11000000000, false⟩ (by decide)).2 (by decide)⟩

/-- C16, the code at the failing input: after `SaveChat` the saved session
and the session of the user share one backing array, so the write of
`UpdateMessage` shows in both histories, whichever session the loop visits
first; two messages with the id have their content replaced. -/
theorem C16_UpdateMessage_changes_saved_chat :
    (SaveChat replyEnv twoTurns "u").1 = "1010" ∧
    history replyEnv savedChat "u"
      = [⟨"1001", "user", "hi", 1002⟩, ⟨"1004", "assistant", "r", 1005⟩,
         ⟨"1007", "user", "again", 1008⟩] ∧
    history replyEnv savedChat "1010" = history replyEnv savedChat "u" ∧
    (UpdateMessage savedChat "1001" "edited").1 = true ∧
    history replyEnv (UpdateMessage savedChat "1001" "edited").2 "u"
      = [⟨"1001", "user", "edited", 1002⟩, ⟨"1004", "assistant", "r", 1005⟩,
         ⟨"1007", "user", "again", 1008⟩] ∧
    history replyEnv (UpdateMessage savedChat "1001" "edited").2 "1010"
      = [⟨"1001", "user", "edited", 1002⟩, ⟨"1004", "assistant", "r", 1005⟩,
         ⟨"1007", "user", "again", 1008⟩] ∧
    history replyEnv (UpdateMessage savedChatReversed "1001" "edited").2 "u"
      = history replyEnv (UpdateMessage savedChat "1001" "edited").2 "u" ∧
    history replyEnv (UpdateMessage savedChatReversed "1001" "edited").2 "1010"
      = history replyEnv (UpdateMessage savedChat "1001" "edited").2 "1010" := by
  decide

/-- C17, the code at the failing input: after `SaveChat` the saved session
and the session of the user share one backing array, so the shift of
`DeleteMessage` shows in the history of the session that was not found: it
keeps its length and reads the shifted elements, the last one twice. -/
theorem C17_DeleteMessage_changes_saved_chat :
    history replyEnv savedChat "u"
      = [⟨"1001", "user", "hi", 1002⟩, ⟨"1004", "assistant", "r", 1005⟩,
         ⟨"1007", "user", "again", 1008⟩] ∧
    history replyEnv savedChat "1010" = history replyEnv savedChat "u" ∧
    (DeleteMessage replyEnv savedChat "1001").1 = true ∧
    history replyEnv (DeleteMessage replyEnv savedChat "1001").2 "u"
      = [⟨"1004", "assistant", "r", 1005⟩, ⟨"1007", "user", "again", 1008⟩] ∧
    history replyEnv (DeleteMessage replyEnv savedChat "1001").2 "1010"
      = [⟨"1004", "assistant", "r", 1005⟩, ⟨"1007", "user", "again", 1008⟩,
         ⟨"1007", "user", "again", 1008⟩] ∧
    history replyEnv (DeleteMessage replyEnv savedChatReversed "1001").2 "1010"
      = [⟨"1004", "assistant", "r", 1005⟩, ⟨"1007", "user", "again", 1008⟩] ∧
    history replyEnv (DeleteMessage replyEnv savedChatReversed "1001").2 "u"
      = [⟨"1004", "assistant", "r", 1005⟩, ⟨"1007", "user", "again", 1008⟩,
         ⟨"1007", "user", "again", 1008⟩] := by
  decide

/-! ## Lemmas: export -/

theorem foldl_textLines (l : List Message) (init : String) :
    l.foldl (fun exported msg => exported ++ (msg.Role ++ ": " ++ msg.Content ++ "\n")) init
      = init ++ textLines l := by
  induction l generalizing init with
  | nil => simp [textLines]
  | cons msg rest ih =>
    rw [List.foldl_cons, ih, textLines, String.append_assoc]

theorem ExportChat_state (env : Env) (s : State) (u format : String) :
    (ExportChat env s u format).2 = (getOrCreateSession env s u).2 := by
  unfold ExportChat
  split <;> rfl

/-- A slice and heap built on top of the heap `h0`: the arrays of `h0` are
kept and the slice, if it has an array, has one allocated after them. -/
theorem goAppend_above (env : Env) (h0 : Heap) (r : Slice × Heap) (m : Message)
    (hlen : h0.length ≤ r.2.length)
    (hkeep : ∀ a : Nat, a < h0.length → r.2.getD a [] = h0.getD a [])
    (harr : ∀ a : Nat, r.1.arr = some a → h0.length ≤ a) :
    h0.length ≤ (goAppend env r.2 r.1 m).2.length ∧
    (∀ a : Nat, a < h0.length → (goAppend env r.2 r.1 m).2.getD a [] = h0.getD a []) ∧
    (∀ a : Nat, (goAppend env r.2 r.1 m).1.arr = some a → h0.length ≤ a) := by
  have hfresh : ∀ (x : List Message) (k : Nat),
      h0.length ≤ (r.2 ++ [x]).length ∧
      (∀ a : Nat, a < h0.length → (r.2 ++ [x]).getD a [] = h0.getD a []) ∧
      (∀ a : Nat, (⟨some r.2.length, k⟩ : Slice).arr = some a → h0.length ≤ a) := by
    intro x k
    refine ⟨by simp; omega, ?_, ?_⟩
    · intro a ha
      rw [← hkeep a ha]
      simp only [List.getD_eq_getElem?_getD]
      rw [List.getElem?_append_left (by omega)]
    · intro a ha
      simp at ha
      omega
  unfold goAppend
  cases hr : r.1.arr with
  | none => exact hfresh _ _
  | some a0 =>
    simp only
    split
    · refine ⟨by simp; omega, ?_, ?_⟩
      · intro a ha
        have hne : a0 ≠ a := by
          have := harr a0 hr
          omega
        rw [← hkeep a ha]
        simp only [List.getD_eq_getElem?_getD, List.getElem?_set, if_neg hne]
      · intro a ha
        simp at ha
        rw [← ha]
        exact harr a0 hr
    · exact hfresh _ _

theorem BuildPromptList_above (env : Env) (s : State) (u : String) :
    s.heap.length ≤ (BuildPromptList env s u).2.heap.length ∧
    (∀ a : Nat, a < s.heap.length →
      (BuildPromptList env s u).2.heap.getD a [] = s.heap.getD a []) ∧
    (∀ a : Nat, (BuildPromptList env s u).1.arr = some a → s.heap.length ≤ a) := by
  have step : ∀ (c : Prop) [Decidable c] (r : Slice × Heap) (m : Message),
      (s.heap.length ≤ r.2.length ∧
        (∀ a : Nat, a < s.heap.length → r.2.getD a [] = s.heap.getD a []) ∧
        (∀ a : Nat, r.1.arr = some a → s.heap.length ≤ a)) →
      (s.heap.length ≤ (if c then goAppend env r.2 r.1 m else r).2.length ∧
        (∀ a : Nat, a < s.heap.length →
          (if c then goAppend env r.2 r.1 m else r).2.getD a [] = s.heap.getD a []) ∧
        (∀ a : Nat, (if c then goAppend env r.2 r.1 m else r).1.arr = some a →
          s.heap.length ≤ a)) := by
    intro c _ r m hr
    by_cases hc : c
    · simp only [if_pos hc]
      exact goAppend_above env s.heap r m hr.1 hr.2.1 hr.2.2
    · simp only [if_neg hc]
      exact hr
  have h0 : s.heap.length ≤ ((nilSlice, (getOrCreatePrompts s u).2.heap) : Slice × Heap).2.length ∧
      (∀ a : Nat, a < s.heap.length →
        ((nilSlice, (getOrCreatePrompts s u).2.heap) : Slice × Heap).2.getD a []
          = s.heap.getD a []) ∧
      (∀ a : Nat, ((nilSlice, (getOrCreatePrompts s u).2.heap) : Slice × Heap).1.arr = some a →
        s.heap.length ≤ a) := by
    simp [(getOrCreatePrompts_heap s u).1, nilSlice]
  unfold BuildPromptList
  exact step _ _ _ (step _ _ _ (step _ _ _ (step _ _ _ (step _ _ _ h0))))

theorem readSlice_of_above (h0 h1 : Heap) (sl : Slice)
    (hkeep : ∀ a : Nat, a < h0.length → h1.getD a [] = h0.getD a [])
    (hvalid : ∀ a : Nat, sl.arr = some a → a < h0.length) :
    readSlice h1 sl = readSlice h0 sl := by
  unfold readSlice backing
  cases harr : sl.arr with
  | none => rfl
  | some a => simp only [hkeep a (hvalid a harr)]

theorem getOrCreateSession_absent (env : Env) (s : State) (u : String)
    (hs : mapGet s.sessions u = none) :
    (getOrCreateSession env s u).2.heap = (BuildPromptList env s u).2.heap ∧
    (getOrCreateSession env s u).2.sessions
      = mapSet s.sessions u ⟨(BuildPromptList env s u).1, env.now s.ticks, false⟩ := by
  simp [getOrCreateSession, hs, timeNow]

/-- C18: for every format other than `json`, `ExportChat` returns the lines
`role: content` of the history, each with its newline, concatenated in order;
for an empty history this is the empty string. -/
theorem C18_ExportChat_text (env : Env) (s : State) (u format : String)
    (hformat : format ≠ "json") :
    (ExportChat env s u format).1 = textLines (history env s u) ∧
    (history env s u = [] → (ExportChat env s u format).1 = "") := by
  have hexp : (ExportChat env s u format).1 = textLines (history env s u) := by
    unfold ExportChat
    simp only [if_neg hformat, foldl_textLines]
    exact String.empty_append _
  exact ⟨hexp, fun he => by rw [hexp, he, textLines]⟩

/-- C18 at a sample input: three messages in the text format. -/
theorem C18_ExportChat_text_witness :
    "text" ≠ "json" ∧
    (ExportChat replyEnv twoTurns "u" "text").1 = "user: hi\nassistant: r\nuser: again\n" ∧
    (ExportChat replyEnv twoTurns "u" "text").1 = textLines (history replyEnv twoTurns "u") ∧
    (ExportChat replyEnv State.init "u" "text").1 = "" :=
  ⟨by decide, by decide, (C18_ExportChat_text replyEnv twoTurns "u" "text" (by decide)).1,
    (C18_ExportChat_text replyEnv State.init "u" "text" (by decide)).2 (by decide)⟩

/-! ## Lemmas: the JSON export read back -/

theorem hexValue_hexDigit (k : Nat) (hk : k < 16) : hexValue (hexDigit k) = some k := by
  interval_cases k <;> decide

theorem hex_digits_sum (n : Nat) (hn : n < 65536) :
    n / 4096 % 16 * 4096 + n / 256 % 16 * 256 + n / 16 % 16 * 16 + n % 16 = n := by
  omega

theorem readChars_unicodeEscape (c : Char) (tail : List Char) (hc : c.toNat < 65536) :
    readChars (unicodeEscape c.toNat ++ tail)
      = match readChars tail with
        | some r => some (c :: r.1, r.2)
        | none => none := by
  have hq : chBackslash ≠ chQuote := by decide
  have hlist : unicodeEscape c.toNat ++ tail
      = chBackslash :: 'u' :: hexDigit (c.toNat / 4096 % 16) :: hexDigit (c.toNat / 256 % 16) ::
          hexDigit (c.toNat / 16 % 16) :: hexDigit (c.toNat % 16) :: tail := rfl
  rw [hlist]
  simp only [readChars, if_neg hq, if_true,
    hexValue_hexDigit _ (Nat.mod_lt _ (by decide : 16 > 0))]
  rcases h : readChars tail with _ | r
  · rfl
  · simp only [hex_digits_sum _ hc, Char.ofNat_toNat]
theorem readChars_cons (c : Char) (rest : List Char) :
    readChars (c :: rest) =
    if c = chQuote then some ([], rest)
    else if c = chBackslash then
      match rest with
      | [] => none
      | e :: rest1 =>
        if e = 'u' then
          match rest1 with
          | d1 :: d2 :: d3 :: d4 :: rest2 =>
            match hexValue d1, hexValue d2, hexValue d3, hexValue d4, readChars rest2 with
            | some v1, some v2, some v3, some v4, some r =>
              some (Char.ofNat (v1 * 4096 + v2 * 256 + v3 * 16 + v4) :: r.1, r.2)
            | _, _, _, _, _ => none
          | _ => none
        else
          match unescapeChar e, readChars rest1 with
          | some ch, some r => some (ch :: r.1, r.2)
          | _, _ => none
    else
      match readChars rest with
      | some r => some (c :: r.1, r.2)
      | none => none := by
  rw [readChars.eq_def]

theorem readChars_short (e ch : Char) (tail : List Char) (he : e ≠ 'u')
    (hun : unescapeChar e = some ch) :
    readChars (chBackslash :: e :: tail)
      = match readChars tail with
        | some r => some (ch :: r.1, r.2)
        | none => none := by
  have hq : chBackslash ≠ chQuote := by decide
  rw [readChars_cons, if_neg hq, if_pos rfl]
  simp only [if_neg he, hun]
  rcases h : readChars tail with _ | r <;> rfl

theorem readChars_plain (c : Char) (tail : List Char) (h1 : c ≠ chQuote)
    (h2 : c ≠ chBackslash) :
    readChars (c :: tail)
      = match readChars tail with
        | some r => some (c :: r.1, r.2)
        | none => none := by
  rw [readChars_cons, if_neg h1, if_neg h2]

theorem readChars_escapeChar (c : Char) (tail : List Char) :
    readChars (escapeChar c ++ tail)
      = match readChars tail with
        | some r => some (c :: r.1, r.2)
        | none => none := by
  unfold escapeChar
  split
  · rename_i h
    rcases h with h | h <;> subst h <;>
      exact readChars_short _ _ tail (by decide) (by decide)
  · rename_i hnot
    split
    · rename_i h
      subst h
      exact readChars_short _ _ tail (by decide) (by decide)
    · split
      · rename_i h
        subst h
        exact readChars_short _ _ tail (by decide) (by decide)
      · split
        · rename_i h
          subst h
          exact readChars_short _ _ tail (by decide) (by decide)
        · split
          · rename_i h
            subst h
            exact readChars_short _ _ tail (by decide) (by decide)
          · split
            · rename_i h
              subst h
              exact readChars_short _ _ tail (by decide) (by decide)
            · split
              · rename_i h
                apply readChars_unicodeEscape
                rcases h with h | h | h | h | h | h
                · omega
                all_goals (subst h; decide)
              · exact readChars_plain c tail (fun h => hnot (Or.inl h))
                  (fun h => hnot (Or.inr h))

theorem readChars_flatten (l : List Char) (rest : List Char) :
    readChars ((l.map escapeChar).flatten ++ chQuote :: rest) = some (l, rest) := by
  induction l with
  | nil =>
    rw [List.map_nil, List.flatten_nil, List.nil_append, readChars_cons, if_pos rfl]
  | cons c cs ih =>
    rw [List.map_cons, List.flatten_cons, List.append_assoc, readChars_escapeChar, ih]

theorem readString_jsonString (text : String) (rest : List Char) :
    readString (jsonString text ++ rest) = some (text, rest) := by
  have hlist : jsonString text ++ rest
      = chQuote :: ((text.toList.map escapeChar).flatten ++ chQuote :: rest) := by
    simp [jsonString]
  rw [hlist]
  simp only [readString, if_true, readChars_flatten]
  rfl

theorem readMembers_more (fuel : Nat) (key value : String) (more : List Char) :
    readMembers (fuel + 1) (jsonString key ++ (':' :: (jsonString value ++ (',' :: more))))
      = match readMembers fuel more with
        | some r => some ((key, value) :: r.1, r.2)
        | none => none := by
  rw [readMembers, readString_jsonString]
  simp only [if_true, readString_jsonString]

theorem readMembers_last (fuel : Nat) (key value : String) (tail : List Char) :
    readMembers (fuel + 1)
        (jsonString key ++ (':' :: (jsonString value ++ (Char.ofNat 125 :: tail))))
      = some ([(key, value)], tail) := by
  have hne : Char.ofNat 125 ≠ ',' := by decide
  rw [readMembers, readString_jsonString]
  simp only [if_true, readString_jsonString, if_neg hne]

/-- The members `json.Marshal` writes for a message, as `readMembers` reads
them back. -/
theorem jsonMessage_eq (env : Env) (msg : Message) (tail : List Char) :
    jsonMessage env msg ++ tail
      = Char.ofNat 123 :: (jsonString "id" ++ (':' :: (jsonString msg.ID ++ (',' ::
          (jsonString "role" ++ (':' :: (jsonString msg.Role ++ (',' ::
          (jsonString "content" ++ (':' :: (jsonString msg.Content ++ (',' ::
          (jsonString "timestamp" ++ (':' :: (jsonString (env.timeText msg.Timestamp) ++
          (Char.ofNat 125 :: tail)))))))))))))))) := by
  simp [jsonMessage]

theorem readMembers_jsonMessage (env : Env) (msg : Message) (tail : List Char) (fuel : Nat)
    (hfuel : 4 ≤ fuel) :
    readMembers fuel (jsonString "id" ++ (':' :: (jsonString msg.ID ++ (',' ::
          (jsonString "role" ++ (':' :: (jsonString msg.Role ++ (',' ::
          (jsonString "content" ++ (':' :: (jsonString msg.Content ++ (',' ::
          (jsonString "timestamp" ++ (':' :: (jsonString (env.timeText msg.Timestamp) ++
          (Char.ofNat 125 :: tail))))))))))))))))
      = some ([("id", msg.ID), ("role", msg.Role), ("content", msg.Content),
          ("timestamp", env.timeText msg.Timestamp)], tail) := by
  obtain ⟨k, rfl⟩ := Nat.exists_eq_add_of_le hfuel
  rw [show 4 + k = (k + 3) + 1 from by omega, readMembers_more,
    show k + 3 = (k + 2) + 1 from rfl, readMembers_more,
    show k + 2 = (k + 1) + 1 from rfl, readMembers_more, readMembers_last]

theorem readObjects_jsonMessage (env : Env) (msg : Message) (d : Char) (rest : List Char)
    (fuel : Nat) :
    readObjects (fuel + 1) (jsonMessage env msg ++ (d :: rest))
      = if d = ',' then
          match readObjects fuel rest with
          | some r => some ([("id", msg.ID), ("role", msg.Role), ("content", msg.Content),
              ("timestamp", env.timeText msg.Timestamp)] :: r.1, r.2)
          | none => none
        else if d = ']' then
          some ([[("id", msg.ID), ("role", msg.Role), ("content", msg.Content),
            ("timestamp", env.timeText msg.Timestamp)]], rest)
        else none := by
  rw [jsonMessage_eq, readObjects]
  simp only [if_true]
  rw [readMembers_jsonMessage env msg (d :: rest) _ (by
    simp only [List.length_append, List.length_cons, jsonString]
    omega)]

theorem jsonMessage_length_pos (env : Env) (msg : Message) :
    1 ≤ (jsonMessage env msg).length := by
  simp only [jsonMessage, List.length_append, List.length_cons]
  omega

theorem length_le_jsonElements (env : Env) (msgs : List Message) :
    msgs.length ≤ (jsonElements env msgs).length := by
  induction msgs with
  | nil => simp
  | cons msg rest ih =>
    cases rest with
    | nil => simpa [jsonElements] using jsonMessage_length_pos env msg
    | cons msg' rest' =>
      simp only [jsonElements, List.length_append, List.length_cons] at ih ⊢
      omega

theorem readObjects_jsonElements (env : Env) (rest : List Message) :
    ∀ (msg : Message) (tail : List Char) (fuel : Nat), rest.length + 1 ≤ fuel →
      readObjects fuel (jsonElements env (msg :: rest) ++ (']' :: tail))
        = some ((msg :: rest).map (fun m => [("id", m.ID), ("role", m.Role),
            ("content", m.Content), ("timestamp", env.timeText m.Timestamp)]), tail) := by
  induction rest with
  | nil =>
    intro msg tail fuel hfuel
    obtain ⟨k, rfl⟩ := Nat.exists_eq_add_of_le hfuel
    have hne : ']' ≠ ',' := by decide
    rw [show [].length + 1 + k = k + 1 from by simp; omega]
    simp only [jsonElements, readObjects_jsonMessage, if_neg hne, if_true, List.map_cons,
      List.map_nil]
  | cons msg' rest' ih =>
    intro msg tail fuel hfuel
    obtain ⟨k, rfl⟩ := Nat.exists_eq_add_of_le hfuel
    have hlist : jsonElements env (msg :: msg' :: rest') ++ (']' :: tail)
        = jsonMessage env msg ++ (',' :: (jsonElements env (msg' :: rest') ++ (']' :: tail))) := by
      simp [jsonElements]
    rw [show (msg' :: rest').length + 1 + k = (rest'.length + 1 + k) + 1 from by
      simp only [List.length_cons]; omega, hlist, readObjects_jsonMessage]
    simp only [if_true, ih msg' tail _ (Nat.le_add_right _ _), List.map_cons]

theorem roleAndContent_members (msg : Message) (t : String) :
    roleAndContent [("id", msg.ID), ("role", msg.Role), ("content", msg.Content),
      ("timestamp", t)] = (msg.Role, msg.Content) := by
  have h1 : ("role" == "id") = false := by decide
  have h2 : ("content" == "id") = false := by decide
  have h3 : ("content" == "role") = false := by decide
  simp [roleAndContent, List.lookup, h1, h2, h3]

theorem decodeMessages_jsonMarshal (env : Env) (h : Heap) (sl : Slice) :
    decodeMessages (jsonMarshal env h sl)
      = some ((readSlice h sl).map (fun m => (m.Role, m.Content))) := by
  unfold jsonMarshal
  cases harr : sl.arr with
  | none =>
    have hread : readSlice h sl = [] := by simp [readSlice, backing, harr]
    rw [hread]
    rfl
  | some a =>
    simp only
    have hnull : String.mk (['['] ++ jsonElements env (readSlice h sl) ++ [']']) ≠ "null" := by
      intro hcon
      have hdata := congrArg String.data hcon
      simp at hdata
    have hlist : (String.mk (['['] ++ jsonElements env (readSlice h sl) ++ [']'])).toList
        = '[' :: (jsonElements env (readSlice h sl) ++ [']']) := by
      simp [String.toList]
    unfold decodeMessages
    rw [if_neg hnull, hlist]
    simp only [if_true]
    cases hmsgs : readSlice h sl with
    | nil => simp [jsonElements]
    | cons msg rest =>
      have hne : jsonElements env (msg :: rest) ++ [']'] ≠ [']'] := by
        intro hcon
        have hlen := congrArg List.length hcon
        have hpos := length_le_jsonElements env (msg :: rest)
        simp only [List.length_append, List.length_cons, List.length_nil] at hlen hpos
        omega
      rw [if_neg hne, readObjects_jsonElements env rest msg [] _ (by
        have hpos := length_le_jsonElements env (msg :: rest)
        simp only [List.length_append, List.length_cons, List.length_nil] at hpos ⊢
        omega)]
      simp [roleAndContent_members]

/-- C19: for every state and user, reading the JSON export back as a list of
messages gives the roles and contents of the history at export time, in
order; the empty history, exported as `null` or `[]`, gives the empty list. -/
theorem C19_ExportChat_json_roundtrip (env : Env) (s : State) (u : String) :
    decodeMessages (ExportChat env s u "json").1
      = some ((history env s u).map (fun m => (m.Role, m.Content))) ∧
    (history env s u = [] → decodeMessages (ExportChat env s u "json").1 = some []) := by
  have hround : decodeMessages (ExportChat env s u "json").1
      = some ((history env s u).map (fun m => (m.Role, m.Content))) := by
    unfold ExportChat
    simp only [if_true]
    rw [decodeMessages_jsonMarshal]
    rfl
  exact ⟨hround, fun he => by rw [hround, he, List.map_nil]⟩

/-- C19 at sample inputs: the nil history of a new user is exported as `null`
and a history emptied by an undo as `[]`; both read back as the empty list. -/
theorem C19_ExportChat_json_roundtrip_witness :
    (ExportChat replyEnv State.init "u" "json").1 = "null" ∧
    decodeMessages (ExportChat replyEnv State.init "u" "json").1 = some [] ∧
    (ExportChat replyEnv (RemoveLastMessage replyEnv oneTurn "u").2 "u" "json").1 = "[]" ∧
    decodeMessages (ExportChat replyEnv (RemoveLastMessage replyEnv oneTurn "u").2 "u" "json").1
      = some [] :=
  ⟨by decide, (C19_ExportChat_json_roundtrip replyEnv State.init "u").2 (by decide),
    by decide,
    (C19_ExportChat_json_roundtrip replyEnv (RemoveLastMessage replyEnv oneTurn "u").2 "u").2
      (by decide)⟩

/-- C20 as stated fails: for a user without a session `ExportChat` creates
the session, so the set of sessions grows. -/
theorem C20_counterexample :
    ¬ (∀ (env : Env) (s : State) (u format v : String),
        (mapGet (ExportChat env s u format).2.sessions v).isSome
          = (mapGet s.sessions v).isSome ∧
        (∀ session : ChatSession, mapGet s.sessions v = some session →
          mapGet (ExportChat env s u format).2.sessions v = some session ∧
          history env (ExportChat env s u format).2 v = history env s v)) := by
  intro hall
  exact absurd (hall replyEnv State.init "u" "text" "u").1 (by decide)

/-- C20, amended: `ExportChat` changes no session that exists: when the user
has a session the whole state is unchanged; when the user has none the call
creates it, seeded from the persona configuration, and every other session
keeps its value (with its lastActivity) and, its slice lying in the heap, its
history. -/
theorem C20_ExportChat_frame (env : Env) (s : State) (u format : String) :
    (∀ session : ChatSession, mapGet s.sessions u = some session →
      (ExportChat env s u format).2 = s) ∧
    (mapGet s.sessions u = none →
      (∃ session : ChatSession,
        mapGet (ExportChat env s u format).2.sessions u = some session ∧
        session.LastActivity = env.now s.ticks) ∧
      history env (ExportChat env s u format).2 u = promptList env s u ∧
      (∀ v : String, v ≠ u →
        mapGet (ExportChat env s u format).2.sessions v = mapGet s.sessions v) ∧
      (∀ (v : String) (session : ChatSession), v ≠ u → mapGet s.sessions v = some session →
        (∀ a : Nat, session.Messages.arr = some a → a < s.heap.length) →
        history env (ExportChat env s u format).2 v = history env s v)) := by
  rw [ExportChat_state]
  constructor
  · intro session hs
    rw [getOrCreateSession_of_lookup env s u session hs]
  · intro hs
    obtain ⟨hheap, hsess⟩ := getOrCreateSession_absent env s u hs
    refine ⟨⟨_, by rw [hsess]; exact mapGet_mapSet_same _ _ _, rfl⟩, ?_, ?_, ?_⟩
    · rw [history_getOrCreateSession, history_of_absent env s u hs]
    · intro v hv
      rw [hsess, mapGet_mapSet_ne _ _ _ _ (Ne.symm hv)]
    · intro v session hv hget hvalid
      have hget' : mapGet (getOrCreateSession env s u).2.sessions v = some session := by
        rw [hsess, mapGet_mapSet_ne _ _ _ _ (Ne.symm hv)]
        exact hget
      rw [history_of_lookup env _ v session hget', history_of_lookup env s v session hget,
        hheap]
      exact readSlice_of_above s.heap _ _ (BuildPromptList_above env s u).2.1 hvalid

/-- C20 amended, at sample inputs: the export of `u` leaves the store as it
is, the export of a new user `w` creates a session and keeps the history of
`u`. -/
theorem C20_ExportChat_frame_witness :
    mapGet twoTurns.sessions "u" = some ⟨⟨some 1, 3⟩, 1009, false⟩ ∧
    (ExportChat replyEnv twoTurns "u" "json").2 = twoTurns ∧
    mapGet twoTurns.sessions "w" = none ∧
    history replyEnv (ExportChat replyEnv twoTurns "w" "json").2 "u"
      = history replyEnv twoTurns "u" :=
  ⟨by decide,
    (C20_ExportChat_frame replyEnv twoTurns "u" "json").1 ⟨⟨some 1, 3⟩, 1009, false⟩
      (by decide),
    by decide,
    ((C20_ExportChat_frame replyEnv twoTurns "w" "json").2 (by decide)).2.2.2 "u"
      ⟨⟨some 1, 3⟩, 1009, false⟩ (by decide) (by decide) (by decide)⟩

/-! ## Lemmas: saved chats -/

theorem history_ticks (env : Env) (s : State) (t : Nat) (u : String) :
    history env { s with ticks := t } u = history env s u := by
  cases hs : mapGet s.sessions u with
  | some session =>
    rw [history_of_lookup env s u session hs,
      history_of_lookup env { s with ticks := t } u session hs]
  | none =>
    rw [history_of_absent env s u hs, history_of_absent env { s with ticks := t } u hs,
      promptList_eq_seedSpec, promptList_eq_seedSpec]
    rfl

theorem SaveChat_sessions (env : Env) (s : State) (u : String) :
    (SaveChat env s u).2.heap = (getOrCreateSession env (GenerateID env s).2 u).2.heap ∧
    (SaveChat env s u).2.sessions
      = mapSet (getOrCreateSession env (GenerateID env s).2 u).2.sessions (SaveChat env s u).1
          ⟨(getOrCreateSession env (GenerateID env s).2 u).1.Messages,
            env.now (getOrCreateSession env (GenerateID env s).2 u).2.ticks, false⟩ := by
  simp [SaveChat, timeNow]

theorem SaveChat_saved_history (env : Env) (s : State) (u : String) :
    history env (SaveChat env s u).2 (SaveChat env s u).1 = history env s u := by
  obtain ⟨hheap, hsess⟩ := SaveChat_sessions env s u
  have hl : mapGet (SaveChat env s u).2.sessions (SaveChat env s u).1
      = some ⟨(getOrCreateSession env (GenerateID env s).2 u).1.Messages,
          env.now (getOrCreateSession env (GenerateID env s).2 u).2.ticks, false⟩ := by
    rw [hsess]
    exact mapGet_mapSet_same _ _ _
  rw [history_of_lookup env _ _ _ hl, hheap]
  exact history_ticks env s (s.ticks + 1) u

theorem SaveChat_own_history (env : Env) (s : State) (u : String) :
    history env (SaveChat env s u).2 u = history env s u := by
  obtain ⟨hheap, hsess⟩ := SaveChat_sessions env s u
  by_cases hid : (SaveChat env s u).1 = u
  · have h := SaveChat_saved_history env s u
    rwa [hid] at h
  · have hl : mapGet (SaveChat env s u).2.sessions u
        = some (getOrCreateSession env (GenerateID env s).2 u).1 := by
      rw [hsess, mapGet_mapSet_ne _ _ _ _ hid]
      exact getOrCreateSession_lookup env _ u
    rw [history_of_lookup env _ _ _ hl, hheap]
    exact history_ticks env s (s.ticks + 1) u

/-! ## The claims, third part -/

/-- C21: `SaveChat(u)` returns a chat id under which the store holds a
session afterwards; the history of that session is the history of `u` at the
time of the call, and the history of `u` is unchanged. -/
theorem C21_SaveChat (env : Env) (s : State) (u : String) :
    (∃ session : ChatSession,
      mapGet (SaveChat env s u).2.sessions (SaveChat env s u).1 = some session) ∧
    history env (SaveChat env s u).2 (SaveChat env s u).1 = history env s u ∧
    history env (SaveChat env s u).2 u = history env s u := by
  refine ⟨?_, SaveChat_saved_history env s u, SaveChat_own_history env s u⟩
  rw [(SaveChat_sessions env s u).2]
  exact ⟨_, mapGet_mapSet_same _ _ _⟩

/-! ## Lemmas: the proxy client -/

theorem extractResponse_of_hasReply (result : GoMap JsonValue) (text : String)
    (h : hasReply result text) : extractResponse result = (text, none) := by
  obtain ⟨fields, rest, message, h1, h2, h3⟩ := h
  simp [extractResponse, h1, h2, h3]

theorem hasReply_of_extractResponse (result : GoMap JsonValue)
    (h : (extractResponse result).2 = none) :
    hasReply result (extractResponse result).1 := by
  unfold extractResponse at h ⊢
  split at h
  · rename_i choices hchoices
    split at h
    · simp at h
    · rename_i choice rest
      split at h
      · rename_i fields
        split at h
        · rename_i message hmessage
          split at h
          · rename_i content hcontent
            simp only [hmessage, hcontent]
            exact ⟨fields, rest, message, hchoices, hmessage, hcontent⟩
          · simp at h
        · simp at h
      · simp at h
  · simp at h

theorem extractResponse_error (result : GoMap JsonValue)
    (h : (extractResponse result).2 ≠ none) : (extractResponse result).1 = "" := by
  unfold extractResponse at h ⊢
  repeat' split
  all_goals first
    | rfl
    | (exfalso; simp_all)

/-- C22: `extractResponse` returns a text and no error exactly when the body
has a `choices` entry that is an array whose first element is an object with a
`message` entry that is an object with a `content` entry that is a string, and
the text is that string, whatever the later choices are; for every other body
it returns an error and the empty text. -/
theorem C22_extractResponse (result : GoMap JsonValue) :
    (∀ text : String, extractResponse result = (text, none) ↔ hasReply result text) ∧
    ((¬ ∃ text : String, hasReply result text) →
      (extractResponse result).1 = "" ∧ (extractResponse result).2 ≠ none) ∧
    (∀ (first : JsonValue) (rest rest' : List JsonValue),
      extractResponse [("choices", .array (first :: rest))]
        = extractResponse [("choices", .array (first :: rest'))]) := by
  refine ⟨?_, ?_, ?_⟩
  · intro text
    constructor
    · intro h
      have h2 : (extractResponse result).2 = none := by rw [h]
      have h1 : (extractResponse result).1 = text := by rw [h]
      rw [← h1]
      exact hasReply_of_extractResponse result h2
    · exact extractResponse_of_hasReply result text
  · intro hno
    have herr : (extractResponse result).2 ≠ none := by
      intro h2
      exact hno ⟨_, hasReply_of_extractResponse result h2⟩
    exact ⟨extractResponse_error result herr, herr⟩
  · intro first rest rest'
    simp [extractResponse, mapGet]

/-- C22 at sample inputs: a body with two choices, of which the first has the
content `hello`, and the empty body. -/
theorem C22_extractResponse_witness :
    extractResponse [("choices", .array
      [.object [("message", .object [("content", .string "hello")])], .null])]
      = ("hello", none) ∧
    (extractResponse []).1 = "" ∧ (extractResponse []).2 ≠ none :=
  ⟨((C22_extractResponse _).1 "hello").mpr
      ⟨[("message", .object [("content", .string "hello")])], [.null],
        [("content", .string "hello")], rfl, rfl, rfl⟩,
    (C22_extractResponse []).2.1 (by
      rintro ⟨text, fields, rest, message, h1, _, _⟩
      simp [mapGet] at h1)⟩

theorem getUserConfig_config (pc : ProxyClient) (u : String) :
    (getUserConfig pc u).1 = (mapGet pc.userConfigs u).getD defaultUserConfig := by
  unfold getUserConfig
  cases mapGet pc.userConfigs u <;> rfl

theorem getUserConfig_userConfigs (pc : ProxyClient) (u v : String) (hne : v ≠ u) :
    mapGet (getUserConfig pc u).2.userConfigs v = mapGet pc.userConfigs v := by
  unfold getUserConfig
  cases mapGet pc.userConfigs u with
  | some config => rfl
  | none => exact mapGet_mapSet_ne _ _ _ _ (Ne.symm hne)

theorem getUserConfig_after_set (pc : ProxyClient) (a : String) (config : UserConfig) :
    (getUserConfig { (getUserConfig pc a).2 with
        userConfigs := mapSet (getUserConfig pc a).2.userConfigs a config } a).1 = config ∧
    ∀ b : String, b ≠ a →
      (getUserConfig { (getUserConfig pc a).2 with
        userConfigs := mapSet (getUserConfig pc a).2.userConfigs a config } b).1
        = (getUserConfig pc b).1 := by
  constructor
  · rw [getUserConfig_config]
    simp
  · intro b hb
    rw [getUserConfig_config, getUserConfig_config]
    simp only [mapGet_mapSet_ne _ _ _ _ (Ne.symm hb), getUserConfig_userConfigs pc a b hb]

/-- C23: generation parameters are per user: `SwitchModel(a, m)`,
`SetTemperature(a, t)` and `ToggleStream(a)` change that one field of the
payload built for `a` and leave the configuration and the payload of every
other user as they were; a user without a stored configuration has the
default one. -/
theorem C23_per_user_parameters (pc : ProxyClient) (a : String) (msgs : List Message) :
    (∀ m : String,
      (buildPayload (SwitchModel pc a m) a msgs).1
        = { (buildPayload pc a msgs).1 with model := m } ∧
      ∀ b : String, b ≠ a →
        (getUserConfig (SwitchModel pc a m) b).1 = (getUserConfig pc b).1 ∧
        (buildPayload (SwitchModel pc a m) b msgs).1 = (buildPayload pc b msgs).1) ∧
    (∀ t : Float64,
      (buildPayload (SetTemperature pc a t) a msgs).1
        = { (buildPayload pc a msgs).1 with temperature := t } ∧
      ∀ b : String, b ≠ a →
        (getUserConfig (SetTemperature pc a t) b).1 = (getUserConfig pc b).1 ∧
        (buildPayload (SetTemperature pc a t) b msgs).1 = (buildPayload pc b msgs).1) ∧
    ((ToggleStream pc a).1 = !(getUserConfig pc a).1.Stream ∧
      (buildPayload (ToggleStream pc a).2 a msgs).1
        = { (buildPayload pc a msgs).1 with stream := !(buildPayload pc a msgs).1.stream } ∧
      ∀ b : String, b ≠ a →
        (getUserConfig (ToggleStream pc a).2 b).1 = (getUserConfig pc b).1 ∧
        (buildPayload (ToggleStream pc a).2 b msgs).1 = (buildPayload pc b msgs).1) ∧
    (∀ b : String, mapGet pc.userConfigs b = none →
      (getUserConfig pc b).1 = defaultUserConfig ∧
      (buildPayload pc b msgs).1
        = ⟨msgs, "gpt-4-turbo", 0x3fea8f5c28f5c28f, 1096, true, 0, 0x3fe3333333333333,
            0x3fefae147ae147ae⟩) := by
  refine ⟨?_, ?_, ?_, ?_⟩
  · intro m
    have h := getUserConfig_after_set pc a { (getUserConfig pc a).1 with Model := m }
    refine ⟨?_, ?_⟩
    · simp only [buildPayload, SwitchModel, h.1]
    · intro b hb
      have hb' := h.2 b hb
      exact ⟨hb', by simp only [buildPayload, SwitchModel, hb']⟩
  · intro t
    have h := getUserConfig_after_set pc a { (getUserConfig pc a).1 with Temperature := t }
    refine ⟨?_, ?_⟩
    · simp only [buildPayload, SetTemperature, h.1]
    · intro b hb
      have hb' := h.2 b hb
      exact ⟨hb', by simp only [buildPayload, SetTemperature, hb']⟩
  · have h := getUserConfig_after_set pc a
      { (getUserConfig pc a).1 with Stream := !(getUserConfig pc a).1.Stream }
    refine ⟨rfl, ?_, ?_⟩
    · simp only [buildPayload, ToggleStream, h.1]
    · intro b hb
      have hb' := h.2 b hb
      exact ⟨hb', by simp only [buildPayload, ToggleStream, hb']⟩
  · intro b hb
    have hcfg : (getUserConfig pc b).1 = defaultUserConfig := by
      rw [getUserConfig_config, hb]
      rfl
    exact ⟨hcfg, by simp only [buildPayload, hcfg, defaultUserConfig]⟩

/-- C23 at a sample input: on a fresh client `a` switches the model; the
payload of `a` carries it, the payload of `b` is the default one. -/
theorem C23_per_user_parameters_witness :
    (buildPayload (SwitchModel ⟨"", "", []⟩ "a" "gpt-4o") "a" []).1
      = ⟨[], "gpt-4o", 0x3fea8f5c28f5c28f, 1096, true, 0, 0x3fe3333333333333,
          0x3fefae147ae147ae⟩ ∧
    (buildPayload (SwitchModel ⟨"", "", []⟩ "a" "gpt-4o") "b" []).1
      = (buildPayload ⟨"", "", []⟩ "b" []).1 ∧
    (buildPayload ⟨"", "", []⟩ "b" []).1
      = ⟨[], "gpt-4-turbo", 0x3fea8f5c28f5c28f, 1096, true, 0, 0x3fe3333333333333,
          0x3fefae147ae147ae⟩ :=
  ⟨((C23_per_user_parameters ⟨"", "", []⟩ "a" []).1 "gpt-4o").1,
    (((C23_per_user_parameters ⟨"", "", []⟩ "a" []).1 "gpt-4o").2 "b" (by decide)).2,
    ((C23_per_user_parameters ⟨"", "", []⟩ "a" []).2.2.2 "b" rfl).2⟩

/-! ## Lemmas: the first request of a new session -/

theorem seedSpec_eq_nil (p : UserPrompts) :
    seedSpec p = [] ↔
      (p.Description = "" ∧ p.Personality = "" ∧ p.Scenario = "" ∧ p.UserPersona = "" ∧
        p.FirstMessage = "") := by
  simp only [seedSpec, seedFields]
  by_cases h1 : p.Description = "" <;> by_cases h2 : p.Personality = "" <;>
    by_cases h3 : p.Scenario = "" <;> by_cases h4 : p.UserPersona = "" <;>
    by_cases h5 : p.FirstMessage = "" <;> simp [h1, h2, h3, h4, h5]

/-- C24, the code at the failing input: `RegenerateLastResponse` and
`ContinueChat` drop the error of `GenerateResponse`; when the provider fails
they return the same text as when it answers with the empty text, while
`GenerateResponse` itself returns an error in the first case and none in the
second. -/
theorem C24_failure_returns_the_text_of_an_empty_reply :
    (RegenerateLastResponse downEnv greeted "u").1 = "" ∧
    (RegenerateLastResponse emptyReplyEnv greeted "u").1 = "" ∧
    (ContinueChat downEnv oneTurn "u").map (fun r => r.1) = some "Continuing from: hi\n\n" ∧
    (ContinueChat emptyReplyEnv oneTurn "u").map (fun r => r.1)
      = some "Continuing from: hi\n\n" ∧
    (GenerateResponse downEnv oneTurn "u").1
      = ("", some "completion generation failed: timeout") ∧
    (GenerateResponse emptyReplyEnv oneTurn "u").1 = ("", none) := by
  decide

/-- C25, the code at the failing inputs: two seed messages carry the empty
id; and with a strictly increasing clock, after `SaveChat` the shift of
`DeleteMessage` leaves the id `1007` twice in the history of the session that
shares the backing array. -/
theorem C25_duplicate_ids :
    (history replyEnv (CreateNewChat downEnv configured "u") "u").map (fun m => m.ID)
      = ["", ""] ∧
    (runCalls replyEnv State.init
        [.addMessage "u" "user" "hi", .generateResponse "u", .addMessage "u" "user" "again",
          .saveChat "u", .deleteMessage "1001"]).map
        (fun s => (history replyEnv s "1010").map (fun m => m.ID))
      = some ["1004", "1007", "1007"] := by
  decide

/-- C27, the code at the failing inputs: `UpdateMessage` never touches a
session, so no lastActivity moves; after a successful `UpdateMessage`, a
successful `DeleteMessage` and the removal step of a failed
`RegenerateLastResponse` the history has changed and lastActivity is the old
one. -/
theorem C27_lastActivity_not_updated :
    (∀ (s : State) (messageID content : String),
      (UpdateMessage s messageID content).2.sessions = s.sessions) ∧
    (mapGet oneTurn.sessions "u").map (fun session => session.LastActivity) = some 1003 ∧
    (UpdateMessage oneTurn "1001" "edited").1 = true ∧
    history replyEnv (UpdateMessage oneTurn "1001" "edited").2 "u"
      ≠ history replyEnv oneTurn "u" ∧
    (mapGet (UpdateMessage oneTurn "1001" "edited").2.sessions "u").map
      (fun session => session.LastActivity) = some 1003 ∧
    (DeleteMessage replyEnv oneTurn "1001").1 = true ∧
    history replyEnv (DeleteMessage replyEnv oneTurn "1001").2 "u" = [] ∧
    (mapGet (DeleteMessage replyEnv oneTurn "1001").2.sessions "u").map
      (fun session => session.LastActivity) = some 1003 ∧
    (mapGet greeted.sessions "u").map (fun session => session.LastActivity) = some 1000 ∧
    (history downEnv (RegenerateLastResponse downEnv greeted "u").2 "u").length + 1
      = (history downEnv greeted "u").length ∧
    (mapGet (RegenerateLastResponse downEnv greeted "u").2.sessions "u").map
      (fun session => session.LastActivity) = some 1000 := by
  refine ⟨?_, by decide⟩
  intro s messageID content
  unfold UpdateMessage
  split <;> rfl

/-- C28 as stated fails: for a new user with the default persona
configuration the seed is empty, and `GenerateResponse` hands the provider the
empty list. -/
theorem C28_counterexample :
    ¬ (∀ (env : Env) (s : State) (u : String) (msgs : List Message),
        mapGet s.sessions u = none →
        lastRequest (GenerateResponse env s u).2 = some (u, msgs) → msgs ≠ []) := by
  intro hall
  exact hall replyEnv State.init "u" [] (by decide) (by decide) rfl

/-- C28, amended: for a user with no session `GenerateResponse` hands the
provider the cached list of the user followed by the seed of the persona
configuration; the list is empty exactly when the cache holds nothing for the
user and the five seed fields are empty. -/
theorem C28_first_request (env : Env) (s : State) (u : String)
    (hs : mapGet s.sessions u = none) :
    lastRequest (GenerateResponse env s u).2
      = some (u, getMessages s u ++ seedSpec (GetUserPrompts s u)) ∧
    (getMessages s u ++ seedSpec (GetUserPrompts s u) = [] ↔
      (getMessages s u = [] ∧ (GetUserPrompts s u).Description = "" ∧
        (GetUserPrompts s u).Personality = "" ∧ (GetUserPrompts s u).Scenario = "" ∧
        (GetUserPrompts s u).UserPersona = "" ∧ (GetUserPrompts s u).FirstMessage = "")) := by
  constructor
  · rw [lastRequest, GenerateResponse_requests, history_of_absent env s u hs,
      promptList_eq_seedSpec]
    simp
  · rw [List.append_eq_nil, seedSpec_eq_nil]

/-- C28 amended, at sample inputs: a new user with a configured persona is
sent the two seed messages, a new user with the default one the empty list. -/
theorem C28_first_request_witness :
    mapGet configured.sessions "u" = none ∧
    lastRequest (GenerateResponse replyEnv configured "u").2
      = some ("u", [⟨"", "system", "Character Description: d", 0⟩,
          ⟨"", "assistant", "hello", 0⟩]) ∧
    lastRequest (GenerateResponse replyEnv State.init "u").2 = some ("u", []) :=
  ⟨by decide, (C28_first_request replyEnv configured "u" (by decide)).1,
    (C28_first_request replyEnv State.init "u" (by decide)).1⟩

/-- C29, the code at the failing input: after `SaveChat` and an undo, the
session of `u` and the saved session `1010` share a backing array in which the
saved one reads one element more; `AddMessage`, `GenerateResponse`,
`RegenerateLastResponse` and `ContinueChat` applied to `u` write into that
array and change the history of `1010`. -/
theorem C29_other_session_changes :
    history replyEnv undoneChat "1010"
      = [⟨"1001", "user", "hi", 1002⟩, ⟨"1004", "assistant", "r", 1005⟩,
         ⟨"1007", "user", "again", 1008⟩] ∧
    history replyEnv undoneChat "u"
      = [⟨"1001", "user", "hi", 1002⟩, ⟨"1004", "assistant", "r", 1005⟩] ∧
    history replyEnv (AddMessage replyEnv undoneChat "u" "user" "other") "1010"
      = [⟨"1001", "user", "hi", 1002⟩, ⟨"1004", "assistant", "r", 1005⟩,
         ⟨"1013", "user", "other", 1014⟩] ∧
    history replyEnv (GenerateResponse replyEnv undoneChat "u").2 "1010"
      = [⟨"1001", "user", "hi", 1002⟩, ⟨"1004", "assistant", "r", 1005⟩,
         ⟨"1013", "assistant", "r", 1014⟩] ∧
    history replyEnv (RegenerateLastResponse replyEnv undoneChat "u").2 "1010"
      = [⟨"1001", "user", "hi", 1002⟩, ⟨"1013", "assistant", "r", 1014⟩,
         ⟨"1007", "user", "again", 1008⟩] ∧
    (ContinueChat replyEnv undoneChat "u").map (fun r => history replyEnv r.2 "1010")
      = some [⟨"1001", "user", "hi", 1002⟩, ⟨"1004", "assistant", "r", 1005⟩,
         ⟨"1013", "assistant", "r", 1014⟩] := by
  decide

/-! ## Lemmas: the roles in the heap -/

theorem heapStep_refl (h : Heap) : heapStep h h :=
  ⟨Nat.le_refl _, fun _ _ m _ hm => Or.inr ⟨m, hm, rfl⟩⟩

theorem heapStep_trans (h1 h2 h3 : Heap) (h12 : heapStep h1 h2) (h23 : heapStep h2 h3) :
    heapStep h1 h3 := by
  refine ⟨Nat.le_trans h12.1 h23.1, ?_⟩
  intro a k m ha hm
  rcases h23.2 a k m (Nat.lt_of_lt_of_le ha h12.1) hm with hv | ⟨m0, hm0, hr⟩
  · exact Or.inl hv
  · rcases h12.2 a k m0 ha hm0 with hv | ⟨m1, hm1, hr1⟩
    · exact Or.inl (hr ▸ hv)
    · exact Or.inr ⟨m1, hm1, hr1.trans hr⟩

theorem sliceOK_step (h h' : Heap) (sl : Slice) (hstep : heapStep h h')
    (hok : sliceOK h sl) : sliceOK h' sl := by
  refine ⟨fun a ha => Nat.lt_of_lt_of_le (hok.1 a ha) hstep.1, ?_⟩
  intro m hm
  unfold readSlice backing at hm
  cases harr : sl.arr with
  | none => simp [harr] at hm
  | some a =>
    simp only [harr] at hm
    rcases hstep.2 a sl.len m (hok.1 a harr) hm with hv | ⟨m0, hm0, hr⟩
    · exact hv
    · rw [← hr]
      apply hok.2
      simp only [readSlice, backing, harr]
      exact hm0

theorem heapStep_append (h : Heap) (x : List Message) : heapStep h (h ++ [x]) := by
  refine ⟨by simp, ?_⟩
  intro a k m ha hm
  refine Or.inr ⟨m, ?_, rfl⟩
  simpa [List.getD_eq_getElem?_getD, List.getElem?_append_left ha] using hm

theorem mem_take_getElem? (l : List Message) (k : Nat) (m : Message) :
    m ∈ l.take k ↔ ∃ j : Nat, j < k ∧ l[j]? = some m := by
  constructor
  · intro hm
    obtain ⟨j, hj, hget⟩ := List.getElem_of_mem hm
    have hj' := hj
    simp only [List.length_take] at hj'
    refine ⟨j, by omega, ?_⟩
    rw [List.getElem_take] at hget
    rw [List.getElem?_eq_getElem (by omega), hget]
  · rintro ⟨j, hj, hget⟩
    have hlen : j < l.length := by
      by_contra hcon
      rw [List.getElem?_eq_none (by omega)] at hget
      cases hget
    rw [List.getElem?_eq_getElem hlen] at hget
    cases hget
    have hj2 : j < (l.take k).length := by
      simp only [List.length_take]
      omega
    have := List.getElem_mem hj2
    rwa [List.getElem_take] at this

/-- A write into one array that, position by position, puts a permitted role
or keeps the role is a step of the heap. -/
theorem heapStep_set (h : Heap) (a0 : Nat) (new : List Message)
    (hpoint : ∀ (j : Nat) (m : Message), new[j]? = some m →
      validRole m.Role ∨ ∃ m0 : Message, (h.getD a0 [])[j]? = some m0 ∧ m0.Role = m.Role) :
    heapStep h (h.set a0 new) := by
  refine ⟨by simp, ?_⟩
  intro a k m ha hm
  by_cases haa : a0 = a
  · subst haa
    rw [getD_set_same h a0 new ha] at hm
    obtain ⟨j, hj, hget⟩ := (mem_take_getElem? new k m).mp hm
    rcases hpoint j m hget with hv | ⟨m0, hm0, hr⟩
    · exact Or.inl hv
    · exact Or.inr ⟨m0, (mem_take_getElem? _ k m0).mpr ⟨j, hj, hm0⟩, hr⟩
  · refine Or.inr ⟨m, ?_, rfl⟩
    simpa [List.getD_eq_getElem?_getD, List.getElem?_set, haa] using hm

theorem lt_length_of_getD (h : Heap) (a n : Nat) (hlt : n < (h.getD a []).length) :
    a < h.length := by
  by_contra hcon
  simp [List.getD_eq_getElem?_getD, List.getElem?_eq_none (Nat.le_of_not_lt hcon)] at hlt

theorem goAppend_heapStep (env : Env) (h : Heap) (sl : Slice) (m : Message)
    (hm : validRole m.Role) : heapStep h (goAppend env h sl m).2 := by
  unfold goAppend
  cases harr : sl.arr with
  | none => exact heapStep_append h _
  | some a =>
    simp only
    split
    · apply heapStep_set
      intro j x hx
      rw [List.getElem?_set] at hx
      by_cases hj : sliceLen h sl = j
      · rw [if_pos hj] at hx
        split at hx <;> (cases hx; exact Or.inl hm)
      · rw [if_neg hj] at hx
        exact Or.inr ⟨x, hx, rfl⟩
    · exact heapStep_append h _

theorem goAppend_arr (env : Env) (h : Heap) (sl : Slice) (m : Message) :
    ∀ a : Nat, (goAppend env h sl m).1.arr = some a → a < (goAppend env h sl m).2.length := by
  unfold goAppend
  cases harr : sl.arr with
  | none =>
    intro a ha
    simp at ha
    simp
    omega
  | some a0 =>
    simp only
    split
    · rename_i hlt
      intro a ha
      simp at ha
      subst ha
      simpa using lt_length_of_getD h a0 _ hlt
    · intro a ha
      simp at ha
      simp
      omega

theorem goAppend_sliceOK (env : Env) (h : Heap) (sl : Slice) (m : Message)
    (hm : validRole m.Role) (hok : ∀ x ∈ readSlice h sl, validRole x.Role) :
    sliceOK (goAppend env h sl m).2 (goAppend env h sl m).1 := by
  refine ⟨goAppend_arr env h sl m, ?_⟩
  rw [readSlice_goAppend]
  intro x hx
  rcases List.mem_append.mp hx with hx | hx
  · exact hok x hx
  · simp at hx
    exact hx ▸ hm

theorem sliceOK_nilSlice (h : Heap) : sliceOK h nilSlice :=
  ⟨fun a ha => by simp [nilSlice] at ha, fun m hm => by simp [readSlice_nilSlice] at hm⟩

theorem sliceOK_reslice (h : Heap) (sl : Slice) (k : Nat) (hk : k ≤ sliceLen h sl)
    (hok : sliceOK h sl) : sliceOK h (reslice sl k) := by
  refine ⟨hok.1, ?_⟩
  rw [readSlice_reslice h sl k hk]
  intro m hm
  exact hok.2 m (List.mem_of_mem_take hm)

theorem mem_mapSet {α : Type} (m : GoMap α) (k : String) (v : α) (e : String × α)
    (he : e ∈ mapSet m k v) : e ∈ m ∨ e = (k, v) := by
  induction m with
  | nil =>
    simp [mapSet] at he
    exact Or.inr he
  | cons x rest ih =>
    obtain ⟨k0, v0⟩ := x
    by_cases hk : k0 = k
    · simp only [mapSet, if_pos hk] at he
      rcases List.mem_cons.mp he with h | h
      · exact Or.inr h
      · exact Or.inl (List.mem_cons_of_mem _ h)
    · simp only [mapSet, if_neg hk] at he
      rcases List.mem_cons.mp he with h | h
      · exact Or.inl (h ▸ List.mem_cons_self _ _)
      · rcases ih h with h' | h'
        · exact Or.inl (List.mem_cons_of_mem _ h')
        · exact Or.inr h'

/-- The sessions of `s'` are sessions of `s` or read permitted roles, over a
heap that comes after the heap of `s`. -/
theorem rolesOK_of (s s' : State) (hstep : heapStep s.heap s'.heap)
    (hsess : ∀ e ∈ s'.sessions, e ∈ s.sessions ∨ sliceOK s'.heap e.2.Messages)
    (hok : rolesOK s) : rolesOK s' := by
  intro e he
  rcases hsess e he with h | h
  · exact sliceOK_step _ _ _ hstep (hok e h)
  · exact h

theorem rolesOK_congr (s s' : State) (hheap : s'.heap = s.heap)
    (hsess : s'.sessions = s.sessions) (hok : rolesOK s) : rolesOK s' := by
  intro e he
  rw [hheap]
  exact hok e (hsess ▸ he)

/-! ## Lemmas: the operations keep the roles permitted -/

theorem BuildPromptList_roles (env : Env) (s : State) (u : String) :
    heapStep s.heap (BuildPromptList env s u).2.heap ∧
    sliceOK (BuildPromptList env s u).2.heap (BuildPromptList env s u).1 := by
  have step : ∀ (c : Prop) [Decidable c] (r : Slice × Heap) (m : Message),
      validRole m.Role → (heapStep s.heap r.2 ∧ sliceOK r.2 r.1) →
      (heapStep s.heap (if c then goAppend env r.2 r.1 m else r).2 ∧
        sliceOK (if c then goAppend env r.2 r.1 m else r).2
          (if c then goAppend env r.2 r.1 m else r).1) := by
    intro c _ r m hm hr
    by_cases hc : c
    · simp only [if_pos hc]
      exact ⟨heapStep_trans _ _ _ hr.1 (goAppend_heapStep env r.2 r.1 m hm),
        goAppend_sliceOK env r.2 r.1 m hm hr.2.2⟩
    · simp only [if_neg hc]
      exact hr
  have h0 : heapStep s.heap ((nilSlice, (getOrCreatePrompts s u).2.heap) : Slice × Heap).2 ∧
      sliceOK ((nilSlice, (getOrCreatePrompts s u).2.heap) : Slice × Heap).2
        ((nilSlice, (getOrCreatePrompts s u).2.heap) : Slice × Heap).1 := by
    simp only [(getOrCreatePrompts_heap s u).1]
    exact ⟨heapStep_refl _, sliceOK_nilSlice _⟩
  have hsys : validRole "system" := Or.inl rfl
  have hass : validRole "assistant" := Or.inr (Or.inr rfl)
  unfold BuildPromptList
  exact step _ _ _ hass (step _ _ _ hsys (step _ _ _ hsys (step _ _ _ hsys
    (step _ _ _ hsys h0))))

theorem CreateNewChat_rolesOK (env : Env) (s : State) (u : String) (hok : rolesOK s) :
    rolesOK (CreateNewChat env s u) := by
  obtain ⟨hstep, hsl⟩ := BuildPromptList_roles env s u
  apply rolesOK_of s _ (by simpa [CreateNewChat, timeNow] using hstep) _ hok
  intro e he
  simp only [CreateNewChat, timeNow, BuildPromptList_sessions] at he ⊢
  rcases mem_mapSet _ _ _ _ he with h | h
  · exact Or.inl h
  · exact Or.inr (h ▸ hsl)

theorem ClearChat_rolesOK (env : Env) (s : State) (u : String) (hok : rolesOK s) :
    rolesOK (ClearChat env s u) :=
  CreateNewChat_rolesOK env s u hok

theorem getOrCreateSession_rolesOK (env : Env) (s : State) (u : String) (hok : rolesOK s) :
    rolesOK (getOrCreateSession env s u).2 ∧
    sliceOK (getOrCreateSession env s u).2.heap (getOrCreateSession env s u).1.Messages := by
  have hall : rolesOK (getOrCreateSession env s u).2 := by
    unfold getOrCreateSession
    cases hs : mapGet s.sessions u with
    | some session => exact hok
    | none => exact CreateNewChat_rolesOK env s u hok
  exact ⟨hall, hall (u, (getOrCreateSession env s u).1)
    (mem_of_mapGet _ _ _ (getOrCreateSession_lookup env s u))⟩

theorem AddMessage_rolesOK (env : Env) (s : State) (u role content : String)
    (hrole : validRole role) (hok : rolesOK s) : rolesOK (AddMessage env s u role content) := by
  obtain ⟨hok1, hsl⟩ := getOrCreateSession_rolesOK env s u hok
  apply rolesOK_of (getOrCreateSession env s u).2 _ _ _ hok1
  · simp only [AddMessage, timeNow, GenerateID]
    exact goAppend_heapStep env _ _ _ hrole
  · intro e he
    simp only [AddMessage, timeNow, GenerateID] at he ⊢
    rcases mem_mapSet _ _ _ _ he with h | h
    · exact Or.inl h
    · refine Or.inr ?_
      rw [h]
      exact goAppend_sliceOK env _ _ _ hrole hsl.2

theorem GenerateResponse_rolesOK (env : Env) (s : State) (u : String) (hok : rolesOK s) :
    rolesOK (GenerateResponse env s u).2 := by
  obtain ⟨hok1, _⟩ := getOrCreateSession_rolesOK env s u hok
  have hf := GenerateCompletion_frame env (getOrCreateSession env s u).2
    ⟨u, (getOrCreateSession env s u).1.Messages⟩
  have hok2 := rolesOK_congr _ _ hf.1 hf.2.1 hok1
  unfold GenerateResponse
  simp only
  split
  · exact AddMessage_rolesOK env _ u "assistant" _ (Or.inr (Or.inr rfl)) hok2
  · exact hok2

theorem cut_rolesOK (s s' : State) (u : String) (session session1 : ChatSession) (k : Nat)
    (hheap : s'.heap = s.heap) (hsess : s'.sessions = mapSet s.sessions u session1)
    (hmsg : session1.Messages = reslice session.Messages k)
    (hmem : (u, session) ∈ s.sessions) (hk : k ≤ sliceLen s.heap session.Messages)
    (hok : rolesOK s) : rolesOK s' := by
  apply rolesOK_of s _ (by rw [hheap]; exact heapStep_refl _) _ hok
  intro e he
  rw [hsess] at he
  rcases mem_mapSet _ _ _ _ he with h | h
  · exact Or.inl h
  · refine Or.inr ?_
    rw [h, hheap]
    simp only [hmsg]
    exact sliceOK_reslice s.heap session.Messages k hk (hok _ hmem)

theorem RemoveLastMessage_rolesOK (env : Env) (s : State) (u : String) (hok : rolesOK s) :
    rolesOK (RemoveLastMessage env s u).2 := by
  obtain ⟨hok1, _⟩ := getOrCreateSession_rolesOK env s u hok
  have hmem := mem_of_mapGet _ _ _ (getOrCreateSession_lookup env s u)
  unfold RemoveLastMessage
  simp only
  split
  · exact cut_rolesOK (getOrCreateSession env s u).2 _ u (getOrCreateSession env s u).1 _
      (sliceLen (getOrCreateSession env s u).2.heap (getOrCreateSession env s u).1.Messages - 1)
      rfl rfl rfl hmem (Nat.sub_le _ _) hok1
  · exact hok1

theorem RegenerateLastResponse_rolesOK (env : Env) (s : State) (u : String)
    (hok : rolesOK s) : rolesOK (RegenerateLastResponse env s u).2 := by
  obtain ⟨hok1, _⟩ := getOrCreateSession_rolesOK env s u hok
  have hmem := mem_of_mapGet _ _ _ (getOrCreateSession_lookup env s u)
  unfold RegenerateLastResponse
  simp only
  split
  · exact hok1
  · apply GenerateResponse_rolesOK
    exact cut_rolesOK (getOrCreateSession env s u).2 _ u (getOrCreateSession env s u).1 _
      (sliceLen (getOrCreateSession env s u).2.heap (getOrCreateSession env s u).1.Messages - 1)
      rfl rfl rfl hmem (Nat.sub_le _ _) hok1

theorem ContinueChat_rolesOK (env : Env) (s : State) (u : String) (r : String × State)
    (hrun : ContinueChat env s u = some r) (hok : rolesOK s) : rolesOK r.2 := by
  unfold ContinueChat at hrun
  simp only at hrun
  split at hrun
  · cases hrun
  · cases hrun
    rw [GenerateResponse_getOrCreateSession]
    exact GenerateResponse_rolesOK env s u hok

theorem SaveChat_rolesOK (env : Env) (s : State) (u : String) (hok : rolesOK s) :
    rolesOK (SaveChat env s u).2 := by
  have hok0 : rolesOK (GenerateID env s).2 := rolesOK_congr s _ rfl rfl hok
  obtain ⟨hok1, hsl⟩ := getOrCreateSession_rolesOK env (GenerateID env s).2 u hok0
  obtain ⟨hheap, hsess⟩ := SaveChat_sessions env s u
  apply rolesOK_of (getOrCreateSession env (GenerateID env s).2 u).2 _ _ _ hok1
  · rw [hheap]
    exact heapStep_refl _
  · intro e he
    rw [hsess] at he
    rcases mem_mapSet _ _ _ _ he with h | h
    · exact Or.inl h
    · refine Or.inr ?_
      rw [h, hheap]
      exact hsl

theorem indexOfID_lt (messageID : String) (l : List Message) (i : Nat)
    (h : indexOfID messageID l = some i) : i < l.length := by
  induction l generalizing i with
  | nil => simp [indexOfID] at h
  | cons msg rest ih =>
    by_cases hid : msg.ID = messageID
    · simp [indexOfID, hid] at h
      subst h
      simp
    · simp only [indexOfID, if_neg hid, Option.map_eq_some'] at h
      obtain ⟨j, hj, hij⟩ := h
      have := ih j hj
      simp
      omega

theorem setContent_heapStep (h : Heap) (sl : Slice) (i : Nat) (content : String) :
    heapStep h (setContent h sl i content) := by
  unfold setContent
  cases harr : sl.arr with
  | none => exact heapStep_refl h
  | some a =>
    simp only
    cases hmsg : (h.getD a [])[i]? with
    | none => exact heapStep_refl h
    | some msg =>
      simp only
      apply heapStep_set
      intro j x hx
      rw [List.getElem?_set] at hx
      by_cases hj : i = j
      · rw [if_pos hj] at hx
        subst hj
        split at hx
        · cases hx
          exact Or.inr ⟨msg, hmsg, rfl⟩
        · cases hx
      · rw [if_neg hj] at hx
        exact Or.inr ⟨x, hx, rfl⟩

theorem UpdateMessage_rolesOK (s : State) (messageID content : String) (hok : rolesOK s) :
    rolesOK (UpdateMessage s messageID content).2 := by
  have scan : ∀ (l : List (String × ChatSession)) (h' : Heap),
      updateScan s.heap messageID content l = some h' → heapStep s.heap h' := by
    intro l
    induction l with
    | nil =>
      intro h' hh
      simp [updateScan] at hh
    | cons e rest ih =>
      intro h' hh
      unfold updateScan at hh
      split at hh
      · cases hh
        exact setContent_heapStep _ _ _ _
      · exact ih h' hh
  unfold UpdateMessage
  cases hscan : updateScan s.heap messageID content s.sessions with
  | none => exact hok
  | some h' =>
    simp only
    exact rolesOK_of s _ (scan _ _ hscan) (fun e he => Or.inl he) hok

theorem take_length_take {α : Type} (l : List α) (k : Nat) :
    l.take (l.take k).length = l.take k := by
  rw [List.length_take]
  rcases Nat.le_total k l.length with h | h
  · rw [Nat.min_eq_left h]
  · rw [Nat.min_eq_right h, List.take_of_length_le h, List.take_of_length_le (Nat.le_refl _)]

theorem take_append_length {α : Type} (cur elems rest : List α) :
    (cur ++ elems ++ rest).take (cur.length + elems.length) = cur ++ elems := by
  rw [← List.length_append]
  exact List.take_left' rfl

theorem goAppendAll_heapStep (env : Env) (h : Heap) (sl : Slice) (elems : List Message)
    (helems : ∀ m ∈ elems, validRole m.Role) :
    heapStep h (goAppendAll env h sl elems).2 := by
  unfold goAppendAll
  cases harr : sl.arr with
  | none =>
    simp only
    split
    · exact heapStep_refl h
    · exact heapStep_append h _
  | some a =>
    simp only
    split
    · rename_i hle
      apply heapStep_set
      intro j x hx
      have hn : ((h.getD a []).take (sliceLen h sl)).length = sliceLen h sl := by
        rw [List.length_take]
        omega
      by_cases h1 : j < sliceLen h sl
      · rw [List.append_assoc, List.getElem?_append_left (by omega), List.getElem?_take] at hx
        rw [if_pos h1] at hx
        exact Or.inr ⟨x, hx, rfl⟩
      · by_cases h2 : j < sliceLen h sl + elems.length
        · rw [List.getElem?_append_left (by rw [List.length_append, hn]; omega),
            List.getElem?_append_right (by omega)] at hx
          exact Or.inl (helems x (List.mem_iff_getElem?.mpr ⟨_, hx⟩))
        · rw [List.getElem?_append_right (by rw [List.length_append, hn]; omega),
            List.getElem?_drop] at hx
          simp only [List.length_append, hn] at hx
          have hidx : sliceLen h sl + elems.length + (j - (sliceLen h sl + elems.length)) = j := by
            omega
          rw [hidx] at hx
          exact Or.inr ⟨x, hx, rfl⟩
    · exact heapStep_append h _

theorem goAppendAll_sliceOK (env : Env) (h : Heap) (sl : Slice) (elems : List Message)
    (helems : ∀ m ∈ elems, validRole m.Role) (hok : sliceOK h sl) :
    sliceOK (goAppendAll env h sl elems).2 (goAppendAll env h sl elems).1 := by
  have fresh : ∀ k : Nat, sliceOK
      (h ++ [readSlice h sl ++ elems ++ List.replicate k zeroMessage])
      ⟨some h.length, sliceLen h sl + elems.length⟩ := by
    intro k
    refine ⟨fun a ha => ?_, ?_⟩
    · simp at ha
      simp
      omega
    · unfold sliceLen
      simp only [readSlice, backing, getD_append_length]
      rw [take_append_length]
      intro x hx
      rcases List.mem_append.mp hx with hx | hx
      · exact hok.2 x hx
      · exact helems x hx
  unfold goAppendAll
  cases harr : sl.arr with
  | none =>
    simp only
    split
    · exact hok
    · exact fresh _
  | some a =>
    simp only
    have ha : a < h.length := hok.1 a harr
    split
    · rename_i hle
      refine ⟨fun a' ha' => ?_, ?_⟩
      · simp at ha'
        subst ha'
        simpa using ha
      · have hcur : (h.getD a []).take (sliceLen h sl) = readSlice h sl := by
          simp only [sliceLen, readSlice, backing, harr]
          exact take_length_take _ _
        have hread : ∀ (new : List Message) (k : Nat),
            readSlice (h.set a new) ⟨some a, k⟩ = new.take k := by
          intro new k
          simp only [readSlice, backing, getD_set_same h a _ ha]
        have hlen : sliceLen h sl = (readSlice h sl).length := rfl
        rw [hread, hcur, hlen, take_append_length]
        intro x hx
        rcases List.mem_append.mp hx with hx | hx
        · exact hok.2 x hx
        · exact helems x hx
    · exact fresh _

theorem deleteScan_roles (env : Env) (h : Heap) (messageID : String) :
    ∀ (l : List (String × ChatSession)) (r : List (String × ChatSession) × Heap),
      (∀ e ∈ l, sliceOK h e.2.Messages) → deleteScan env h messageID l = some r →
      heapStep h r.2 ∧ ∀ e ∈ r.1, e ∈ l ∨ sliceOK r.2 e.2.Messages := by
  intro l
  induction l with
  | nil =>
    intro r _ hr
    simp [deleteScan] at hr
  | cons e rest ih =>
    intro r hl hr
    unfold deleteScan at hr
    cases hidx : indexOfID messageID (readSlice h e.2.Messages) with
    | some i =>
      rw [hidx] at hr
      simp only [Option.some.injEq] at hr
      subst hr
      have hi := indexOfID_lt _ _ _ hidx
      have he := hl e (List.mem_cons_self _ _)
      have helems : ∀ m ∈ (readSlice h e.2.Messages).drop (i + 1), validRole m.Role :=
        fun m hm => he.2 m (List.mem_of_mem_drop hm)
      have hcut : sliceOK h (reslice e.2.Messages i) :=
        sliceOK_reslice h _ i (Nat.le_of_lt hi) he
      refine ⟨goAppendAll_heapStep env h _ _ helems, ?_⟩
      intro x hx
      rcases List.mem_cons.mp hx with hx | hx
      · refine Or.inr ?_
        rw [hx]
        exact goAppendAll_sliceOK env h _ _ helems hcut
      · exact Or.inl (List.mem_cons_of_mem _ hx)
    | none =>
      rw [hidx] at hr
      simp only at hr
      cases hrest : deleteScan env h messageID rest with
      | none => simp [hrest] at hr
      | some r0 =>
        rw [hrest] at hr
        simp only [Option.some.injEq] at hr
        subst hr
        obtain ⟨hstep, hmem⟩ := ih r0 (fun x hx => hl x (List.mem_cons_of_mem _ hx)) hrest
        refine ⟨hstep, ?_⟩
        intro x hx
        rcases List.mem_cons.mp hx with hx | hx
        · exact Or.inl (hx ▸ List.mem_cons_self _ _)
        · rcases hmem x hx with h1 | h1
          · exact Or.inl (List.mem_cons_of_mem _ h1)
          · exact Or.inr h1

theorem DeleteMessage_rolesOK (env : Env) (s : State) (messageID : String) (hok : rolesOK s) :
    rolesOK (DeleteMessage env s messageID).2 := by
  unfold DeleteMessage
  cases hscan : deleteScan env s.heap messageID s.sessions with
  | none => exact hok
  | some r =>
    simp only
    obtain ⟨hstep, hmem⟩ := deleteScan_roles env s.heap messageID s.sessions r hok hscan
    exact rolesOK_of s _ hstep hmem hok

theorem CleanupInactiveSessions_rolesOK (env : Env) (s : State) (timeout : Int)
    (hok : rolesOK s) : rolesOK (CleanupInactiveSessions env s timeout) := by
  refine rolesOK_of s _ ?_ ?_ hok
  · simp only [CleanupInactiveSessions, timeNow]
    exact heapStep_refl _
  intro e he
  simp only [CleanupInactiveSessions, timeNow, foldl_mapDelete] at he
  exact Or.inl (List.mem_of_mem_filter he)

theorem Call.run_rolesOK (env : Env) (s s' : State) (call : Call)
    (hrole : call.roleValid) (hrun : call.run env s = some s') (hok : rolesOK s) :
    rolesOK s' := by
  cases call with
  | createNewChat u =>
    cases hrun
    exact CreateNewChat_rolesOK env s u hok
  | addMessage u role content =>
    cases hrun
    exact AddMessage_rolesOK env s u role content hrole hok
  | generateResponse u =>
    cases hrun
    exact GenerateResponse_rolesOK env s u hok
  | getChatHistory u =>
    cases hrun
    exact (getOrCreateSession_rolesOK env s u hok).1
  | clearChat u =>
    cases hrun
    exact ClearChat_rolesOK env s u hok
  | removeLastMessage u =>
    cases hrun
    exact RemoveLastMessage_rolesOK env s u hok
  | updateMessage messageID content =>
    cases hrun
    exact UpdateMessage_rolesOK s messageID content hok
  | deleteMessage messageID =>
    cases hrun
    exact DeleteMessage_rolesOK env s messageID hok
  | cleanupInactiveSessions timeout =>
    cases hrun
    exact CleanupInactiveSessions_rolesOK env s timeout hok
  | regenerateLastResponse u =>
    cases hrun
    exact RegenerateLastResponse_rolesOK env s u hok
  | continueChat u =>
    simp only [Call.run, Option.map_eq_some'] at hrun
    obtain ⟨r, hr, hrs⟩ := hrun
    exact hrs ▸ ContinueChat_rolesOK env s u r hr hok
  | saveChat u =>
    cases hrun
    exact SaveChat_rolesOK env s u hok
  | exportChat u format =>
    simp only [Call.run, Option.some.injEq] at hrun
    rw [← hrun, ExportChat_state]
    exact (getOrCreateSession_rolesOK env s u hok).1

theorem runCalls_rolesOK (env : Env) (calls : List Call) :
    ∀ (s s' : State), (∀ c ∈ calls, c.roleValid) → runCalls env s calls = some s' →
      rolesOK s → rolesOK s' := by
  induction calls with
  | nil =>
    intro s s' _ hrun hok
    simp only [runCalls, Option.some.injEq] at hrun
    exact hrun ▸ hok
  | cons call rest ih =>
    intro s s' hroles hrun hok
    unfold runCalls at hrun
    cases hcall : call.run env s with
    | none => simp [hcall] at hrun
    | some s1 =>
      rw [hcall] at hrun
      exact ih s1 s' (fun c hc => hroles c (List.mem_cons_of_mem _ hc)) hrun
        (Call.run_rolesOK env s s1 call (hroles call (List.mem_cons_self _ _)) hcall hok)

/-! ## The claims, third part: the roles -/

/-- C26, counterexample: `AddMessage` stores the role it is given without
looking at it; after one call on a fresh store with the role `narrator` the
history of the user holds a message with that role. -/
theorem C26_counterexample :
    (runCalls replyEnv State.init [.addMessage "u" "narrator" "x"]).map
        (fun s => (history replyEnv s "u").map (fun m => m.Role)) = some ["narrator"] ∧
    ¬ validRole "narrator" := by
  decide

/-- C26, amended: in every state reached from a store without sessions (any
persona configuration, any cache) by a sequence of calls of the methods of
`ChatManager` in which every `AddMessage` is given one of the roles system,
user, assistant, every message of every session, and of every history read
afterwards (a session created by the read included), has one of these three
roles; a call of `AddMessage` itself ends the history with a message of
whatever role it was given. -/
theorem C26_roles_of_reachable (env : Env) (s0 s : State) (calls : List Call)
    (hempty : s0.sessions = []) (hroles : ∀ c ∈ calls, c.roleValid)
    (hrun : runCalls env s0 calls = some s) :
    (∀ e ∈ s.sessions, ∀ m ∈ readSlice s.heap e.2.Messages, validRole m.Role) ∧
    (∀ u : String, ∀ m ∈ history env s u, validRole m.Role) ∧
    (∀ u role content : String,
      lastRole (history env (AddMessage env s u role content) u) = some role) := by
  have h0 : rolesOK s0 := by
    intro e he
    rw [hempty] at he
    cases he
  have hok : rolesOK s := runCalls_rolesOK env calls s0 s hroles hrun h0
  refine ⟨fun e he => (hok e he).2, fun u => ?_, fun u role content => ?_⟩
  · rw [history_eq]
    exact (getOrCreateSession_rolesOK env s u hok).2.2
  · rw [AddMessage_history]
    simp [lastRole]

theorem C26_roles_of_reachable_witness :
    State.init.sessions = [] ∧
    (∀ c ∈ [Call.addMessage "u" "user" "hi", .generateResponse "u", .saveChat "u",
        .deleteMessage "1001"], c.roleValid) ∧
    runCalls replyEnv State.init [.addMessage "u" "user" "hi", .generateResponse "u",
        .saveChat "u", .deleteMessage "1001"]
      = some (DeleteMessage replyEnv
          (SaveChat replyEnv (GenerateResponse replyEnv oneTurn "u").2 "u").2 "1001").2 ∧
    ((∀ e ∈ (DeleteMessage replyEnv
          (SaveChat replyEnv (GenerateResponse replyEnv oneTurn "u").2 "u").2 "1001").2.sessions,
        ∀ m ∈ readSlice (DeleteMessage replyEnv
            (SaveChat replyEnv (GenerateResponse replyEnv oneTurn "u").2 "u").2 "1001").2.heap
          e.2.Messages, validRole m.Role) ∧
      (∀ u : String, ∀ m ∈ history replyEnv (DeleteMessage replyEnv
          (SaveChat replyEnv (GenerateResponse replyEnv oneTurn "u").2 "u").2 "1001").2 u,
        validRole m.Role) ∧
      (∀ u role content : String,
        lastRole (history replyEnv (AddMessage replyEnv (DeleteMessage replyEnv
          (SaveChat replyEnv (GenerateResponse replyEnv oneTurn "u").2 "u").2 "1001").2
          u role content) u) = some role)) :=
  ⟨rfl, by decide, rfl,
    C26_roles_of_reachable replyEnv State.init _
      [.addMessage "u" "user" "hi", .generateResponse "u", .saveChat "u", .deleteMessage "1001"]
      rfl (by decide) rfl⟩

/-! ## Lemmas: the mutex and the unset fields -/

theorem lock_of_free (r : Run) (hfree : r.held = false) :
    r.lock = some ⟨r.openAI, r.state, true, r.events ++ [.lock]⟩ := by
  simp [Run.lock, hfree]

theorem run_AddMessage (env : Env) (r : Run) (u role content : String)
    (hfree : r.held = false) :
    ChatManager.AddMessage env r u role content
      = (some (), ⟨r.openAI, AddMessage env r.state u role content, false,
          r.events ++ [.lock, .unlock]⟩) := by
  simp [ChatManager.AddMessage, Run.lock, Run.unlock, hfree]

theorem GenerateResponse_applied (env : Env) (s : State) (u : String) :
    decide ((GenerateResponse env s u).1.2 = none)
      = (env.send s.requests.length u (getMessages s u ++ history env s u)).toBool := by
  cases h : env.send s.requests.length u (getMessages s u ++ history env s u) with
  | ok reply => simp [(GenerateResponse_ok env s u reply h).1, Except.toBool]
  | error e => simp [(GenerateResponse_error env s u e h).1, Except.toBool]

theorem run_GenerateCompletion (env : Env) (r : Run) (req : CompletionRequest)
    (hset : r.openAI = ⟨true, true⟩) :
    OpenAIService.GenerateCompletion env r req
      = (some (GenerateCompletion env r.state req).1,
          ⟨r.openAI, (GenerateCompletion env r.state req).2, r.held,
            r.events ++ [.provider r.held]⟩) := by
  unfold OpenAIService.GenerateCompletion GenerateCompletion
  simp only [hset, if_true, ProxyClient.SendRequest, SendRequest]
  cases env.send r.state.requests.length req.UserID
    (getMessages r.state req.UserID ++ readSlice r.state.heap req.Messages) <;> rfl

theorem run_GenerateCompletion_unset (env : Env) (r : Run) (req : CompletionRequest)
    (hunset : r.openAI.cacheAllocated = false ∨ r.openAI.proxyClientSet = false) :
    (OpenAIService.GenerateCompletion env r req).1 = none ∧
    (OpenAIService.GenerateCompletion env r req).2.held = r.held ∧
    (OpenAIService.GenerateCompletion env r req).2.events = r.events ∧
    (OpenAIService.GenerateCompletion env r req).2.state.requests = r.state.requests := by
  unfold OpenAIService.GenerateCompletion
  by_cases hc : r.openAI.cacheAllocated = true
  · have hp : r.openAI.proxyClientSet = false := by
      rcases hunset with h | h
      · rw [hc] at h
        cases h
      · exact h
    simp [hc, hp, ProxyClient.SendRequest]
  · simp [hc]

theorem run_GenerateResponse (env : Env) (r : Run) (u : String)
    (hfree : r.held = false) (hset : r.openAI = ⟨true, true⟩) :
    ChatManager.GenerateResponse env r u
      = (some (GenerateResponse env r.state u).1,
          ⟨r.openAI, (GenerateResponse env r.state u).2, false,
            r.events ++ releasedCall (decide ((GenerateResponse env r.state u).1.2 = none))⟩) := by
  have hrun := run_GenerateCompletion env
    ⟨r.openAI, (getOrCreateSession env r.state u).2, false, r.events ++ [.lock] ++ [.unlock]⟩
    ⟨u, (getOrCreateSession env r.state u).1.Messages⟩ hset
  unfold ChatManager.GenerateResponse GenerateResponse
  simp only [lock_of_free r hfree, Run.unlock, if_true, hrun]
  rcases Option.eq_none_or_eq_some (GenerateCompletion env (getOrCreateSession env r.state u).2
    ⟨u, (getOrCreateSession env r.state u).1.Messages⟩).1.2 with hgc | ⟨e, hgc⟩
  · simp [ChatManager.AddMessage, Run.lock, Run.unlock, releasedCall, hgc]
  · simp [releasedCall, hgc]

theorem run_GenerateResponse_unset (env : Env) (r : Run) (u : String)
    (hfree : r.held = false)
    (hunset : r.openAI.cacheAllocated = false ∨ r.openAI.proxyClientSet = false) :
    (ChatManager.GenerateResponse env r u).1 = none ∧
    (ChatManager.GenerateResponse env r u).2.held = false ∧
    (ChatManager.GenerateResponse env r u).2.events = r.events ++ [.lock, .unlock] ∧
    (ChatManager.GenerateResponse env r u).2.state.requests = r.state.requests := by
  have hreq := (getOrCreateSession_frame env r.state u)
  obtain ⟨h1, h2, h3, h4⟩ := run_GenerateCompletion_unset env
    ⟨r.openAI, (getOrCreateSession env r.state u).2, false, r.events ++ [.lock] ++ [.unlock]⟩
    ⟨u, (getOrCreateSession env r.state u).1.Messages⟩ hunset
  unfold ChatManager.GenerateResponse
  simp only [lock_of_free r hfree, Run.unlock, if_true, h1, h2, h3, h4]
  simp [hreq.2]

theorem run_RegenerateLastResponse_lt (env : Env) (r : Run) (u : String)
    (hfree : r.held = false) (hn : (history env r.state u).length < 2) :
    ChatManager.RegenerateLastResponse env r u
      = (some "No message to regenerate!",
          ⟨r.openAI, (getOrCreateSession env r.state u).2, false,
            r.events ++ [.lock, .unlock]⟩) := by
  have hn' : sliceLen (getOrCreateSession env r.state u).2.heap
      (getOrCreateSession env r.state u).1.Messages < 2 := hn
  unfold ChatManager.RegenerateLastResponse
  simp [lock_of_free r hfree, Run.unlock, hn']

theorem run_RegenerateLastResponse_ge (env : Env) (r : Run) (u : String)
    (hfree : r.held = false) (hset : r.openAI = ⟨true, true⟩)
    (hn : 2 ≤ (history env r.state u).length) :
    ChatManager.RegenerateLastResponse env r u
      = (some (RegenerateLastResponse env r.state u).1,
          ⟨r.openAI, (RegenerateLastResponse env r.state u).2, false,
            r.events ++ [.lock, .unlock] ++ releasedCall
              (env.send r.state.requests.length u (getMessages r.state u ++
                (history env r.state u).take ((history env r.state u).length - 1))).toBool⟩) := by
  have hn' : ¬ sliceLen (getOrCreateSession env r.state u).2.heap
      (getOrCreateSession env r.state u).1.Messages < 2 := Nat.not_lt.mpr hn
  have hc := getOrCreateSession_frame env r.state u
  obtain ⟨s2, hs2⟩ : ∃ s2 : State, s2 = { (getOrCreateSession env r.state u).2 with
    sessions := mapSet (getOrCreateSession env r.state u).2.sessions u
      { (getOrCreateSession env r.state u).1 with
        Messages := reslice (getOrCreateSession env r.state u).1.Messages
          (sliceLen (getOrCreateSession env r.state u).2.heap
            (getOrCreateSession env r.state u).1.Messages - 1) } } := ⟨_, rfl⟩
  have hold : RegenerateLastResponse env r.state u
      = ((GenerateResponse env s2 u).1.1, (GenerateResponse env s2 u).2) := by
    unfold RegenerateLastResponse
    simp only [if_neg hn', hs2]
  have hreq : s2.requests = r.state.requests := by rw [hs2]; exact hc.2
  have hmsg : getMessages s2 u = getMessages r.state u := by
    simp only [getMessages, hs2, hc.1]
  have hhist : history env s2 u
      = (history env r.state u).take ((history env r.state u).length - 1) := by
    rw [hs2, history_of_lookup env _ u _ (mapGet_mapSet_same _ _ _)]
    exact readSlice_reslice _ _ _ (Nat.sub_le _ _)
  have hgen := run_GenerateResponse env
    ⟨r.openAI, s2, false, r.events ++ [.lock] ++ [.unlock]⟩ u rfl hset
  rw [GenerateResponse_applied, hreq, hmsg, hhist] at hgen
  rw [hold]
  unfold ChatManager.RegenerateLastResponse
  simp only [lock_of_free r hfree, Run.unlock, if_neg hn', if_true, ← hs2, hgen]
  simp

theorem run_RegenerateLastResponse_unset (env : Env) (r : Run) (u : String)
    (hfree : r.held = false)
    (hunset : r.openAI.cacheAllocated = false ∨ r.openAI.proxyClientSet = false)
    (hn : 2 ≤ (history env r.state u).length) :
    (ChatManager.RegenerateLastResponse env r u).1 = none ∧
    (ChatManager.RegenerateLastResponse env r u).2.held = false ∧
    (ChatManager.RegenerateLastResponse env r u).2.events
      = r.events ++ [.lock, .unlock, .lock, .unlock] := by
  have hn' : ¬ sliceLen (getOrCreateSession env r.state u).2.heap
      (getOrCreateSession env r.state u).1.Messages < 2 := Nat.not_lt.mpr hn
  obtain ⟨s2, hs2⟩ : ∃ s2 : State, s2 = { (getOrCreateSession env r.state u).2 with
    sessions := mapSet (getOrCreateSession env r.state u).2.sessions u
      { (getOrCreateSession env r.state u).1 with
        Messages := reslice (getOrCreateSession env r.state u).1.Messages
          (sliceLen (getOrCreateSession env r.state u).2.heap
            (getOrCreateSession env r.state u).1.Messages - 1) } } := ⟨_, rfl⟩
  obtain ⟨h1, h2, h3, _⟩ := run_GenerateResponse_unset env
    ⟨r.openAI, s2, false, r.events ++ [.lock] ++ [.unlock]⟩ u rfl hunset
  unfold ChatManager.RegenerateLastResponse
  simp only [lock_of_free r hfree, Run.unlock, if_neg hn', if_true, ← hs2, h1]
  simp only [h2, h3]
  simp

theorem run_ContinueChat_empty (env : Env) (r : Run) (u : String)
    (hfree : r.held = false) (he : history env r.state u = []) :
    ChatManager.ContinueChat env r u
      = (none, ⟨r.openAI, (getOrCreateSession env r.state u).2, true, r.events ++ [.lock]⟩) := by
  have hidx := goIndex_empty (getOrCreateSession env r.state u).2.heap
    (getOrCreateSession env r.state u).1.Messages he
  unfold ChatManager.ContinueChat
  simp only [lock_of_free r hfree, hidx]

theorem run_ContinueChat (env : Env) (r : Run) (u : String)
    (hfree : r.held = false) (hset : r.openAI = ⟨true, true⟩)
    (hne : history env r.state u ≠ []) :
    ChatManager.ContinueChat env r u
      = ((ContinueChat env r.state u).map (fun out => out.1),
          ⟨r.openAI, (GenerateResponse env r.state u).2, false,
            r.events ++ [.lock, .unlock] ++ releasedCall
              (env.send r.state.requests.length u
                (getMessages r.state u ++ history env r.state u)).toBool⟩) := by
  obtain ⟨last, _, hidx⟩ := goIndex_last (getOrCreateSession env r.state u).2.heap
    (getOrCreateSession env r.state u).1.Messages hne
  have hgen := run_GenerateResponse env
    ⟨r.openAI, (getOrCreateSession env r.state u).2, false, r.events ++ [.lock] ++ [.unlock]⟩
    u rfl hset
  simp only [GenerateResponse_getOrCreateSession] at hgen
  rw [GenerateResponse_applied] at hgen
  unfold ChatManager.ContinueChat ContinueChat
  simp only [lock_of_free r hfree, Run.unlock, if_true, hidx, hgen,
    GenerateResponse_getOrCreateSession]
  simp

theorem run_ContinueChat_unset (env : Env) (r : Run) (u : String)
    (hfree : r.held = false)
    (hunset : r.openAI.cacheAllocated = false ∨ r.openAI.proxyClientSet = false) :
    (ChatManager.ContinueChat env r u).1 = none ∧
    (ChatManager.ContinueChat env r u).2.state.requests = r.state.requests ∧
    ((ChatManager.ContinueChat env r u).2.events = r.events ++ [.lock] ∨
      (ChatManager.ContinueChat env r u).2.events
        = r.events ++ [.lock, .unlock, .lock, .unlock]) := by
  have hc := getOrCreateSession_frame env r.state u
  obtain ⟨h1, _, h3, h4⟩ := run_GenerateResponse_unset env
    ⟨r.openAI, (getOrCreateSession env r.state u).2, false, r.events ++ [.lock] ++ [.unlock]⟩
    u rfl hunset
  unfold ChatManager.ContinueChat
  simp only [lock_of_free r hfree, Run.unlock, if_true]
  rcases Option.eq_none_or_eq_some (goIndex (getOrCreateSession env r.state u).2.heap
    (getOrCreateSession env r.state u).1.Messages
    ((sliceLen (getOrCreateSession env r.state u).2.heap
      (getOrCreateSession env r.state u).1.Messages : Int) - 1)) with hidx | ⟨last, hidx⟩
  · simp only [hidx]
    exact ⟨trivial, hc.2, Or.inl trivial⟩
  · simp only [hidx, h1]
    refine ⟨trivial, ?_, Or.inr ?_⟩
    · rw [h4]
      exact hc.2
    · rw [h3]
      simp

theorem openAI_set_or_unset (svc : OpenAIService) :
    svc = ⟨true, true⟩ ∨ (svc.cacheAllocated = false ∨ svc.proxyClientSet = false) := by
  obtain ⟨c, p⟩ := svc
  cases c <;> cases p <;> simp

theorem releasedCall_free (applied : Bool) : ∀ e ∈ releasedCall applied, e ≠ .provider true := by
  cases applied <;> simp [releasedCall]

theorem lockFreeAtProvider_of (before added after : List Event)
    (hafter : after = before ++ added) (hfree : ∀ e ∈ added, e ≠ .provider true) :
    lockFreeAtProvider before after :=
  ⟨added, hafter, hfree⟩

theorem run_GenerateResponse_lockFree (env : Env) (r : Run) (u : String)
    (hfree : r.held = false) :
    lockFreeAtProvider r.events (ChatManager.GenerateResponse env r u).2.events := by
  rcases openAI_set_or_unset r.openAI with hset | hunset
  · rw [run_GenerateResponse env r u hfree hset]
    exact lockFreeAtProvider_of _ _ _ rfl (releasedCall_free _)
  · exact lockFreeAtProvider_of _ [.lock, .unlock] _
      (run_GenerateResponse_unset env r u hfree hunset).2.2.1 (by simp)

theorem run_RegenerateLastResponse_lockFree (env : Env) (r : Run) (u : String)
    (hfree : r.held = false) :
    lockFreeAtProvider r.events (ChatManager.RegenerateLastResponse env r u).2.events := by
  rcases Nat.lt_or_ge (history env r.state u).length 2 with hn | hn
  · rw [run_RegenerateLastResponse_lt env r u hfree hn]
    exact lockFreeAtProvider_of _ [.lock, .unlock] _ rfl (by simp)
  · rcases openAI_set_or_unset r.openAI with hset | hunset
    · rw [run_RegenerateLastResponse_ge env r u hfree hset hn]
      refine lockFreeAtProvider_of _ ([.lock, .unlock] ++ releasedCall _) _
        (List.append_assoc _ _ _) ?_
      intro e he
      rcases List.mem_append.mp he with h | h
      · revert h
        simp
        rintro (rfl | rfl) <;> simp
      · exact releasedCall_free _ e h
    · exact lockFreeAtProvider_of _ [.lock, .unlock, .lock, .unlock] _
        (run_RegenerateLastResponse_unset env r u hfree hunset hn).2.2 (by simp)

theorem run_ContinueChat_lockFree (env : Env) (r : Run) (u : String)
    (hfree : r.held = false) :
    lockFreeAtProvider r.events (ChatManager.ContinueChat env r u).2.events := by
  by_cases he : history env r.state u = []
  · rw [run_ContinueChat_empty env r u hfree he]
    exact lockFreeAtProvider_of _ [.lock] _ rfl (by simp)
  · rcases openAI_set_or_unset r.openAI with hset | hunset
    · rw [run_ContinueChat env r u hfree hset he]
      refine lockFreeAtProvider_of _ ([.lock, .unlock] ++ releasedCall _) _
        (List.append_assoc _ _ _) ?_
      intro e he
      rcases List.mem_append.mp he with h | h
      · revert h
        simp
        rintro (rfl | rfl) <;> simp
      · exact releasedCall_free _ e h
    · rcases (run_ContinueChat_unset env r u hfree hunset).2.2 with h | h
      · exact lockFreeAtProvider_of _ [.lock] _ h (by simp)
      · exact lockFreeAtProvider_of _ [.lock, .unlock, .lock, .unlock] _ h (by simp)

/-! ## The claims: faults and the lock around the provider call -/

/-- C11, the code at the failing input: in the program as `main` builds it,
with the `OpenAIService` of `NewOpenAIService`, `ContinueChat` does not return
and issues no provider request, for every store and every user: for a
non-empty history the index is in bounds and the call panics further on, at
the assignment to the nil map `cache` in `GenerateCompletion`. At the sample
store the history is one message; the call panics as wired, and returns the
text of the claim when `cache` and `proxyClient` are set. -/
theorem C11_ContinueChat_panics_as_wired :
    (∀ (env : Env) (s : State) (u : String),
      (ChatManager.ContinueChat env (wired s) u).1 = none ∧
      (ChatManager.ContinueChat env (wired s) u).2.state.requests = s.requests) ∧
    history replyEnv oneTurn "u" = [⟨"1001", "user", "hi", 1002⟩] ∧
    (ChatManager.ContinueChat replyEnv (wired oneTurn) "u").1 = none ∧
    (ChatManager.ContinueChat replyEnv (wired oneTurn) "u").2.events
      = [.lock, .unlock, .lock, .unlock] ∧
    (ChatManager.ContinueChat replyEnv (ready oneTurn) "u").1
      = some "Continuing from: hi\n\nr" := by
  refine ⟨fun env s u => ?_, by decide, by decide, by decide, by decide⟩
  have h := run_ContinueChat_unset env (wired s) u rfl (Or.inl rfl)
  exact ⟨h.1, h.2.1⟩

/-- C30: a call of `GenerateResponse`, `RegenerateLastResponse` or
`ContinueChat` that starts without the lock of the session store never has the
lock when it calls the provider, whatever the store, the user and the fields
of the service are. With the fields set, the log of the call is exactly: lock
and unlock for reading (and cutting) the history, the provider call with the
lock free, and one more lock and unlock exactly when the provider answered and
the reply is applied; the lock is free at the end. -/
theorem C30_lock_free_at_provider (env : Env) (r : Run) (u : String)
    (hfree : r.held = false) :
    (lockFreeAtProvider r.events (ChatManager.GenerateResponse env r u).2.events ∧
      lockFreeAtProvider r.events (ChatManager.RegenerateLastResponse env r u).2.events ∧
      lockFreeAtProvider r.events (ChatManager.ContinueChat env r u).2.events) ∧
    (r.openAI = ⟨true, true⟩ →
      ((ChatManager.GenerateResponse env r u).1 = some (GenerateResponse env r.state u).1 ∧
        (ChatManager.GenerateResponse env r u).2.held = false ∧
        (ChatManager.GenerateResponse env r u).2.events
          = r.events ++ releasedCall (env.send r.state.requests.length u
              (getMessages r.state u ++ history env r.state u)).toBool) ∧
      ((history env r.state u).length < 2 →
        (ChatManager.RegenerateLastResponse env r u).1 = some "No message to regenerate!" ∧
        (ChatManager.RegenerateLastResponse env r u).2.held = false ∧
        (ChatManager.RegenerateLastResponse env r u).2.events
          = r.events ++ [.lock, .unlock]) ∧
      (2 ≤ (history env r.state u).length →
        (ChatManager.RegenerateLastResponse env r u).1
          = some (RegenerateLastResponse env r.state u).1 ∧
        (ChatManager.RegenerateLastResponse env r u).2.held = false ∧
        (ChatManager.RegenerateLastResponse env r u).2.events
          = r.events ++ [.lock, .unlock] ++ releasedCall
              (env.send r.state.requests.length u (getMessages r.state u ++
                (history env r.state u).take ((history env r.state u).length - 1))).toBool) ∧
      (history env r.state u ≠ [] →
        (ChatManager.ContinueChat env r u).1
          = (ContinueChat env r.state u).map (fun out => out.1) ∧
        (ChatManager.ContinueChat env r u).2.held = false ∧
        (ChatManager.ContinueChat env r u).2.events
          = r.events ++ [.lock, .unlock] ++ releasedCall
              (env.send r.state.requests.length u
                (getMessages r.state u ++ history env r.state u)).toBool)) := by
  refine ⟨⟨run_GenerateResponse_lockFree env r u hfree,
    run_RegenerateLastResponse_lockFree env r u hfree,
    run_ContinueChat_lockFree env r u hfree⟩, fun hset => ⟨?_, ?_, ?_, ?_⟩⟩
  · rw [run_GenerateResponse env r u hfree hset, GenerateResponse_applied]
    exact ⟨rfl, rfl, rfl⟩
  · intro hn
    rw [run_RegenerateLastResponse_lt env r u hfree hn]
    exact ⟨rfl, rfl, rfl⟩
  · intro hn
    rw [run_RegenerateLastResponse_ge env r u hfree hset hn]
    exact ⟨rfl, rfl, rfl⟩
  · intro hne
    rw [run_ContinueChat env r u hfree hset hne]
    exact ⟨rfl, rfl, rfl⟩

/-- C30 at sample inputs: after one user message, with the provider answering
and with the provider failing; and a regeneration of the greeting. -/
theorem C30_lock_free_at_provider_witness :
    (ready oneTurn).held = false ∧
    (ready oneTurn).openAI = ⟨true, true⟩ ∧
    lockFreeAtProvider [] (ChatManager.GenerateResponse replyEnv (ready oneTurn) "u").2.events ∧
    (ChatManager.GenerateResponse replyEnv (ready oneTurn) "u").2.events
      = [.lock, .unlock, .provider false, .lock, .unlock] ∧
    (ChatManager.GenerateResponse downEnv (ready oneTurn) "u").2.events
      = [.lock, .unlock, .provider false] ∧
    (ChatManager.RegenerateLastResponse replyEnv (ready oneTurn) "u").2.events
      = [.lock, .unlock] ∧
    (ChatManager.RegenerateLastResponse replyEnv (ready greeted) "u").2.events
      = [.lock, .unlock, .lock, .unlock, .provider false, .lock, .unlock] ∧
    (ChatManager.ContinueChat replyEnv (ready oneTurn) "u").2.events
      = [.lock, .unlock, .lock, .unlock, .provider false, .lock, .unlock] ∧
    (ChatManager.ContinueChat replyEnv (ready oneTurn) "u").2.held = false :=
  ⟨rfl, rfl,
    (C30_lock_free_at_provider replyEnv (ready oneTurn) "u" rfl).1.1,
    ((C30_lock_free_at_provider replyEnv (ready oneTurn) "u" rfl).2 rfl).1.2.2,
    ((C30_lock_free_at_provider downEnv (ready oneTurn) "u" rfl).2 rfl).1.2.2,
    (((C30_lock_free_at_provider replyEnv (ready oneTurn) "u" rfl).2 rfl).2.1
      (by decide)).2.2,
    (((C30_lock_free_at_provider replyEnv (ready greeted) "u" rfl).2 rfl).2.2.1
      (by decide)).2.2,
    (((C30_lock_free_at_provider replyEnv (ready oneTurn) "u" rfl).2 rfl).2.2.2
      (by decide)).2.2,
    (((C30_lock_free_at_provider replyEnv (ready oneTurn) "u" rfl).2 rfl).2.2.2
      (by decide)).2.1⟩

end ChatBot
